import Mathlib

/-!
A shallow embedding of the EVLambda evaluation core (system-files/core.js
variant shipped as the web-worker core) into Lean 4, together with theorems
settling the specification claims about it.

Modelling conventions, chosen once and used throughout:

* JS strings are lists of UTF-16 code units (`List Nat`), because the
  tokenizer and printer operate on code units and may handle lone
  surrogates.  Interned symbol names use the same representation.
* The JS number field of `EVLNumber` is modelled by `Rat`.  All evaluators
  share this number model, so statements comparing evaluators are
  insensitive to it; statements about IEEE-754 formatting are out of the
  embedding and are flagged as such where they matter.
* Mutable heap objects are made explicit: lexical/dynamic `Frame`s live in
  an allocation list inside the evaluator state, and `EVLCons`, `EVLVector`
  and `EVLClosure` values carry an allocation identifier so that the
  reference equality used by `eq?`/`eql?` is expressible.  A fresh-id
  counter is threaded through every allocation site.
* JS exceptions are `Except` errors carrying an `Err` value whose `name`
  mirrors the JS error class name.
* Host recursion / unbounded driver loops take an explicit fuel argument;
  running out of fuel is a distinguished `timeout` outcome, never confused
  with a value or an error.
-/

set_option maxHeartbeats 1000000

namespace EVL

/-- UTF-16 code units of an ASCII Lean string literal; used to write the
interned names appearing in the core (`quote`, `_mlambda`, ...). -/
def nm (s : String) : List Nat := s.toList.map Char.toNat

/-! ## Scope-extent combinations and namespaces (source lines 1600-1608) -/

/-- `LEX_SCOPE` / `DYN_SCOPE`. -/
inductive Scope | lex | dyn
deriving DecidableEq, Repr

/-- `VAL_NS` / `FUN_NS`. -/
inductive Ns | val | fn
deriving DecidableEq, Repr

/-! ## Errors

One constructor per JS error class thrown by the core; `name` mirrors the
JS `name` property used by `_catch-errors` and by the response envelope. -/

inductive Err
  | cannotHappen (site : String)
  | aborted
  | tokenizerError (msg : String)
  | truncatedToken (msg : String)
  | readerError (msg : String)
  | unexpectedDot
  | unexpectedClosingParenthesis
  | unexpectedXMLEndTag
  | unexpectedEndOfInput
  | evlToXMLConverterError (msg : String)
  | formAnalyzerError (formName : String)
  | evaluatorError (msg : String)
  | unboundVariable (name : List Nat) (ns : Ns)
  | tooFewArguments
  | tooManyArguments
  | malformedSpreadableSequenceOfObjects
  | jsError (msg : List Nat)
  | jsTypeError (site : String)
  | jsRangeError (site : String)
deriving DecidableEq, Repr

/-- The JS `name` property of the exception (the string `_catch-errors`
converts an error to). -/
def Err.name : Err → String
  | .cannotHappen _ => "CannotHappen"
  | .aborted => "Aborted"
  | .tokenizerError _ => "TokenizerError"
  | .truncatedToken _ => "TruncatedToken"
  | .readerError _ => "ReaderError"
  | .unexpectedDot => "UnexpectedDot"
  | .unexpectedClosingParenthesis => "UnexpectedClosingParenthesis"
  | .unexpectedXMLEndTag => "UnexpectedXMLEndTag"
  | .unexpectedEndOfInput => "UnexpectedEndOfInput"
  | .evlToXMLConverterError _ => "EVLToXMLConverterError"
  | .formAnalyzerError _ => "FormAnalyzerError"
  | .evaluatorError _ => "EvaluatorError"
  | .unboundVariable _ _ => "UnboundVariable"
  | .tooFewArguments => "TooFewArguments"
  | .tooManyArguments => "TooManyArguments"
  | .malformedSpreadableSequenceOfObjects => "MalformedSpreadableSequenceOfObjects"
  | .jsError _ => "Error"
  | .jsTypeError _ => "TypeError"
  | .jsRangeError _ => "RangeError"

/-- `instanceof TruncatedToken` (TruncatedToken extends TokenizerError). -/
def Err.isTruncatedToken : Err → Bool
  | .truncatedToken _ => true
  | _ => false

/-- `instanceof ReaderError` with name UnexpectedEndOfInput. -/
def Err.isUnexpectedEndOfInput : Err → Bool
  | .unexpectedEndOfInput => true
  | _ => false

/-! ## Environments: pointers into the frame heap

`nullEnv` is the `nullDefiniteEnv` singleton; `frame i` points at the
`i`-th allocated `Frame`; `undef` is the JS `undefined` used as the `next`
of dynamic frames pushed on the control stacks. -/

inductive EnvPtr
  | nullEnv
  | frame (i : Nat)
  | undef
deriving DecidableEq, Repr

/-- The names of the embedded primitive functions.  The full table in the
source also contains `make-keyword`, `make-variable`, `set-car!`,
`set-cdr!`, `_/`, `%` and `now`; those depend on object identity of
non-interned symbols, on cons mutation, on IEEE-754 division or on the
clock, none of which the claims under verification exercise, and they are
left out of the embedded table. -/
inductive PrimName
  | pObject | pEql | pVoid | pBoolean | pNumber
  | pAdd | pSub | pMul | pNumEq | pNumNe | pLt | pLe | pGt | pGe
  | pCharacter | pString | pSymbol | pKeyword | pVariable
  | pVariableValue | pVariableSetValue | pVariableValueBound | pVariableUnbindValue
  | pVariableFunction | pVariableSetFunction | pVariableFunctionBound | pVariableUnbindFunction
  | pList | pEmptyList | pCons | pConsNew | pCar | pCdr
  | pVector | pFunction | pPrimitiveFunction | pClosure
  | pValues | pError
deriving DecidableEq, Repr

mutual

/-- The EVL object universe (`EVLObject` and its subclasses), plus the
preprocessed form nodes of the trampoline++ evaluator, which the source
stores inside the same cons cells as ordinary objects.  `cons`, `vector`
and `closure` carry the allocation identifier that stands for JS object
identity. -/
inductive Value
  | void
  | bool (b : Bool)
  | num (x : Rat)
  | char (u : Nat)
  | str (units : List Nat)
  | keyword (name : List Nat)
  | varbl (name : List Nat)
  | nil
  | cons (id : Nat) (car cdr : Value)
  | vector (id : Nat) (elements : List Value)
  | primfun (arityMin : Nat) (arityMax : Option Nat) (prim : PrimName)
  | closure (id : Nat) (scope : Scope) (ns : Ns) (macroFlag : Bool)
      (params : List (List Nat)) (rest : Bool) (forms : Value) (lenv : EnvPtr)
  | ppform (f : PPForm)

/-- The `TrampolineppForm` hierarchy produced by `trampolineppPreprocessForm`. -/
inductive PPForm
  | quote (literal : Value)
  | progn (forms : Value)
  | ifF (testForm thenForm elseForm : PPForm)
  | lambda (scope : Scope) (ns : Ns) (macroFlag : Bool)
      (params : List (List Nat)) (rest : Bool) (forms : Value)
  | lref (i j : Nat)
  | gref (ns : Ns) (name : List Nat)
  | dref (ns : Ns) (name : List Nat)
  | lset (i j : Nat) (valueForm : PPForm)
  | gset (ns : Ns) (name : List Nat) (valueForm : PPForm)
  | dset (ns : Ns) (name : List Nat) (valueForm : PPForm)
  | forEach (functionForm listForm : PPForm)
  | catchErrors (tryForm : PPForm)
  | call (mv apply : Bool) (operator : PPForm) (operands : Value)

end

namespace Value

/-- `instanceof EVLList`. -/
def isList : Value → Bool
  | .nil | .cons _ _ _ => true
  | _ => false

/-- `instanceof EVLCons`. -/
def isCons : Value → Bool
  | .cons _ _ _ => true
  | _ => false

/-- `instanceof EVLFunction`. -/
def isFunction : Value → Bool
  | .primfun _ _ _ | .closure _ _ _ _ _ _ _ _ => true
  | _ => false

/-- `instanceof EVLClosure && .macro`. -/
def isMacroClosure : Value → Bool
  | .closure _ _ _ m _ _ _ _ => m
  | _ => false

/-- `instanceof EVLVariable`. -/
def isVarbl : Value → Bool
  | .varbl _ => true
  | _ => false

end Value

/-- The result of one evaluation step: a single `EVLObject` or the
`EVLObjects` multiple-value container returned by `values`. -/
inductive ResultV
  | obj (v : Value)
  | objs (vs : List Value)

/-- `primaryValue()`. -/
def ResultV.primaryValue : ResultV → Value
  | .obj v => v
  | .objs [] => .void
  | .objs (v :: _) => v

/-- `allValues()`. -/
def ResultV.allValues : ResultV → List Value
  | .obj v => [v]
  | .objs vs => vs

/-- One `Frame` on the heap: a namespace, parallel variable/value arrays
and the enclosing environment.  Slots are `Option Value` because the
trampoline++ preprocessor allocates frames filled with JS `null`. -/
structure FrameData where
  ns : Ns
  vars : List (List Nat)
  vals : List (Option Value)
  next : EnvPtr

/-- The mutable global state threaded through evaluation: the frame heap,
the global value- and function-namespace cells of the interned variables
(an absent key is an unbound cell, JS `null`), and the fresh-allocation
counter realising JS object identity. -/
structure St where
  frames : List FrameData
  gv : List (List Nat × Value)
  gf : List (List Nat × Value)
  counter : Nat

/-- Association-list read of a global cell. -/
def cellGet (cells : List (List Nat × Value)) (name : List Nat) : Option Value :=
  match cells.find? (fun p => p.1 = name) with
  | some p => some p.2
  | none => none

/-- Association-list write of a global cell. -/
def cellSet (cells : List (List Nat × Value)) (name : List Nat) (v : Value) :
    List (List Nat × Value) :=
  match cells with
  | [] => [(name, v)]
  | p :: rest => if p.1 = name then (name, v) :: rest else p :: cellSet rest name v

/-- Association-list erase (JS sets the cell to `null`). -/
def cellUnset (cells : List (List Nat × Value)) (name : List Nat) :
    List (List Nat × Value) :=
  match cells with
  | [] => []
  | p :: rest => if p.1 = name then rest else p :: cellUnset rest name

/-- `GlobalEnv.ref` (source lines 1622-1643): the cell of the variable in
the given namespace, or `UnboundVariable`. -/
def globalRef (st : St) (ns : Ns) (name : List Nat) : Except Err Value :=
  match ns with
  | .val =>
    match cellGet st.gv name with
    | some v => .ok v
    | none => .error (.unboundVariable name .val)
  | .fn =>
    match cellGet st.gf name with
    | some v => .ok v
    | none => .error (.unboundVariable name .fn)

/-- `GlobalEnv.set` (source lines 1644-1653); returns the value as JS
assignment expressions do. -/
def globalSet (st : St) (ns : Ns) (name : List Nat) (v : Value) : Value × St :=
  match ns with
  | .val => (v, { st with gv := cellSet st.gv name v })
  | .fn => (v, { st with gf := cellSet st.gf name v })

/-- `GlobalEnv.preprocessorRef` (source lines 1655-1668): the cell contents
with no unbound-variable error, JS `null` becoming `none`. -/
def globalPreprocessorRef (st : St) (ns : Ns) (name : List Nat) : Option Value :=
  match ns with
  | .val => cellGet st.gv name
  | .fn => cellGet st.gf name

/-- Linear search of one frame, `for (j …) if (variables[j] === variable)`;
returns the slot index. -/
def frameFind (vars : List (List Nat)) (name : List Nat) : Option Nat :=
  match vars with
  | [] => none
  | v :: rest => if v = name then some 0 else (frameFind rest name).map (· + 1)

/-- Allocate a frame on the heap, returning its pointer. -/
def allocFrame (st : St) (f : FrameData) : EnvPtr × St :=
  (.frame st.frames.length, { st with frames := st.frames ++ [f] })

/-- `Frame.ref` / `NullDefiniteEnv.ref` (source lines 1682-1713), walking
the chain.  `ok none` is the JS `undefined` produced when a chain ends in
`undefined` (dynamic frames on the control stacks); a slot holding JS
`null` (only preprocessor frames have those and they are never `ref`ed)
surfaces as a host `TypeError` marker.  `gas` bounds the chain walk; every
heap chain is acyclic because `next` always points at an older frame, and
all call sites pass `st.frames.length + 1`. -/
def envRef (st : St) : Nat → EnvPtr → Ns → List Nat → Except Err (Option Value)
  | 0, _, _, _ => .error (.cannotHappen "envRef gas")
  | _ + 1, .nullEnv, ns, name => (globalRef st ns name).map some
  | _, .undef, _, _ => .ok none
  | gas + 1, .frame i, ns, name =>
    match st.frames[i]? with
    | none => .error (.cannotHappen "envRef frame")
    | some f =>
      if f.ns = ns then
        match frameFind f.vars name with
        | some j =>
          match f.vals[j]? with
          | some (some v) => .ok (some v)
          | some none => .error (.jsTypeError "null slot")
          | none => .ok none
        | none => envRef st gas f.next ns name
      else envRef st gas f.next ns name

/-- `Frame.set` / `NullDefiniteEnv.set` (source lines 1685-1723); returns
the value (JS assignment) and the updated state, or `none` when the chain
ends in `undefined` (JS returns `undefined`). -/
def envSet (st : St) : Nat → EnvPtr → Ns → List Nat → Value → Except Err (Option Value × St)
  | 0, _, _, _, _ => .error (.cannotHappen "envSet gas")
  | _ + 1, .nullEnv, ns, name, v => .ok (some v, (globalSet st ns name v).2)
  | _, .undef, _, _, _ => .ok (none, st)
  | gas + 1, .frame i, ns, name, v =>
    match st.frames[i]? with
    | none => .error (.cannotHappen "envSet frame")
    | some f =>
      if f.ns = ns then
        match frameFind f.vars name with
        | some j =>
          .ok (some v, { st with frames := st.frames.set i { f with vals := f.vals.set j (some v) } })
        | none => envSet st gas f.next ns name v
      else envSet st gas f.next ns name v

/-- `Frame.preprocessorRef` / `NullDefiniteEnv.preprocessorRef` (source
lines 1688-1734): `(i, j, value)` with `i = j = none` for a global fall
through.  A chain ending in `undefined` is a host `TypeError` in the
source (`this.next.preprocessorRef` with no optional chaining); it cannot
arise because preprocessor chains always end at `nullDefiniteEnv`. -/
def preprocessorRef (st : St) :
    Nat → EnvPtr → Ns → List Nat → Nat → Except Err (Option (Nat × Nat) × Option Value)
  | 0, _, _, _, _ => .error (.cannotHappen "preprocessorRef gas")
  | _ + 1, .nullEnv, ns, name, _ => .ok (none, globalPreprocessorRef st ns name)
  | _, .undef, _, _, _ => .error (.jsTypeError "preprocessorRef undefined chain")
  | gas + 1, .frame fi, ns, name, i =>
    match st.frames[fi]? with
    | none => .error (.cannotHappen "preprocessorRef frame")
    | some f =>
      if f.ns = ns then
        match frameFind f.vars name with
        | some j => .ok (some (i, j), f.vals.getD j none)
        | none => preprocessorRef st gas f.next ns name (i + 1)
      else preprocessorRef st gas f.next ns name (i + 1)

/-! ## Form analyzer (source lines 1443-1594) -/

/-- `checkProperList`: walks the list, `FormAnalyzerError` on an improper
tail; returns the list itself. -/
def checkProperList (object : Value) (formName : String) : Except Err Value :=
  go object
where
  go : Value → Except Err Value
    | .nil => .ok object
    | .cons _ _ cdr => go cdr
    | _ => .error (.formAnalyzerError formName)

/-- `checkParameterList` (source lines 1483-1513): parameters plus the
rest flag; a bare variable is an all-arguments rest parameter; duplicate
parameters are rejected. -/
def checkParameterList (object : Value) (formName : String) :
    Except Err (List (List Nat) × Bool) :=
  match object with
  | .varbl name => .ok ([name], true)
  | _ => do
    let (parameters, rest) ← go object
    if parameters.Nodup then .ok (parameters, rest)
    else .error (.formAnalyzerError formName)
where
  go : Value → Except Err (List (List Nat) × Bool)
    | .nil => .ok ([], false)
    | .cons _ car cdr => do
      let name ← match car with
        | .varbl name => pure name
        | _ => .error (.formAnalyzerError formName)
      match cdr with
      | .varbl restName => .ok ([name, restName], true)
      | _ => do
        let (names, rest) ← go cdr
        .ok (name :: names, rest)
    | _ => .error (.formAnalyzerError formName)

/-- `analyzeQuote`. -/
def analyzeQuote (form : Value) : Except Err Value :=
  match form with
  | .cons _ _ (.cons _ literal .nil) => .ok literal
  | _ => .error (.formAnalyzerError "quote")

/-- `analyzeProgn`. -/
def analyzeProgn (form : Value) : Except Err Value :=
  match form with
  | .cons _ _ cdr => checkProperList cdr "progn"
  | _ => .error (.formAnalyzerError "progn")

/-- `analyzeIf`. -/
def analyzeIf (form : Value) : Except Err (Value × Value × Value) :=
  match form with
  | .cons _ _ (.cons _ t (.cons _ c (.cons _ a .nil))) => .ok (t, c, a)
  | _ => .error (.formAnalyzerError "if")

/-- `analyzeLambda`. -/
def analyzeLambda (form : Value) : Except Err (List (List Nat) × Bool × Value) :=
  match form with
  | .cons _ _ (.cons _ params forms) => do
    let (parameters, rest) ← checkParameterList params "_lambda"
    let forms ← checkProperList forms "_lambda"
    .ok (parameters, rest, forms)
  | _ => .error (.formAnalyzerError "_lambda")

/-- `analyzeRef`. -/
def analyzeRef (form : Value) : Except Err (List Nat) :=
  match form with
  | .cons _ _ (.cons _ (.varbl name) .nil) => .ok name
  | _ => .error (.formAnalyzerError "ref")

/-- `analyzeSet`. -/
def analyzeSet (form : Value) : Except Err (List Nat × Value) :=
  match form with
  | .cons _ _ (.cons _ (.varbl name) (.cons _ valueForm .nil)) => .ok (name, valueForm)
  | _ => .error (.formAnalyzerError "set")

/-- `analyzeForEach`. -/
def analyzeForEach (form : Value) : Except Err (Value × Value) :=
  match form with
  | .cons _ _ (.cons _ functionForm (.cons _ listForm .nil)) => .ok (functionForm, listForm)
  | _ => .error (.formAnalyzerError "_for-each")

/-- `analyzeCatchErrors`. -/
def analyzeCatchErrors (form : Value) : Except Err Value :=
  match form with
  | .cons _ _ (.cons _ tryForm .nil) => .ok tryForm
  | _ => .error (.formAnalyzerError "_catch-errors")

/-- `analyzeCall` (source lines 1586-1594): for `apply`,
`multiple-value-call` and `multiple-value-apply` the operator is the
second element; returns operator and the proper operand list. -/
def analyzeCall (mv apply : Bool) (form : Value) : Except Err (Value × Value) := do
  let cons ← if mv || apply then
      match form with
      | .cons _ _ cdr =>
        match cdr with
        | .cons _ _ _ => pure cdr
        | _ => .error (.formAnalyzerError "call")
      | _ => .error (.formAnalyzerError "call")
    else pure form
  match cons with
  | .cons _ operator operands => do
    let operands ← checkProperList operands "call"
    .ok (operator, operands)
  | _ => .error (.formAnalyzerError "call")

/-- `listToArray` (source lines 1960-1967); all call sites pass proper
lists, an improper tail is the host `TypeError` the source would hit. -/
def listToArray : Value → Except Err (List Value)
  | .nil => .ok []
  | .cons _ car cdr => do
    let rest ← listToArray cdr
    .ok (car :: rest)
  | _ => .error (.jsTypeError "listToArray")

/-! ## Pairing parameters with arguments (source lines 1762-1958) -/

/-- `pairPrimFunParametersNoApply`. -/
def pairPrimFunParametersNoApply (args : List Value) (arityMin : Nat)
    (arityMax : Option Nat) : Except Err (List Value) :=
  let nargs := args.length
  if nargs < arityMin then .error .tooFewArguments
  else if h : arityMax.isSome then
    if nargs > arityMax.get h then .error .tooManyArguments else .ok args
  else .ok args

/-- `pairPrimFunParametersApply` (source lines 1781-1814): spreads all but
the last argument, then the elements of the last argument, checking the
maximum arity at each push and the minimum at the end. -/
def pairPrimFunParametersApply (args : List Value) (arityMin : Nat)
    (arityMax : Option Nat) : Except Err (List Value) := do
  let butLast := args.dropLast
  let (spreadArgs, i) ← pushLoop butLast 0
  match args.getLast? with
  | none => .error .malformedSpreadableSequenceOfObjects
  | some last =>
    if !last.isList then .error .malformedSpreadableSequenceOfObjects
    else do
      let (spreadArgs2, i2) ← spreadLoop last i
      if i2 < arityMin then .error .tooFewArguments
      else .ok (spreadArgs ++ spreadArgs2)
where
  /-- the `while (i < nargs - 1)` loop. -/
  pushLoop : List Value → Nat → Except Err (List Value × Nat)
    | [], i => .ok ([], i)
    | a :: rest, i =>
      if arityMax.isNone || i < arityMax.getD 0 then do
        let (more, i2) ← pushLoop rest (i + 1)
        .ok (a :: more, i2)
      else .error .tooManyArguments
  /-- the `while (argList !== EVLEmptyList.NIL)` loop. -/
  spreadLoop : Value → Nat → Except Err (List Value × Nat)
    | .nil, i => .ok ([], i)
    | .cons _ car cdr, i =>
      if arityMax.isNone || i < arityMax.getD 0 then do
        let (more, i2) ← spreadLoop cdr (i + 1)
        .ok (car :: more, i2)
      else .error .tooManyArguments
    | _, _ => .error .malformedSpreadableSequenceOfObjects

/-- `pairPrimFunParameters`. -/
def pairPrimFunParameters (apply : Bool) (args : List Value) (arityMin : Nat)
    (arityMax : Option Nat) : Except Err (List Value) :=
  if !apply then pairPrimFunParametersNoApply args arityMin arityMax
  else pairPrimFunParametersApply args arityMin arityMax

/-- Build a fresh proper list of the given values, allocating one cons per
element in order (the `lastCons.cdr = newCons` accumulation pattern of the
source), with an arbitrary final tail. -/
def consChain (counter : Nat) (vs : List Value) (tail : Value) : Value × Nat :=
  match vs with
  | [] => (tail, counter)
  | v :: rest =>
    let r := consChain (counter + 1) rest tail
    (.cons counter v r.1, r.2)

/-- `pairClosureParametersNoApplyNoRest`. -/
def pairClosureParametersNoApplyNoRest (args : List Value)
    (parameters : List (List Nat)) : Except Err (List Value) :=
  if args.length < parameters.length then .error .tooFewArguments
  else if args.length > parameters.length then .error .tooManyArguments
  else .ok args

/-- `pairClosureParametersNoApplyRest` (source lines 1844-1871): the first
`nparameters - 1` arguments go to their slots, the remaining ones are
consed into a fresh proper list bound to the last parameter.  Returns the
values array and the advanced allocation counter. -/
def pairClosureParametersNoApplyRest (counter : Nat) (args : List Value)
    (parameters : List (List Nat)) : Except Err (List Value × Nat) :=
  let np := parameters.length
  if args.length < np - 1 then .error .tooFewArguments
  else
    let direct := args.take (np - 1)
    let r := consChain counter (args.drop (np - 1)) .nil
    .ok (direct ++ [r.1], r.2)

/-- `pairClosureParametersApplyNoRest` (source lines 1873-1907). -/
def pairClosureParametersApplyNoRest (args : List Value)
    (parameters : List (List Nat)) : Except Err (List Value) := do
  let np := parameters.length
  let (vals, i) ← pushLoop np args.dropLast 0
  match args.getLast? with
  | none => .error .malformedSpreadableSequenceOfObjects
  | some last =>
    if !last.isList then .error .malformedSpreadableSequenceOfObjects
    else do
      let (vals2, i2) ← spreadLoop np last i
      if i2 < np then .error .tooFewArguments
      else .ok (vals ++ vals2)
where
  pushLoop (np : Nat) : List Value → Nat → Except Err (List Value × Nat)
    | [], i => .ok ([], i)
    | a :: rest, i =>
      if i < np then do
        let (more, i2) ← pushLoop np rest (i + 1)
        .ok (a :: more, i2)
      else .error .tooManyArguments
  spreadLoop (np : Nat) : Value → Nat → Except Err (List Value × Nat)
    | .nil, i => .ok ([], i)
    | .cons _ car cdr, i =>
      if i < np then do
        let (more, i2) ← spreadLoop np cdr (i + 1)
        .ok (car :: more, i2)
      else .error .tooManyArguments
    | _, _ => .error .malformedSpreadableSequenceOfObjects

/-- `pairClosureParametersApplyRest` (source lines 1909-1958): arguments
before the spreadable tail fill slots or are consed fresh; once the rest
boundary is passed the remaining tail list is adopted by reference
(`lastCons.cdr = argList`) without copying. -/
def pairClosureParametersApplyRest (counter : Nat) (args : List Value)
    (parameters : List (List Nat)) : Except Err (List Value × Nat) := do
  let np := parameters.length
  let butLast := args.dropLast
  let direct := butLast.take (np - 1)
  let restArgs := butLast.drop (np - 1)
  match args.getLast? with
  | none => .error .malformedSpreadableSequenceOfObjects
  | some last =>
    if !last.isList then .error .malformedSpreadableSequenceOfObjects
    else do
      let i := butLast.length
      let (slotElems, i2, adopted) ← spreadLoop np last i
      if i2 < np - 1 then .error .tooFewArguments
      else
        let r := consChain counter restArgs (adopted.getD .nil)
        .ok (direct ++ slotElems ++ [r.1], r.2)
where
  /-- walks the spreadable tail: elements while `i < np - 1`, then the
  remaining tail is adopted wholesale. -/
  spreadLoop (np : Nat) : Value → Nat → Except Err (List Value × Nat × Option Value)
    | .nil, i => .ok ([], i, none)
    | .cons cid car cdr, i =>
      if i < np - 1 then do
        let (more, i2, adopted) ← spreadLoop np cdr (i + 1)
        .ok (car :: more, i2, adopted)
      else .ok ([], i, some (.cons cid car cdr))
    | _, _ => .error .malformedSpreadableSequenceOfObjects

/-- `pairClosureParameters`. -/
def pairClosureParameters (apply : Bool) (counter : Nat) (args : List Value)
    (parameters : List (List Nat)) (rest : Bool) : Except Err (List Value × Nat) :=
  if !apply then
    if !rest then do
      let vals ← pairClosureParametersNoApplyNoRest args parameters
      .ok (vals, counter)
    else pairClosureParametersNoApplyRest counter args parameters
  else
    if !rest then do
      let vals ← pairClosureParametersApplyNoRest args parameters
      .ok (vals, counter)
    else pairClosureParametersApplyRest counter args parameters

/-! ## Primitive functions (source lines 4303-4949)

The subset of the primitive table exercised by the claims; see the doc
comment on `PrimName` for the omitted entries.  `eq?` is also omitted: on
numbers, characters and strings it observes the object identity of the
boxed `EVLNumber`/`EVLCharacter`/`EVLString`, which the embedding does not
track (`eql?`, which the claims use, compares those by content). -/

/-- en-US ordinal suffixes as produced by the `Intl.PluralRules` table. -/
def ordinalNumber (n : Nat) : String :=
  let suffix :=
    if n % 100 = 11 || n % 100 = 12 || n % 100 = 13 then "th"
    else if n % 10 = 1 then "st"
    else if n % 10 = 2 then "nd"
    else if n % 10 = 3 then "rd"
    else "th"
  toString n ++ suffix

/-- The `checkType` failure message (the source interpolates the JS
constructor name). -/
def checkTypeError (n : Nat) (typeName : String) : Err :=
  .evaluatorError ("The " ++ ordinalNumber (n + 1) ++ " argument is not of type " ++ typeName ++ ".")

def checkNum (args : List Value) (n : Nat) : Except Err Rat :=
  match args[n]? with
  | some (.num x) => .ok x
  | _ => .error (checkTypeError n "EVLNumber")

def checkStr (args : List Value) (n : Nat) : Except Err (List Nat) :=
  match args[n]? with
  | some (.str s) => .ok s
  | _ => .error (checkTypeError n "EVLString")

def checkVar (args : List Value) (n : Nat) : Except Err (List Nat) :=
  match args[n]? with
  | some (.varbl name) => .ok name
  | _ => .error (checkTypeError n "EVLVariable")

def checkConsArg (args : List Value) (n : Nat) : Except Err (Value × Value) :=
  match args[n]? with
  | some (.cons _ car cdr) => .ok (car, cdr)
  | _ => .error (checkTypeError n "EVLCons")

/-- `eql` (`EVLObject.eql` and its overrides): by content for numbers,
characters and strings, object identity for everything else.  Identity of
`cons`/`vector`/`closure` is their allocation id (the allocator gives
distinct live objects distinct ids); the remaining kinds are singletons
or interned, so identity coincides with their data. -/
def evlEql : Value → Value → Bool
  | .num x, .num y => x == y
  | .num _, _ => false
  | .char u, .char v => u == v
  | .char _, _ => false
  | .str s, .str t => s == t
  | .str _, _ => false
  | .void, .void => true
  | .void, _ => false
  | .bool a, .bool b => a == b
  | .bool _, _ => false
  | .nil, .nil => true
  | .nil, _ => false
  | .keyword a, .keyword b => a == b
  | .keyword _, _ => false
  | .varbl a, .varbl b => a == b
  | .varbl _, _ => false
  | .cons i _ _, .cons j _ _ => i == j
  | .cons _ _ _, _ => false
  | .vector i _, .vector j _ => i == j
  | .vector _ _, _ => false
  | .closure i _ _ _ _ _ _ _, .closure j _ _ _ _ _ _ _ => i == j
  | .closure _ _ _ _ _ _ _ _, _ => false
  | .primfun a b p, .primfun c d q => a == c && b == d && p == q
  | .primfun _ _ _, _ => false
  | .ppform _, _ => false

def evlBoolean (b : Bool) : Value := .bool b

/-- `nullToVoid`. -/
def nullToVoid : Option Value → Value
  | none => .void
  | some v => v

/-- The JS function stored in each embedded primitive.  Arity has already
been enforced by the pairing step, as in the source. -/
def applyPrim (p : PrimName) (args : List Value) (st : St) :
    Except Err (ResultV × St) :=
  match p with
  | .pObject =>
    let b := match args[0]? with
      | some (.ppform _) => false
      | some _ => true
      | none => false
    .ok (.obj (evlBoolean b), st)
  | .pEql =>
    match (args[0]? : Option Value) with
    | some (.ppform _) => .error (.jsTypeError "eql on TrampolineppForm")
    | some a => .ok (.obj (evlBoolean (evlEql a (nullToVoid args[1]?))), st)
    | none => .error (.jsTypeError "eql on undefined")
  | .pVoid =>
    let b := match args[0]? with | some .void => true | _ => false
    .ok (.obj (evlBoolean b), st)
  | .pBoolean =>
    let b := match args[0]? with | some (.bool _) => true | _ => false
    .ok (.obj (evlBoolean b), st)
  | .pNumber =>
    let b := match args[0]? with | some (.num _) => true | _ => false
    .ok (.obj (evlBoolean b), st)
  | .pAdd => do
    let x ← checkNum args 0; let y ← checkNum args 1
    .ok (.obj (.num (x + y)), st)
  | .pSub => do
    let x ← checkNum args 0; let y ← checkNum args 1
    .ok (.obj (.num (x - y)), st)
  | .pMul => do
    let x ← checkNum args 0; let y ← checkNum args 1
    .ok (.obj (.num (x * y)), st)
  | .pNumEq => do
    let x ← checkNum args 0; let y ← checkNum args 1
    .ok (.obj (evlBoolean (x == y)), st)
  | .pNumNe => do
    let x ← checkNum args 0; let y ← checkNum args 1
    .ok (.obj (evlBoolean (x != y)), st)
  | .pLt => do
    let x ← checkNum args 0; let y ← checkNum args 1
    .ok (.obj (evlBoolean (decide (x < y))), st)
  | .pLe => do
    let x ← checkNum args 0; let y ← checkNum args 1
    .ok (.obj (evlBoolean (decide (x ≤ y))), st)
  | .pGt => do
    let x ← checkNum args 0; let y ← checkNum args 1
    .ok (.obj (evlBoolean (decide (y < x))), st)
  | .pGe => do
    let x ← checkNum args 0; let y ← checkNum args 1
    .ok (.obj (evlBoolean (decide (y ≤ x))), st)
  | .pCharacter =>
    let b := match args[0]? with | some (.char _) => true | _ => false
    .ok (.obj (evlBoolean b), st)
  | .pString =>
    let b := match args[0]? with | some (.str _) => true | _ => false
    .ok (.obj (evlBoolean b), st)
  | .pSymbol =>
    let b := match args[0]? with
      | some (.keyword _) | some (.varbl _) => true
      | _ => false
    .ok (.obj (evlBoolean b), st)
  | .pKeyword =>
    let b := match args[0]? with | some (.keyword _) => true | _ => false
    .ok (.obj (evlBoolean b), st)
  | .pVariable =>
    let b := match args[0]? with | some (.varbl _) => true | _ => false
    .ok (.obj (evlBoolean b), st)
  | .pVariableValue => do
    let name ← checkVar args 0
    .ok (.obj (nullToVoid (cellGet st.gv name)), st)
  | .pVariableSetValue => do
    let name ← checkVar args 0
    let v := nullToVoid args[1]?
    .ok (.obj v, { st with gv := cellSet st.gv name v })
  | .pVariableValueBound => do
    let name ← checkVar args 0
    .ok (.obj (evlBoolean (cellGet st.gv name).isSome), st)
  | .pVariableUnbindValue => do
    let name ← checkVar args 0
    .ok (.obj .void, { st with gv := cellUnset st.gv name })
  | .pVariableFunction => do
    let name ← checkVar args 0
    .ok (.obj (nullToVoid (cellGet st.gf name)), st)
  | .pVariableSetFunction => do
    let name ← checkVar args 0
    let v := nullToVoid args[1]?
    .ok (.obj v, { st with gf := cellSet st.gf name v })
  | .pVariableFunctionBound => do
    let name ← checkVar args 0
    .ok (.obj (evlBoolean (cellGet st.gf name).isSome), st)
  | .pVariableUnbindFunction => do
    let name ← checkVar args 0
    .ok (.obj .void, { st with gf := cellUnset st.gf name })
  | .pList => .ok (.obj (evlBoolean ((nullToVoid args[0]?).isList)), st)
  | .pEmptyList =>
    let b := match args[0]? with | some .nil => true | _ => false
    .ok (.obj (evlBoolean b), st)
  | .pCons => .ok (.obj (evlBoolean ((nullToVoid args[0]?).isCons)), st)
  | .pConsNew =>
    .ok (.obj (.cons st.counter (nullToVoid args[0]?) (nullToVoid args[1]?)),
         { st with counter := st.counter + 1 })
  | .pCar => do
    let (car, _) ← checkConsArg args 0
    .ok (.obj car, st)
  | .pCdr => do
    let (_, cdr) ← checkConsArg args 0
    .ok (.obj cdr, st)
  | .pVector =>
    let b := match args[0]? with | some (.vector _ _) => true | _ => false
    .ok (.obj (evlBoolean b), st)
  | .pFunction => .ok (.obj (evlBoolean ((nullToVoid args[0]?).isFunction)), st)
  | .pPrimitiveFunction =>
    let b := match args[0]? with | some (.primfun _ _ _) => true | _ => false
    .ok (.obj (evlBoolean b), st)
  | .pClosure =>
    let b := match args[0]? with | some (.closure _ _ _ _ _ _ _ _) => true | _ => false
    .ok (.obj (evlBoolean b), st)
  | .pValues => .ok (.objs args, st)
  | .pError => do
    let msg ← checkStr args 0
    .error (.jsError msg)

/-- The registration list (`primitiveFunction(name, arityMin, arityMax, f)`
calls, in source order, restricted to the embedded subset). -/
def primTable : List (String × Nat × Option Nat × PrimName) :=
  [ ("object?", 1, some 1, .pObject),
    ("eql?", 2, some 2, .pEql),
    ("void?", 1, some 1, .pVoid),
    ("boolean?", 1, some 1, .pBoolean),
    ("number?", 1, some 1, .pNumber),
    ("_+", 2, some 2, .pAdd),
    ("_-", 2, some 2, .pSub),
    ("_*", 2, some 2, .pMul),
    ("=", 2, some 2, .pNumEq),
    ("/=", 2, some 2, .pNumNe),
    ("<", 2, some 2, .pLt),
    ("<=", 2, some 2, .pLe),
    (">", 2, some 2, .pGt),
    (">=", 2, some 2, .pGe),
    ("character?", 1, some 1, .pCharacter),
    ("string?", 1, some 1, .pString),
    ("symbol?", 1, some 1, .pSymbol),
    ("keyword?", 1, some 1, .pKeyword),
    ("variable?", 1, some 1, .pVariable),
    ("variable-value", 1, some 1, .pVariableValue),
    ("variable-set-value!", 2, some 2, .pVariableSetValue),
    ("variable-value-bound?", 1, some 1, .pVariableValueBound),
    ("variable-unbind-value!", 1, some 1, .pVariableUnbindValue),
    ("variable-function", 1, some 1, .pVariableFunction),
    ("variable-set-function!", 2, some 2, .pVariableSetFunction),
    ("variable-function-bound?", 1, some 1, .pVariableFunctionBound),
    ("variable-unbind-function!", 1, some 1, .pVariableUnbindFunction),
    ("list?", 1, some 1, .pList),
    ("empty-list?", 1, some 1, .pEmptyList),
    ("cons?", 1, some 1, .pCons),
    ("cons", 2, some 2, .pConsNew),
    ("car", 1, some 1, .pCar),
    ("cdr", 1, some 1, .pCdr),
    ("vector?", 1, some 1, .pVector),
    ("function?", 1, some 1, .pFunction),
    ("primitive-function?", 1, some 1, .pPrimitiveFunction),
    ("closure?", 1, some 1, .pClosure),
    ("values", 0, none, .pValues),
    ("error", 1, some 1, .pError) ]

/-- The `GlobalEnv.set(FUN_NS, internVariable(name), new
EVLPrimitiveFunction(...))` loop (source lines 4947-4949). -/
def initialGf : List (List Nat × Value) :=
  primTable.map (fun (name, amin, amax, p) => (nm name, .primfun amin amax p))

/-- The state after the primitive-definition pass: empty frame heap, no
global value cells, primitives bound in the function namespace. -/
def initialState : St := { frames := [], gv := [], gf := initialGf, counter := 0 }

/-- Evaluation outcome: fuel exhaustion, a JS exception carrying the state
at throw time (global mutations persist across throws), or a result. -/
inductive Res (α : Type)
  | timeout
  | err (e : Err) (st : St)
  | ok (a : α) (st : St)

/-- Lift an `Except` step into `Res`. -/
def Res.ofExcept {α β : Type} (st : St) (x : Except Err α) (k : α → Res β) : Res β :=
  match x with
  | .error e => .err e st
  | .ok a => k a

/-! ## Plain recursive evaluator (source lines 2020-2208)

Every mutually recursive function takes a fuel argument and passes it
decremented to each mutual call; exhaustion is `Res.timeout`. -/

/-- `emptyListError`. -/
def emptyListError : Err := .evaluatorError "The empty list does not evaluate."

/-- `ifTestFormError`. -/
def ifTestFormError : Err := .evaluatorError "The test-form does not evaluate to a boolean."

/-- `forEachNotImplemented`. -/
def forEachNotImplemented : Err := .evaluatorError "The _for-each-form is not implemented."

/-- `forEachFunctionFormError`. -/
def forEachFunctionFormError : Err := .evaluatorError "The function-form does not evaluate to a function."

/-- `forEachListFormError`. -/
def forEachListFormError : Err := .evaluatorError "The list-form does not evaluate to a proper list."

/-- `callOperatorFormError`. -/
def callOperatorFormError : Err := .evaluatorError "The operator-form does not evaluate to a function."

/-- Dispatch key of a special-operator head, shared verbatim by all six
`*EvalForm` functions (the `switch (form.car)` on interned variables). -/
inductive SpecialOp
  | quote | progn | ifOp
  | vlambda | mlambda | flambda | dlambda
  | vref | vset | fref | fset | dref | dset
  | forEach | catchErrors
  | applyOp | mvCall | mvApply
  | none
deriving DecidableEq

/-- The `switch (form.car)` case selection: which special operator the
interned head variable is, `none` meaning the default (ordinary call). -/
def specialOp (name : List Nat) : SpecialOp :=
  if name = nm "quote" then .quote
  else if name = nm "progn" then .progn
  else if name = nm "if" then .ifOp
  else if name = nm "_vlambda" then .vlambda
  else if name = nm "_mlambda" then .mlambda
  else if name = nm "_flambda" then .flambda
  else if name = nm "_dlambda" then .dlambda
  else if name = nm "vref" then .vref
  else if name = nm "vset!" then .vset
  else if name = nm "fref" then .fref
  else if name = nm "fset!" then .fset
  else if name = nm "dref" then .dref
  else if name = nm "dset!" then .dset
  else if name = nm "_for-each" then .forEach
  else if name = nm "_catch-errors" then .catchErrors
  else if name = nm "apply" then .applyOp
  else if name = nm "multiple-value-call" then .mvCall
  else if name = nm "multiple-value-apply" then .mvApply
  else .none

mutual

/-- `plainrecEvalForm`. -/
def plainrecEvalForm (n : Nat) (form : Value) (lenv denv : EnvPtr) (st : St) :
    Res ResultV :=
  match n with
  | 0 => .timeout
  | n + 1 =>
    match form with
    | .nil => .err emptyListError st
    | .cons _ (.varbl name) _ =>
      match specialOp name with
      | .quote => plainrecEvalQuote n form lenv denv st
      | .progn => plainrecEvalProgn n form lenv denv st
      | .ifOp => plainrecEvalIf n form lenv denv st
      | .vlambda => plainrecEvalLambda n .lex .val false form lenv denv st
      | .mlambda => plainrecEvalLambda n .lex .val true form lenv denv st
      | .flambda => plainrecEvalLambda n .lex .fn false form lenv denv st
      | .dlambda => plainrecEvalLambda n .dyn .val false form lenv denv st
      | .vref => plainrecEvalRef n .lex .val form lenv denv st
      | .vset => plainrecEvalSet n .lex .val form lenv denv st
      | .fref => plainrecEvalRef n .lex .fn form lenv denv st
      | .fset => plainrecEvalSet n .lex .fn form lenv denv st
      | .dref => plainrecEvalRef n .dyn .val form lenv denv st
      | .dset => plainrecEvalSet n .dyn .val form lenv denv st
      | .forEach => .err forEachNotImplemented st
      | .catchErrors => plainrecEvalCatchErrors n form lenv denv st
      | .applyOp => plainrecEvalCall n false true form lenv denv st
      | .mvCall => plainrecEvalCall n true false form lenv denv st
      | .mvApply => plainrecEvalCall n true true form lenv denv st
      | .none => plainrecEvalCall n false false form lenv denv st
    | .cons _ _ _ => plainrecEvalCall n false false form lenv denv st
    | .varbl name =>
      Res.ofExcept st (envRef st (st.frames.length + 1) lenv .val name) fun r =>
        match r with
        | some v => .ok (.obj v) st
        | none => .err (.jsTypeError "plainrec variable") st
    | _ => .ok (.obj form) st

/-- `plainrecEvalQuote`. -/
def plainrecEvalQuote (n : Nat) (form : Value) (_lenv _denv : EnvPtr) (st : St) :
    Res ResultV :=
  match n with
  | 0 => .timeout
  | _ + 1 =>
    Res.ofExcept st (analyzeQuote form) fun literal => .ok (.obj literal) st

/-- `plainrecEvalProgn`. -/
def plainrecEvalProgn (n : Nat) (form : Value) (lenv denv : EnvPtr) (st : St) :
    Res ResultV :=
  match n with
  | 0 => .timeout
  | n + 1 =>
    Res.ofExcept st (analyzeProgn form) fun forms =>
      plainrecEvalForms n forms lenv denv st

/-- `plainrecEvalForms`. -/
def plainrecEvalForms (n : Nat) (forms : Value) (lenv denv : EnvPtr) (st : St) :
    Res ResultV :=
  match n with
  | 0 => .timeout
  | n + 1 =>
    match forms with
    | .nil => .ok (.obj .void) st
    | .cons _ car .nil => plainrecEvalForm n car lenv denv st
    | .cons _ car cdr =>
      match plainrecEvalForm n car lenv denv st with
      | .timeout => .timeout
      | .err e st2 => .err e st2
      | .ok _ st2 => plainrecEvalForms n cdr lenv denv st2
    | _ => .err (.jsTypeError "plainrecEvalForms") st

/-- `plainrecEvalIf`. -/
def plainrecEvalIf (n : Nat) (form : Value) (lenv denv : EnvPtr) (st : St) :
    Res ResultV :=
  match n with
  | 0 => .timeout
  | n + 1 =>
    Res.ofExcept st (analyzeIf form) fun (testForm, thenForm, elseForm) =>
      match plainrecEvalForm n testForm lenv denv st with
      | .timeout => .timeout
      | .err e st2 => .err e st2
      | .ok result st2 =>
        match result.primaryValue with
        | .bool true => plainrecEvalForm n thenForm lenv denv st2
        | .bool false => plainrecEvalForm n elseForm lenv denv st2
        | _ => .err ifTestFormError st2

/-- `plainrecEvalLambda`. -/
def plainrecEvalLambda (n : Nat) (scope : Scope) (ns : Ns) (macroFlag : Bool)
    (form : Value) (lenv _denv : EnvPtr) (st : St) : Res ResultV :=
  match n with
  | 0 => .timeout
  | _ + 1 =>
    Res.ofExcept st (analyzeLambda form) fun (parameters, rest, forms) =>
      .ok (.obj (.closure st.counter scope ns macroFlag parameters rest forms lenv))
        { st with counter := st.counter + 1 }

/-- `plainrecEvalRef`. -/
def plainrecEvalRef (n : Nat) (scope : Scope) (ns : Ns) (form : Value)
    (lenv denv : EnvPtr) (st : St) : Res ResultV :=
  match n with
  | 0 => .timeout
  | _ + 1 =>
    Res.ofExcept st (analyzeRef form) fun name =>
      let env := match scope with | .lex => lenv | .dyn => denv
      Res.ofExcept st (envRef st (st.frames.length + 1) env ns name) fun r =>
        match r with
        | some v => .ok (.obj v) st
        | none => .err (.jsTypeError "plainrecEvalRef") st

/-- `plainrecEvalSet`. -/
def plainrecEvalSet (n : Nat) (scope : Scope) (ns : Ns) (form : Value)
    (lenv denv : EnvPtr) (st : St) : Res ResultV :=
  match n with
  | 0 => .timeout
  | n + 1 =>
    Res.ofExcept st (analyzeSet form) fun (name, valueForm) =>
      match plainrecEvalForm n valueForm lenv denv st with
      | .timeout => .timeout
      | .err e st2 => .err e st2
      | .ok result st2 =>
        let value := result.primaryValue
        let env := match scope with | .lex => lenv | .dyn => denv
        Res.ofExcept st2 (envSet st2 (st2.frames.length + 1) env ns name value) fun (r, st3) =>
          match r with
          | some v => .ok (.obj v) st3
          | none => .err (.jsTypeError "plainrecEvalSet") st3

/-- `plainrecEvalCatchErrors`: the local `try`/`catch` converting any
exception into a string holding its `name`. -/
def plainrecEvalCatchErrors (n : Nat) (form : Value) (lenv denv : EnvPtr) (st : St) :
    Res ResultV :=
  match n with
  | 0 => .timeout
  | n + 1 =>
    Res.ofExcept st (analyzeCatchErrors form) fun tryForm =>
      match plainrecEvalForm n tryForm lenv denv st with
      | .timeout => .timeout
      | .err e st2 => .ok (.obj (.str (nm e.name))) st2
      | .ok _ st2 => .ok (.obj .void) st2

/-- `plainrecEvalCall`. -/
def plainrecEvalCall (n : Nat) (mv apply : Bool) (form : Value)
    (lenv denv : EnvPtr) (st : St) : Res ResultV :=
  match n with
  | 0 => .timeout
  | n + 1 =>
    Res.ofExcept st (analyzeCall mv apply form) fun (operator, operands) =>
      match plainrecEvalOperator n operator lenv denv st with
      | .timeout => .timeout
      | .err e st2 => .err e st2
      | .ok result st2 =>
        let fn := result.primaryValue
        let macroFlag := operator.isVarbl && fn.isMacroClosure
        match plainrecEvalOperands n mv macroFlag operands [] lenv denv st2 with
        | .timeout => .timeout
        | .err e st3 => .err e st3
        | .ok args st3 => plainrecInvokeFun n apply macroFlag fn args lenv denv st3

/-- `plainrecEvalOperator`. -/
def plainrecEvalOperator (n : Nat) (operator : Value) (lenv denv : EnvPtr) (st : St) :
    Res ResultV :=
  match n with
  | 0 => .timeout
  | n + 1 =>
    match operator with
    | .varbl name =>
      Res.ofExcept st (envRef st (st.frames.length + 1) lenv .fn name) fun r =>
        match r with
        | some v => .ok (.obj v) st
        | none => .err (.jsTypeError "plainrecEvalOperator") st
    | _ => plainrecEvalForm n operator lenv denv st

/-- `plainrecEvalOperands`. -/
def plainrecEvalOperands (n : Nat) (mv macroFlag : Bool) (operands : Value)
    (args : List Value) (lenv denv : EnvPtr) (st : St) : Res (List Value) :=
  match n with
  | 0 => .timeout
  | n + 1 =>
    match operands with
    | .nil => .ok args st
    | .cons _ car cdr =>
      if macroFlag then
        plainrecEvalOperands n mv macroFlag cdr (args ++ [car]) lenv denv st
      else
        match plainrecEvalForm n car lenv denv st with
        | .timeout => .timeout
        | .err e st2 => .err e st2
        | .ok result st2 =>
          let args2 := if mv then args ++ result.allValues else args ++ [result.primaryValue]
          plainrecEvalOperands n mv macroFlag cdr args2 lenv denv st2
    | _ => .err (.jsTypeError "plainrecEvalOperands") st

/-- `plainrecInvokeFun`. -/
def plainrecInvokeFun (n : Nat) (apply macroFlag : Bool) (fn : Value)
    (args : List Value) (lenv denv : EnvPtr) (st : St) : Res ResultV :=
  match n with
  | 0 => .timeout
  | n + 1 =>
    match fn with
    | .primfun arityMin arityMax p =>
      Res.ofExcept st (pairPrimFunParameters apply args arityMin arityMax) fun values =>
        Res.ofExcept st (applyPrim p values st) fun (r, st2) => .ok r st2
    | .closure _ scope ns _ parameters rest forms clenv =>
      Res.ofExcept st (pairClosureParameters apply st.counter args parameters rest)
        fun (values, counter2) =>
        let st2 := { st with counter := counter2 }
        match scope with
        | .lex =>
          let (elenv, st3) := allocFrame st2
            { ns := ns, vars := parameters, vals := values.map some, next := clenv }
          if macroFlag then
            match plainrecEvalForms n forms elenv denv st3 with
            | .timeout => .timeout
            | .err e st4 => .err e st4
            | .ok result st4 =>
              plainrecEvalForm n result.primaryValue lenv denv st4
          else
            plainrecEvalForms n forms elenv denv st3
        | .dyn =>
          let (edenv, st3) := allocFrame st2
            { ns := ns, vars := parameters, vals := values.map some, next := denv }
          plainrecEvalForms n forms clenv edenv st3
    | _ => .err callOperatorFormError st

end

/-- `plainrecEval`. -/
def plainrecEval (n : Nat) (form : Value) (st : St) : Res ResultV :=
  plainrecEvalForm n form .nullEnv .nullEnv st

/-! ## Continuation passing style evaluator (source lines 2214-2459)

Continuations are Lean functions from a result and the current state to
the outcome; a continuation built inside an evaluator function closes
over the fuel remaining there, as it closes over everything else in
scope.  Result continuations (`KR`) and the operand-list continuation
(`KA`, the JS `OperandsCont` lambda, which receives the argument array)
are separate function types, as they are separate lambda shapes in the
source. -/

abbrev KR := ResultV → St → Res ResultV
abbrev KA := List Value → St → Res ResultV

/-- `cpsEndCont`. -/
def cpsEndCont : KR := fun r st => .ok r st

mutual

/-- `cpsEvalForm`. -/
def cpsEvalForm (n : Nat) (form : Value) (lenv denv : EnvPtr) (k : KR) (st : St) :
    Res ResultV :=
  match n with
  | 0 => .timeout
  | n + 1 =>
    match form with
    | .nil => .err emptyListError st
    | .cons _ (.varbl name) _ =>
      match specialOp name with
      | .quote => cpsEvalQuote n form lenv denv k st
      | .progn => cpsEvalProgn n form lenv denv k st
      | .ifOp => cpsEvalIf n form lenv denv k st
      | .vlambda => cpsEvalLambda n .lex .val false form lenv denv k st
      | .mlambda => cpsEvalLambda n .lex .val true form lenv denv k st
      | .flambda => cpsEvalLambda n .lex .fn false form lenv denv k st
      | .dlambda => cpsEvalLambda n .dyn .val false form lenv denv k st
      | .vref => cpsEvalRef n .lex .val form lenv denv k st
      | .vset => cpsEvalSet n .lex .val form lenv denv k st
      | .fref => cpsEvalRef n .lex .fn form lenv denv k st
      | .fset => cpsEvalSet n .lex .fn form lenv denv k st
      | .dref => cpsEvalRef n .dyn .val form lenv denv k st
      | .dset => cpsEvalSet n .dyn .val form lenv denv k st
      | .forEach => cpsEvalForEach n form lenv denv k st
      | .catchErrors => cpsEvalCatchErrors n form lenv denv k st
      | .applyOp => cpsEvalCall n false true form lenv denv k st
      | .mvCall => cpsEvalCall n true false form lenv denv k st
      | .mvApply => cpsEvalCall n true true form lenv denv k st
      | .none => cpsEvalCall n false false form lenv denv k st
    | .cons _ _ _ => cpsEvalCall n false false form lenv denv k st
    | .varbl name =>
      Res.ofExcept st (envRef st (st.frames.length + 1) lenv .val name) fun r =>
        match r with
        | some v => k (.obj v) st
        | none => .err (.jsTypeError "cps variable") st
    | _ => k (.obj form) st

/-- `cpsEvalQuote`. -/
def cpsEvalQuote (n : Nat) (form : Value) (_lenv _denv : EnvPtr) (k : KR) (st : St) :
    Res ResultV :=
  match n with
  | 0 => .timeout
  | _ + 1 =>
    Res.ofExcept st (analyzeQuote form) fun literal => k (.obj literal) st

/-- `cpsEvalProgn`. -/
def cpsEvalProgn (n : Nat) (form : Value) (lenv denv : EnvPtr) (k : KR) (st : St) :
    Res ResultV :=
  match n with
  | 0 => .timeout
  | n + 1 =>
    Res.ofExcept st (analyzeProgn form) fun forms =>
      cpsEvalForms n forms lenv denv k st

/-- `cpsEvalForms`; the inline lambda is the `ButLastFormCont`. -/
def cpsEvalForms (n : Nat) (forms : Value) (lenv denv : EnvPtr) (k : KR) (st : St) :
    Res ResultV :=
  match n with
  | 0 => .timeout
  | n + 1 =>
    match forms with
    | .nil => k (.obj .void) st
    | .cons _ car .nil => cpsEvalForm n car lenv denv k st
    | .cons _ car cdr =>
      cpsEvalForm n car lenv denv
        (fun _ st2 => cpsEvalForms n cdr lenv denv k st2) st
    | _ => .err (.jsTypeError "cpsEvalForms") st

/-- `cpsEvalIf`; the inline lambda is the `IfTestFormCont`. -/
def cpsEvalIf (n : Nat) (form : Value) (lenv denv : EnvPtr) (k : KR) (st : St) :
    Res ResultV :=
  match n with
  | 0 => .timeout
  | n + 1 =>
    Res.ofExcept st (analyzeIf form) fun (testForm, thenForm, elseForm) =>
      cpsEvalForm n testForm lenv denv
        (fun result st2 =>
          match result.primaryValue with
          | .bool true => cpsEvalForm n thenForm lenv denv k st2
          | .bool false => cpsEvalForm n elseForm lenv denv k st2
          | _ => .err ifTestFormError st2) st

/-- `cpsEvalLambda`. -/
def cpsEvalLambda (n : Nat) (scope : Scope) (ns : Ns) (macroFlag : Bool)
    (form : Value) (lenv _denv : EnvPtr) (k : KR) (st : St) : Res ResultV :=
  match n with
  | 0 => .timeout
  | _ + 1 =>
    Res.ofExcept st (analyzeLambda form) fun (parameters, rest, forms) =>
      k (.obj (.closure st.counter scope ns macroFlag parameters rest forms lenv))
        { st with counter := st.counter + 1 }

/-- `cpsEvalRef`. -/
def cpsEvalRef (n : Nat) (scope : Scope) (ns : Ns) (form : Value)
    (lenv denv : EnvPtr) (k : KR) (st : St) : Res ResultV :=
  match n with
  | 0 => .timeout
  | _ + 1 =>
    Res.ofExcept st (analyzeRef form) fun name =>
      let env := match scope with | .lex => lenv | .dyn => denv
      Res.ofExcept st (envRef st (st.frames.length + 1) env ns name) fun r =>
        match r with
        | some v => k (.obj v) st
        | none => .err (.jsTypeError "cpsEvalRef") st

/-- `cpsEvalSet`; the inline lambda is the `SetValueFormCont`. -/
def cpsEvalSet (n : Nat) (scope : Scope) (ns : Ns) (form : Value)
    (lenv denv : EnvPtr) (k : KR) (st : St) : Res ResultV :=
  match n with
  | 0 => .timeout
  | n + 1 =>
    Res.ofExcept st (analyzeSet form) fun (name, valueForm) =>
      cpsEvalForm n valueForm lenv denv
        (fun result st2 =>
          let value := result.primaryValue
          let env := match scope with | .lex => lenv | .dyn => denv
          Res.ofExcept st2 (envSet st2 (st2.frames.length + 1) env ns name value)
            fun (r, st3) =>
            match r with
            | some v => k (.obj v) st3
            | none => .err (.jsTypeError "cpsEvalSet") st3) st

/-- `cpsEvalForEach`; the inline lambdas are the `ForEachFunctionFormCont`
and `ForEachListFormCont`. -/
def cpsEvalForEach (n : Nat) (form : Value) (lenv denv : EnvPtr) (k : KR) (st : St) :
    Res ResultV :=
  match n with
  | 0 => .timeout
  | n + 1 =>
    Res.ofExcept st (analyzeForEach form) fun (functionForm, listForm) =>
      cpsEvalForm n functionForm lenv denv
        (fun result st2 =>
          let fn := result.primaryValue
          if !fn.isFunction then .err forEachFunctionFormError st2
          else
            cpsEvalForm n listForm lenv denv
              (fun result2 st3 =>
                cpsForEachLoop n fn result2.primaryValue lenv denv k st3) st2) st

/-- The `while (list !== EVLEmptyList.NIL)` loop of `ForEachListFormCont`,
invoking the function on each element with the end continuation and
discarding the result. -/
def cpsForEachLoop (n : Nat) (fn list : Value) (lenv denv : EnvPtr) (k : KR) (st : St) :
    Res ResultV :=
  match n with
  | 0 => .timeout
  | n + 1 =>
    match list with
    | .nil => k (.obj .void) st
    | .cons _ car cdr =>
      match cpsInvokeFun n false false fn [car] lenv denv cpsEndCont st with
      | .timeout => .timeout
      | .err e st2 => .err e st2
      | .ok _ st2 => cpsForEachLoop n fn cdr lenv denv k st2
    | _ => .err forEachListFormError st

/-- `cpsEvalCatchErrors`: the `try`/`catch` around an evaluation under the
end continuation. -/
def cpsEvalCatchErrors (n : Nat) (form : Value) (lenv denv : EnvPtr) (k : KR) (st : St) :
    Res ResultV :=
  match n with
  | 0 => .timeout
  | n + 1 =>
    Res.ofExcept st (analyzeCatchErrors form) fun tryForm =>
      match cpsEvalForm n tryForm lenv denv cpsEndCont st with
      | .timeout => .timeout
      | .err e st2 => k (.obj (.str (nm e.name))) st2
      | .ok _ st2 => k (.obj .void) st2

/-- `cpsEvalCall`; the inline lambdas are the `OperatorCont` and
`OperandsCont`. -/
def cpsEvalCall (n : Nat) (mv apply : Bool) (form : Value)
    (lenv denv : EnvPtr) (k : KR) (st : St) : Res ResultV :=
  match n with
  | 0 => .timeout
  | n + 1 =>
    Res.ofExcept st (analyzeCall mv apply form) fun (operator, operands) =>
      cpsEvalOperator n operator lenv denv
        (fun result st2 =>
          let fn := result.primaryValue
          let macroFlag := operator.isVarbl && fn.isMacroClosure
          cpsEvalOperands n mv macroFlag operands [] lenv denv
            (fun args st3 =>
              cpsInvokeFun n apply macroFlag fn args lenv denv k st3) st2) st

/-- `cpsEvalOperator`. -/
def cpsEvalOperator (n : Nat) (operator : Value) (lenv denv : EnvPtr) (k : KR) (st : St) :
    Res ResultV :=
  match n with
  | 0 => .timeout
  | n + 1 =>
    match operator with
    | .varbl name =>
      Res.ofExcept st (envRef st (st.frames.length + 1) lenv .fn name) fun r =>
        match r with
        | some v => k (.obj v) st
        | none => .err (.jsTypeError "cpsEvalOperator") st
    | _ => cpsEvalForm n operator lenv denv k st

/-- `cpsEvalOperands`; the inline lambda is the `OperandCont`. -/
def cpsEvalOperands (n : Nat) (mv macroFlag : Bool) (operands : Value)
    (args : List Value) (lenv denv : EnvPtr) (ka : KA) (st : St) : Res ResultV :=
  match n with
  | 0 => .timeout
  | n + 1 =>
    match operands with
    | .nil => ka args st
    | .cons _ car cdr =>
      if macroFlag then
        cpsEvalOperands n mv macroFlag cdr (args ++ [car]) lenv denv ka st
      else
        cpsEvalForm n car lenv denv
          (fun result st2 =>
            let args2 := if mv then args ++ result.allValues else args ++ [result.primaryValue]
            cpsEvalOperands n mv macroFlag cdr args2 lenv denv ka st2) st
    | _ => .err (.jsTypeError "cpsEvalOperands") st

/-- `cpsInvokeFun`. -/
def cpsInvokeFun (n : Nat) (apply macroFlag : Bool) (fn : Value)
    (args : List Value) (lenv denv : EnvPtr) (k : KR) (st : St) : Res ResultV :=
  match n with
  | 0 => .timeout
  | n + 1 =>
    match fn with
    | .primfun arityMin arityMax p =>
      Res.ofExcept st (pairPrimFunParameters apply args arityMin arityMax) fun values =>
        Res.ofExcept st (applyPrim p values st) fun (r, st2) => k r st2
    | .closure _ scope ns _ parameters rest forms clenv =>
      Res.ofExcept st (pairClosureParameters apply st.counter args parameters rest)
        fun (values, counter2) =>
        let st2 := { st with counter := counter2 }
        match scope with
        | .lex =>
          let (elenv, st3) := allocFrame st2
            { ns := ns, vars := parameters, vals := values.map some, next := clenv }
          if macroFlag then
            match cpsEvalForms n forms elenv denv cpsEndCont st3 with
            | .timeout => .timeout
            | .err e st4 => .err e st4
            | .ok result st4 => cpsEvalForm n result.primaryValue lenv denv k st4
          else
            cpsEvalForms n forms elenv denv k st3
        | .dyn =>
          let (edenv, st3) := allocFrame st2
            { ns := ns, vars := parameters, vals := values.map some, next := denv }
          cpsEvalForms n forms clenv edenv k st3
    | _ => .err callOperatorFormError st

end

/-- `cpsEval`. -/
def cpsEval (n : Nat) (form : Value) (st : St) : Res ResultV :=
  cpsEvalForm n form .nullEnv .nullEnv cpsEndCont st

/-! ## Object-oriented CPS evaluator (source lines 2465-2810)

The continuations of the CPS evaluator defunctionalized into the `OOCPSCont`
records; `oinvoke` is the `invoke` method dispatch.  `OperandsCont` is
invoked with the argument array, all others with a result; `IArg` is the
union of the two invocation argument shapes. -/

inductive OCont
  | endK
  | butLastForm (forms : Value) (lenv denv : EnvPtr) (k : OCont)
  | ifTestForm (thenForm elseForm : Value) (lenv denv : EnvPtr) (k : OCont)
  | setValueForm (scope : Scope) (ns : Ns) (name : List Nat) (lenv denv : EnvPtr) (k : OCont)
  | forEachFunctionForm (listForm : Value) (lenv denv : EnvPtr) (k : OCont)
  | forEachListForm (fn : Value) (lenv denv : EnvPtr) (k : OCont)
  | operatorK (mv apply : Bool) (operator operands : Value) (lenv denv : EnvPtr) (k : OCont)
  | operandK (mv macroFlag : Bool) (operands : Value) (args : List Value)
      (lenv denv : EnvPtr) (k : OCont)
  | operandsK (apply macroFlag : Bool) (fn : Value) (lenv denv : EnvPtr) (k : OCont)

/-- What an `invoke` receives: a result for every continuation except
`OperandsCont`, which receives the argument array. -/
inductive IArg
  | res (r : ResultV)
  | args (vs : List Value)

mutual

/-- `oocpsEvalForm`. -/
def oocpsEvalForm (n : Nat) (form : Value) (lenv denv : EnvPtr) (k : OCont) (st : St) :
    Res ResultV :=
  match n with
  | 0 => .timeout
  | n + 1 =>
    match form with
    | .nil => .err emptyListError st
    | .cons _ (.varbl name) _ =>
      match specialOp name with
      | .quote => oocpsEvalQuote n form lenv denv k st
      | .progn => oocpsEvalProgn n form lenv denv k st
      | .ifOp => oocpsEvalIf n form lenv denv k st
      | .vlambda => oocpsEvalLambda n .lex .val false form lenv denv k st
      | .mlambda => oocpsEvalLambda n .lex .val true form lenv denv k st
      | .flambda => oocpsEvalLambda n .lex .fn false form lenv denv k st
      | .dlambda => oocpsEvalLambda n .dyn .val false form lenv denv k st
      | .vref => oocpsEvalRef n .lex .val form lenv denv k st
      | .vset => oocpsEvalSet n .lex .val form lenv denv k st
      | .fref => oocpsEvalRef n .lex .fn form lenv denv k st
      | .fset => oocpsEvalSet n .lex .fn form lenv denv k st
      | .dref => oocpsEvalRef n .dyn .val form lenv denv k st
      | .dset => oocpsEvalSet n .dyn .val form lenv denv k st
      | .forEach => oocpsEvalForEach n form lenv denv k st
      | .catchErrors => oocpsEvalCatchErrors n form lenv denv k st
      | .applyOp => oocpsEvalCall n false true form lenv denv k st
      | .mvCall => oocpsEvalCall n true false form lenv denv k st
      | .mvApply => oocpsEvalCall n true true form lenv denv k st
      | .none => oocpsEvalCall n false false form lenv denv k st
    | .cons _ _ _ => oocpsEvalCall n false false form lenv denv k st
    | .varbl name =>
      Res.ofExcept st (envRef st (st.frames.length + 1) lenv .val name) fun r =>
        match r with
        | some v => oinvoke n k (.res (.obj v)) st
        | none => .err (.jsTypeError "oocps variable") st
    | _ => oinvoke n k (.res (.obj form)) st

/-- The `invoke` method dispatch over the continuation records. -/
def oinvoke (n : Nat) (k : OCont) (arg : IArg) (st : St) : Res ResultV :=
  match n with
  | 0 => .timeout
  | n + 1 =>
    match k, arg with
    | .endK, .res r => .ok r st
    | .butLastForm forms lenv denv k, .res _ =>
      match forms with
      | .cons _ _ cdr => oocpsEvalForms n cdr lenv denv k st
      | _ => .err (.jsTypeError "OOCPSButLastFormCont") st
    | .ifTestForm thenForm elseForm lenv denv k, .res result =>
      match result.primaryValue with
      | .bool true => oocpsEvalForm n thenForm lenv denv k st
      | .bool false => oocpsEvalForm n elseForm lenv denv k st
      | _ => .err ifTestFormError st
    | .setValueForm scope ns name lenv denv k, .res result =>
      let value := result.primaryValue
      let env := match scope with | .lex => lenv | .dyn => denv
      Res.ofExcept st (envSet st (st.frames.length + 1) env ns name value)
        fun (r, st2) =>
        match r with
        | some v => oinvoke n k (.res (.obj v)) st2
        | none => .err (.jsTypeError "OOCPSSetValueFormCont") st2
    | .forEachFunctionForm listForm lenv denv k, .res result =>
      let fn := result.primaryValue
      if !fn.isFunction then .err forEachFunctionFormError st
      else oocpsEvalForm n listForm lenv denv (.forEachListForm fn lenv denv k) st
    | .forEachListForm fn lenv denv k, .res result =>
      oocpsForEachLoop n fn result.primaryValue lenv denv k st
    | .operatorK mv apply operator operands lenv denv k, .res result =>
      let fn := result.primaryValue
      let macroFlag := operator.isVarbl && fn.isMacroClosure
      oocpsEvalOperands n mv macroFlag operands [] lenv denv
        (.operandsK apply macroFlag fn lenv denv k) st
    | .operandK mv macroFlag operands args lenv denv k, .res result =>
      let args2 := if mv then args ++ result.allValues else args ++ [result.primaryValue]
      match operands with
      | .cons _ _ cdr => oocpsEvalOperands n mv macroFlag cdr args2 lenv denv k st
      | _ => .err (.jsTypeError "OOCPSOperandCont") st
    | .operandsK apply macroFlag fn lenv denv k, .args vs =>
      oocpsInvokeFun n apply macroFlag fn vs lenv denv k st
    | _, _ => .err (.jsTypeError "oinvoke") st

/-- `oocpsEvalQuote`. -/
def oocpsEvalQuote (n : Nat) (form : Value) (_lenv _denv : EnvPtr) (k : OCont) (st : St) :
    Res ResultV :=
  match n with
  | 0 => .timeout
  | n + 1 =>
    Res.ofExcept st (analyzeQuote form) fun literal => oinvoke n k (.res (.obj literal)) st

/-- `oocpsEvalProgn`. -/
def oocpsEvalProgn (n : Nat) (form : Value) (lenv denv : EnvPtr) (k : OCont) (st : St) :
    Res ResultV :=
  match n with
  | 0 => .timeout
  | n + 1 =>
    Res.ofExcept st (analyzeProgn form) fun forms =>
      oocpsEvalForms n forms lenv denv k st

/-- `oocpsEvalForms`. -/
def oocpsEvalForms (n : Nat) (forms : Value) (lenv denv : EnvPtr) (k : OCont) (st : St) :
    Res ResultV :=
  match n with
  | 0 => .timeout
  | n + 1 =>
    match forms with
    | .nil => oinvoke n k (.res (.obj .void)) st
    | .cons _ car .nil => oocpsEvalForm n car lenv denv k st
    | .cons cid car cdr =>
      oocpsEvalForm n car lenv denv (.butLastForm (.cons cid car cdr) lenv denv k) st
    | _ => .err (.jsTypeError "oocpsEvalForms") st

/-- `oocpsEvalIf`. -/
def oocpsEvalIf (n : Nat) (form : Value) (lenv denv : EnvPtr) (k : OCont) (st : St) :
    Res ResultV :=
  match n with
  | 0 => .timeout
  | n + 1 =>
    Res.ofExcept st (analyzeIf form) fun (testForm, thenForm, elseForm) =>
      oocpsEvalForm n testForm lenv denv (.ifTestForm thenForm elseForm lenv denv k) st

/-- `oocpsEvalLambda`. -/
def oocpsEvalLambda (n : Nat) (scope : Scope) (ns : Ns) (macroFlag : Bool)
    (form : Value) (lenv _denv : EnvPtr) (k : OCont) (st : St) : Res ResultV :=
  match n with
  | 0 => .timeout
  | n + 1 =>
    Res.ofExcept st (analyzeLambda form) fun (parameters, rest, forms) =>
      oinvoke n k
        (.res (.obj (.closure st.counter scope ns macroFlag parameters rest forms lenv)))
        { st with counter := st.counter + 1 }

/-- `oocpsEvalRef`. -/
def oocpsEvalRef (n : Nat) (scope : Scope) (ns : Ns) (form : Value)
    (lenv denv : EnvPtr) (k : OCont) (st : St) : Res ResultV :=
  match n with
  | 0 => .timeout
  | n + 1 =>
    Res.ofExcept st (analyzeRef form) fun name =>
      let env := match scope with | .lex => lenv | .dyn => denv
      Res.ofExcept st (envRef st (st.frames.length + 1) env ns name) fun r =>
        match r with
        | some v => oinvoke n k (.res (.obj v)) st
        | none => .err (.jsTypeError "oocpsEvalRef") st

/-- `oocpsEvalSet`. -/
def oocpsEvalSet (n : Nat) (scope : Scope) (ns : Ns) (form : Value)
    (lenv denv : EnvPtr) (k : OCont) (st : St) : Res ResultV :=
  match n with
  | 0 => .timeout
  | n + 1 =>
    Res.ofExcept st (analyzeSet form) fun (name, valueForm) =>
      oocpsEvalForm n valueForm lenv denv (.setValueForm scope ns name lenv denv k) st

/-- `oocpsEvalForEach`. -/
def oocpsEvalForEach (n : Nat) (form : Value) (lenv denv : EnvPtr) (k : OCont) (st : St) :
    Res ResultV :=
  match n with
  | 0 => .timeout
  | n + 1 =>
    Res.ofExcept st (analyzeForEach form) fun (functionForm, listForm) =>
      oocpsEvalForm n functionForm lenv denv (.forEachFunctionForm listForm lenv denv k) st

/-- The `while` loop of `OOCPSForEachListFormCont.invoke`. -/
def oocpsForEachLoop (n : Nat) (fn list : Value) (lenv denv : EnvPtr) (k : OCont) (st : St) :
    Res ResultV :=
  match n with
  | 0 => .timeout
  | n + 1 =>
    match list with
    | .nil => oinvoke n k (.res (.obj .void)) st
    | .cons _ car cdr =>
      match oocpsInvokeFun n false false fn [car] lenv denv .endK st with
      | .timeout => .timeout
      | .err e st2 => .err e st2
      | .ok _ st2 => oocpsForEachLoop n fn cdr lenv denv k st2
    | _ => .err forEachListFormError st

/-- `oocpsEvalCatchErrors`. -/
def oocpsEvalCatchErrors (n : Nat) (form : Value) (lenv denv : EnvPtr) (k : OCont) (st : St) :
    Res ResultV :=
  match n with
  | 0 => .timeout
  | n + 1 =>
    Res.ofExcept st (analyzeCatchErrors form) fun tryForm =>
      match oocpsEvalForm n tryForm lenv denv .endK st with
      | .timeout => .timeout
      | .err e st2 => oinvoke n k (.res (.obj (.str (nm e.name)))) st2
      | .ok _ st2 => oinvoke n k (.res (.obj .void)) st2

/-- `oocpsEvalCall`. -/
def oocpsEvalCall (n : Nat) (mv apply : Bool) (form : Value)
    (lenv denv : EnvPtr) (k : OCont) (st : St) : Res ResultV :=
  match n with
  | 0 => .timeout
  | n + 1 =>
    Res.ofExcept st (analyzeCall mv apply form) fun (operator, operands) =>
      oocpsEvalOperator n operator lenv denv
        (.operatorK mv apply operator operands lenv denv k) st

/-- `oocpsEvalOperator`. -/
def oocpsEvalOperator (n : Nat) (operator : Value) (lenv denv : EnvPtr) (k : OCont) (st : St) :
    Res ResultV :=
  match n with
  | 0 => .timeout
  | n + 1 =>
    match operator with
    | .varbl name =>
      Res.ofExcept st (envRef st (st.frames.length + 1) lenv .fn name) fun r =>
        match r with
        | some v => oinvoke n k (.res (.obj v)) st
        | none => .err (.jsTypeError "oocpsEvalOperator") st
    | _ => oocpsEvalForm n operator lenv denv k st

/-- `oocpsEvalOperands`. -/
def oocpsEvalOperands (n : Nat) (mv macroFlag : Bool) (operands : Value)
    (args : List Value) (lenv denv : EnvPtr) (k : OCont) (st : St) : Res ResultV :=
  match n with
  | 0 => .timeout
  | n + 1 =>
    match operands with
    | .nil => oinvoke n k (.args args) st
    | .cons cid car cdr =>
      if macroFlag then
        oocpsEvalOperands n mv macroFlag cdr (args ++ [car]) lenv denv k st
      else
        oocpsEvalForm n car lenv denv
          (.operandK mv macroFlag (.cons cid car cdr) args lenv denv k) st
    | _ => .err (.jsTypeError "oocpsEvalOperands") st

/-- `oocpsInvokeFun`. -/
def oocpsInvokeFun (n : Nat) (apply macroFlag : Bool) (fn : Value)
    (args : List Value) (lenv denv : EnvPtr) (k : OCont) (st : St) : Res ResultV :=
  match n with
  | 0 => .timeout
  | n + 1 =>
    match fn with
    | .primfun arityMin arityMax p =>
      Res.ofExcept st (pairPrimFunParameters apply args arityMin arityMax) fun values =>
        Res.ofExcept st (applyPrim p values st) fun (r, st2) => oinvoke n k (.res r) st2
    | .closure _ scope ns _ parameters rest forms clenv =>
      Res.ofExcept st (pairClosureParameters apply st.counter args parameters rest)
        fun (values, counter2) =>
        let st2 := { st with counter := counter2 }
        match scope with
        | .lex =>
          let (elenv, st3) := allocFrame st2
            { ns := ns, vars := parameters, vals := values.map some, next := clenv }
          if macroFlag then
            match oocpsEvalForms n forms elenv denv .endK st3 with
            | .timeout => .timeout
            | .err e st4 => .err e st4
            | .ok result st4 => oocpsEvalForm n result.primaryValue lenv denv k st4
          else
            oocpsEvalForms n forms elenv denv k st3
        | .dyn =>
          let (edenv, st3) := allocFrame st2
            { ns := ns, vars := parameters, vals := values.map some, next := denv }
          oocpsEvalForms n forms clenv edenv k st3
    | _ => .err callOperatorFormError st

end

/-- `oocpsEval`. -/
def oocpsEval (n : Nat) (form : Value) (st : St) : Res ResultV :=
  oocpsEvalForm n form .nullEnv .nullEnv .endK st

/-! ## Stack-based object-oriented CPS evaluator (source lines 2816-3200)

Continuations and dynamic-environment frames share one explicit stack,
threaded through every function (it is a single shared mutable array in
the source; the `kStack` field the continuation records capture is that
same array and is therefore not stored in the embedded records).  The
stack head is the array top.  An exception caught by `_catch-errors`
observes the stack as mutated so far, hence errors carry the stack. -/

inductive SCont
  | endK
  | butLastForm (forms : Value) (lenv : EnvPtr)
  | ifTestForm (thenForm elseForm : Value) (lenv : EnvPtr)
  | setValueForm (scope : Scope) (ns : Ns) (name : List Nat) (lenv : EnvPtr)
  | forEachFunctionForm (listForm : Value) (lenv : EnvPtr)
  | forEachListForm (fn : Value) (lenv : EnvPtr)
  | operatorK (mv apply : Bool) (operator operands : Value) (lenv : EnvPtr)
  | operandK (mv macroFlag : Bool) (operands : Value) (args : List Value) (lenv : EnvPtr)
  | operandsK (apply macroFlag : Bool) (fn : Value) (lenv : EnvPtr)

/-- A stack element: a continuation or a dynamic frame. -/
inductive SElem
  | cont (k : SCont)
  | frame (f : FrameData)

/-- Outcome of a stack-based evaluation step; errors and results carry the
stack and state at that point. -/
inductive SRes (α : Type)
  | timeout
  | err (e : Err) (stack : List SElem) (st : St)
  | ok (a : α) (stack : List SElem) (st : St)

/-- `SBOOCPSControlStack.ref` (source lines 2845-2856): scan the stack
top-down for a dynamic frame binding the variable, else the global cell.
A JS `null` slot would be returned as a value and crash downstream; it is
the `TypeError` marker here. -/
def stackRef (stack : List SElem) (st : St) (ns : Ns) (name : List Nat) :
    Except Err Value :=
  match stack with
  | [] => globalRef st ns name
  | .cont _ :: rest => stackRef rest st ns name
  | .frame f :: rest =>
    if f.ns = ns then
      match frameFind f.vars name with
      | some j =>
        match f.vals[j]? with
        | some (some v) => .ok v
        | some none => .error (.jsTypeError "stackRef null slot")
        | none => stackRef rest st ns name
      | none => stackRef rest st ns name
    else stackRef rest st ns name

/-- `SBOOCPSControlStack.set` (source lines 2857-2868). -/
def stackSet (stack : List SElem) (st : St) (ns : Ns) (name : List Nat) (v : Value) :
    Value × List SElem × St :=
  match stack with
  | [] => ((globalSet st ns name v).1, [], (globalSet st ns name v).2)
  | .cont k :: rest =>
    let (v2, rest2, st2) := stackSet rest st ns name v
    (v2, .cont k :: rest2, st2)
  | .frame f :: rest =>
    if f.ns = ns then
      match frameFind f.vars name with
      | some j => (v, .frame { f with vals := f.vals.set j (some v) } :: rest, st)
      | none =>
        let (v2, rest2, st2) := stackSet rest st ns name v
        (v2, .frame f :: rest2, st2)
    else
      let (v2, rest2, st2) := stackSet rest st ns name v
      (v2, .frame f :: rest2, st2)

/-- `trim(size)`: pop until the stack is back to the recorded size. -/
def stackTrim (stack : List SElem) (size : Nat) : List SElem :=
  stack.drop (stack.length - size)

mutual

/-- `sboocpsEvalForm`. -/
def sboocpsEvalForm (n : Nat) (form : Value) (lenv : EnvPtr) (stack : List SElem)
    (st : St) : SRes ResultV :=
  match n with
  | 0 => .timeout
  | n + 1 =>
    match form with
    | .nil => .err emptyListError stack st
    | .cons _ (.varbl name) _ =>
      match specialOp name with
      | .quote => sboocpsEvalQuote n form lenv stack st
      | .progn => sboocpsEvalProgn n form lenv stack st
      | .ifOp => sboocpsEvalIf n form lenv stack st
      | .vlambda => sboocpsEvalLambda n .lex .val false form lenv stack st
      | .mlambda => sboocpsEvalLambda n .lex .val true form lenv stack st
      | .flambda => sboocpsEvalLambda n .lex .fn false form lenv stack st
      | .dlambda => sboocpsEvalLambda n .dyn .val false form lenv stack st
      | .vref => sboocpsEvalRef n .lex .val form lenv stack st
      | .vset => sboocpsEvalSet n .lex .val form lenv stack st
      | .fref => sboocpsEvalRef n .lex .fn form lenv stack st
      | .fset => sboocpsEvalSet n .lex .fn form lenv stack st
      | .dref => sboocpsEvalRef n .dyn .val form lenv stack st
      | .dset => sboocpsEvalSet n .dyn .val form lenv stack st
      | .forEach => sboocpsEvalForEach n form lenv stack st
      | .catchErrors => sboocpsEvalCatchErrors n form lenv stack st
      | .applyOp => sboocpsEvalCall n false true form lenv stack st
      | .mvCall => sboocpsEvalCall n true false form lenv stack st
      | .mvApply => sboocpsEvalCall n true true form lenv stack st
      | .none => sboocpsEvalCall n false false form lenv stack st
    | .cons _ _ _ => sboocpsEvalCall n false false form lenv stack st
    | .varbl name =>
      match envRef st (st.frames.length + 1) lenv .val name with
      | .error e => .err e stack st
      | .ok (some v) => sinvokeCont n (.res (.obj v)) stack st
      | .ok none => .err (.jsTypeError "sboocps variable") stack st
    | _ => sinvokeCont n (.res (.obj form)) stack st

/-- `SBOOCPSControlStack.invokeCont`: pop elements until a continuation
is found (skipping dynamic frames), then invoke it.  An empty stack is
the unreachable infinite `pop` loop of the source. -/
def sinvokeCont (n : Nat) (arg : IArg) (stack : List SElem) (st : St) : SRes ResultV :=
  match n with
  | 0 => .timeout
  | n + 1 =>
    match stack with
    | [] => .err (.cannotHappen "sinvokeCont") [] st
    | .frame _ :: rest => sinvokeCont n arg rest st
    | .cont k :: rest => sinvoke n k arg rest st

/-- The `invoke` dispatch over `SBOOCPSCont` records. -/
def sinvoke (n : Nat) (k : SCont) (arg : IArg) (stack : List SElem) (st : St) :
    SRes ResultV :=
  match n with
  | 0 => .timeout
  | n + 1 =>
    match k, arg with
    | .endK, .res r => .ok r stack st
    | .butLastForm forms lenv, .res _ =>
      match forms with
      | .cons _ _ cdr => sboocpsEvalForms n cdr lenv stack st
      | _ => .err (.jsTypeError "SBOOCPSButLastFormCont") stack st
    | .ifTestForm thenForm elseForm lenv, .res result =>
      match result.primaryValue with
      | .bool true => sboocpsEvalForm n thenForm lenv stack st
      | .bool false => sboocpsEvalForm n elseForm lenv stack st
      | _ => .err ifTestFormError stack st
    | .setValueForm scope ns name lenv, .res result =>
      let value := result.primaryValue
      match scope with
      | .lex =>
        match envSet st (st.frames.length + 1) lenv ns name value with
        | .error e => .err e stack st
        | .ok (some v, st2) => sinvokeCont n (.res (.obj v)) stack st2
        | .ok (none, st2) => .err (.jsTypeError "SBOOCPSSetValueFormCont") stack st2
      | .dyn =>
        let (v, stack2, st2) := stackSet stack st ns name value
        sinvokeCont n (.res (.obj v)) stack2 st2
    | .forEachFunctionForm listForm lenv, .res result =>
      let fn := result.primaryValue
      if !fn.isFunction then .err forEachFunctionFormError stack st
      else sboocpsEvalForm n listForm lenv (.cont (.forEachListForm fn lenv) :: stack) st
    | .forEachListForm fn lenv, .res result =>
      sboocpsForEachLoop n fn result.primaryValue lenv stack st
    | .operatorK mv apply operator operands lenv, .res result =>
      let fn := result.primaryValue
      let macroFlag := operator.isVarbl && fn.isMacroClosure
      sboocpsEvalOperands n mv macroFlag operands [] lenv
        (.cont (.operandsK apply macroFlag fn lenv) :: stack) st
    | .operandK mv macroFlag operands args lenv, .res result =>
      let args2 := if mv then args ++ result.allValues else args ++ [result.primaryValue]
      match operands with
      | .cons _ _ cdr => sboocpsEvalOperands n mv macroFlag cdr args2 lenv stack st
      | _ => .err (.jsTypeError "SBOOCPSOperandCont") stack st
    | .operandsK apply macroFlag fn lenv, .args vs =>
      sboocpsInvokeFun n apply macroFlag fn vs lenv stack st
    | _, _ => .err (.jsTypeError "sinvoke") stack st

/-- `sboocpsEvalQuote`. -/
def sboocpsEvalQuote (n : Nat) (form : Value) (_lenv : EnvPtr) (stack : List SElem)
    (st : St) : SRes ResultV :=
  match n with
  | 0 => .timeout
  | n + 1 =>
    match analyzeQuote form with
    | .error e => .err e stack st
    | .ok literal => sinvokeCont n (.res (.obj literal)) stack st

/-- `sboocpsEvalProgn`. -/
def sboocpsEvalProgn (n : Nat) (form : Value) (lenv : EnvPtr) (stack : List SElem)
    (st : St) : SRes ResultV :=
  match n with
  | 0 => .timeout
  | n + 1 =>
    match analyzeProgn form with
    | .error e => .err e stack st
    | .ok forms => sboocpsEvalForms n forms lenv stack st

/-- `sboocpsEvalForms`. -/
def sboocpsEvalForms (n : Nat) (forms : Value) (lenv : EnvPtr) (stack : List SElem)
    (st : St) : SRes ResultV :=
  match n with
  | 0 => .timeout
  | n + 1 =>
    match forms with
    | .nil => sinvokeCont n (.res (.obj .void)) stack st
    | .cons _ car .nil => sboocpsEvalForm n car lenv stack st
    | .cons cid car cdr =>
      sboocpsEvalForm n car lenv
        (.cont (.butLastForm (.cons cid car cdr) lenv) :: stack) st
    | _ => .err (.jsTypeError "sboocpsEvalForms") stack st

/-- `sboocpsEvalIf`. -/
def sboocpsEvalIf (n : Nat) (form : Value) (lenv : EnvPtr) (stack : List SElem)
    (st : St) : SRes ResultV :=
  match n with
  | 0 => .timeout
  | n + 1 =>
    match analyzeIf form with
    | .error e => .err e stack st
    | .ok (testForm, thenForm, elseForm) =>
      sboocpsEvalForm n testForm lenv
        (.cont (.ifTestForm thenForm elseForm lenv) :: stack) st

/-- `sboocpsEvalLambda`. -/
def sboocpsEvalLambda (n : Nat) (scope : Scope) (ns : Ns) (macroFlag : Bool)
    (form : Value) (lenv : EnvPtr) (stack : List SElem) (st : St) : SRes ResultV :=
  match n with
  | 0 => .timeout
  | n + 1 =>
    match analyzeLambda form with
    | .error e => .err e stack st
    | .ok (parameters, rest, forms) =>
      sinvokeCont n
        (.res (.obj (.closure st.counter scope ns macroFlag parameters rest forms lenv)))
        stack { st with counter := st.counter + 1 }

/-- `sboocpsEvalRef`: the dynamic chain lives on the stack. -/
def sboocpsEvalRef (n : Nat) (scope : Scope) (ns : Ns) (form : Value)
    (lenv : EnvPtr) (stack : List SElem) (st : St) : SRes ResultV :=
  match n with
  | 0 => .timeout
  | n + 1 =>
    match analyzeRef form with
    | .error e => .err e stack st
    | .ok name =>
      match scope with
      | .lex =>
        match envRef st (st.frames.length + 1) lenv ns name with
        | .error e => .err e stack st
        | .ok (some v) => sinvokeCont n (.res (.obj v)) stack st
        | .ok none => .err (.jsTypeError "sboocpsEvalRef") stack st
      | .dyn =>
        match stackRef stack st ns name with
        | .error e => .err e stack st
        | .ok v => sinvokeCont n (.res (.obj v)) stack st

/-- `sboocpsEvalSet`. -/
def sboocpsEvalSet (n : Nat) (scope : Scope) (ns : Ns) (form : Value)
    (lenv : EnvPtr) (stack : List SElem) (st : St) : SRes ResultV :=
  match n with
  | 0 => .timeout
  | n + 1 =>
    match analyzeSet form with
    | .error e => .err e stack st
    | .ok (name, valueForm) =>
      sboocpsEvalForm n valueForm lenv
        (.cont (.setValueForm scope ns name lenv) :: stack) st

/-- `sboocpsEvalForEach`. -/
def sboocpsEvalForEach (n : Nat) (form : Value) (lenv : EnvPtr) (stack : List SElem)
    (st : St) : SRes ResultV :=
  match n with
  | 0 => .timeout
  | n + 1 =>
    match analyzeForEach form with
    | .error e => .err e stack st
    | .ok (functionForm, listForm) =>
      sboocpsEvalForm n functionForm lenv
        (.cont (.forEachFunctionForm listForm lenv) :: stack) st

/-- The `while` loop of `SBOOCPSForEachListFormCont.invoke`: push the end
continuation, invoke, discard the returned value, keep the threaded stack
and state. -/
def sboocpsForEachLoop (n : Nat) (fn list : Value) (lenv : EnvPtr)
    (stack : List SElem) (st : St) : SRes ResultV :=
  match n with
  | 0 => .timeout
  | n + 1 =>
    match list with
    | .nil => sinvokeCont n (.res (.obj .void)) stack st
    | .cons _ car cdr =>
      match sboocpsInvokeFun n false false fn [car] lenv (.cont .endK :: stack) st with
      | .timeout => .timeout
      | .err e stack2 st2 => .err e stack2 st2
      | .ok _ stack2 st2 => sboocpsForEachLoop n fn cdr lenv stack2 st2
    | _ => .err forEachListFormError stack st

/-- `sboocpsEvalCatchErrors` (source lines 3085-3096): record the stack
size, evaluate the try form under a pushed end continuation, trim the
stack back on catch. -/
def sboocpsEvalCatchErrors (n : Nat) (form : Value) (lenv : EnvPtr)
    (stack : List SElem) (st : St) : SRes ResultV :=
  match n with
  | 0 => .timeout
  | n + 1 =>
    match analyzeCatchErrors form with
    | .error e => .err e stack st
    | .ok tryForm =>
      let kStackSize := stack.length
      match sboocpsEvalForm n tryForm lenv (.cont .endK :: stack) st with
      | .timeout => .timeout
      | .err e stack2 st2 =>
        sinvokeCont n (.res (.obj (.str (nm e.name)))) (stackTrim stack2 kStackSize) st2
      | .ok _ stack2 st2 => sinvokeCont n (.res (.obj .void)) stack2 st2

/-- `sboocpsEvalCall`. -/
def sboocpsEvalCall (n : Nat) (mv apply : Bool) (form : Value) (lenv : EnvPtr)
    (stack : List SElem) (st : St) : SRes ResultV :=
  match n with
  | 0 => .timeout
  | n + 1 =>
    match analyzeCall mv apply form with
    | .error e => .err e stack st
    | .ok (operator, operands) =>
      sboocpsEvalOperator n operator lenv
        (.cont (.operatorK mv apply operator operands lenv) :: stack) st

/-- `sboocpsEvalOperator`. -/
def sboocpsEvalOperator (n : Nat) (operator : Value) (lenv : EnvPtr)
    (stack : List SElem) (st : St) : SRes ResultV :=
  match n with
  | 0 => .timeout
  | n + 1 =>
    match operator with
    | .varbl name =>
      match envRef st (st.frames.length + 1) lenv .fn name with
      | .error e => .err e stack st
      | .ok (some v) => sinvokeCont n (.res (.obj v)) stack st
      | .ok none => .err (.jsTypeError "sboocpsEvalOperator") stack st
    | _ => sboocpsEvalForm n operator lenv stack st

/-- `sboocpsEvalOperands`. -/
def sboocpsEvalOperands (n : Nat) (mv macroFlag : Bool) (operands : Value)
    (args : List Value) (lenv : EnvPtr) (stack : List SElem) (st : St) : SRes ResultV :=
  match n with
  | 0 => .timeout
  | n + 1 =>
    match operands with
    | .nil => sinvokeCont n (.args args) stack st
    | .cons cid car cdr =>
      if macroFlag then
        sboocpsEvalOperands n mv macroFlag cdr (args ++ [car]) lenv stack st
      else
        sboocpsEvalForm n car lenv
          (.cont (.operandK mv macroFlag (.cons cid car cdr) args lenv) :: stack) st
    | _ => .err (.jsTypeError "sboocpsEvalOperands") stack st

/-- `sboocpsInvokeFun` (source lines 3175-3200): lexical frames go on the
heap; dynamic frames are pushed on the control stack with an `undefined`
next pointer. -/
def sboocpsInvokeFun (n : Nat) (apply macroFlag : Bool) (fn : Value)
    (args : List Value) (lenv : EnvPtr) (stack : List SElem) (st : St) : SRes ResultV :=
  match n with
  | 0 => .timeout
  | n + 1 =>
    match fn with
    | .primfun arityMin arityMax p =>
      match pairPrimFunParameters apply args arityMin arityMax with
      | .error e => .err e stack st
      | .ok values =>
        match applyPrim p values st with
        | .error e => .err e stack st
        | .ok (r, st2) => sinvokeCont n (.res r) stack st2
    | .closure _ scope ns _ parameters rest forms clenv =>
      match pairClosureParameters apply st.counter args parameters rest with
      | .error e => .err e stack st
      | .ok (values, counter2) =>
        let st2 := { st with counter := counter2 }
        match scope with
        | .lex =>
          let (elenv, st3) := allocFrame st2
            { ns := ns, vars := parameters, vals := values.map some, next := clenv }
          if macroFlag then
            match sboocpsEvalForms n forms elenv (.cont .endK :: stack) st3 with
            | .timeout => .timeout
            | .err e stack4 st4 => .err e stack4 st4
            | .ok result stack4 st4 =>
              sboocpsEvalForm n result.primaryValue lenv stack4 st4
          else
            sboocpsEvalForms n forms elenv stack st3
        | .dyn =>
          sboocpsEvalForms n forms clenv
            (.frame { ns := ns, vars := parameters, vals := values.map some, next := .undef } :: stack)
            st2
    | _ => .err callOperatorFormError stack st

end

/-- `sboocpsEval`: push the end continuation on a fresh stack, evaluate,
and forget the final stack. -/
def sboocpsEval (n : Nat) (form : Value) (st : St) : Res ResultV :=
  match sboocpsEvalForm n form .nullEnv [.cont .endK] st with
  | .timeout => .timeout
  | .err e _ st2 => .err e st2
  | .ok r _ st2 => .ok r st2

/-! ## Trampoline evaluator (source lines 3206-3584)

The step functions return a bounce (an evaluation request or a value);
the driver loop dispatches bounces and resumes continuations from the
stack, testing the shared abort byte at the top of every iteration (the
`throw new Aborted()` sits outside both `try` blocks, so it never reaches
`handleError`).  The abort byte is modelled as an optional function from
the iteration counter to the sampled flag (`none` when no
`abortSignalArray` is installed). -/

/-- The abort byte as sampled over time: `none` models
`abortSignalArray === null`. -/
abbrev AbortSig := Option (Nat → Bool)

/-- One abort-byte sample, `abortSignalArray !== null && abortSignalArray[0] === 1`. -/
def abortSampled (sig : AbortSig) (iter : Nat) : Bool :=
  match sig with
  | none => false
  | some f => f iter

inductive TCont
  | endK
  | butLastForm (forms : Value) (lenv : EnvPtr)
  | ifTestForm (thenForm elseForm : Value) (lenv : EnvPtr)
  | setValueForm (scope : Scope) (ns : Ns) (name : List Nat) (lenv : EnvPtr)
  | catchErrorsTryForm (lenv : EnvPtr)
  | operatorK (mv apply : Bool) (operator operands : Value) (lenv : EnvPtr)
  | operandK (mv macroFlag : Bool) (operands : Value) (args : List Value) (lenv : EnvPtr)
  | operandsK (apply macroFlag : Bool) (fn : Value) (lenv : EnvPtr)
  | macroK (lenv : EnvPtr)

/-- Stack element: continuation, error-handler marker, or dynamic frame. -/
inductive TElem
  | cont (k : TCont)
  | handler
  | frame (f : FrameData)

/-- A bounce: `EvalReq` or a delivered value (a result, or the argument
array delivered to `OperandsCont`). -/
inductive TBounce
  | req (form : Value) (lenv : EnvPtr)
  | val (arg : IArg)

/-- Outcome of one trampoline step. -/
inductive TRes (α : Type)
  | timeout
  | err (e : Err) (stack : List TElem) (st : St)
  | ok (a : α) (stack : List TElem) (st : St)

/-- `TrampolineControlStack.ref`. -/
def tstackRef (stack : List TElem) (st : St) (ns : Ns) (name : List Nat) :
    Except Err Value :=
  match stack with
  | [] => globalRef st ns name
  | .frame f :: rest =>
    if f.ns = ns then
      match frameFind f.vars name with
      | some j =>
        match f.vals[j]? with
        | some (some v) => .ok v
        | some none => .error (.jsTypeError "tstackRef null slot")
        | none => tstackRef rest st ns name
      | none => tstackRef rest st ns name
    else tstackRef rest st ns name
  | _ :: rest => tstackRef rest st ns name

/-- `TrampolineControlStack.set`. -/
def tstackSet (stack : List TElem) (st : St) (ns : Ns) (name : List Nat) (v : Value) :
    Value × List TElem × St :=
  match stack with
  | [] => ((globalSet st ns name v).1, [], (globalSet st ns name v).2)
  | .frame f :: rest =>
    if f.ns = ns then
      match frameFind f.vars name with
      | some j => (v, .frame { f with vals := f.vals.set j (some v) } :: rest, st)
      | none =>
        let (v2, rest2, st2) := tstackSet rest st ns name v
        (v2, .frame f :: rest2, st2)
    else
      let (v2, rest2, st2) := tstackSet rest st ns name v
      (v2, .frame f :: rest2, st2)
  | e :: rest =>
    let (v2, rest2, st2) := tstackSet rest st ns name v
    (v2, e :: rest2, st2)

/-- `TrampolineControlStack.popCont`: pop until a continuation surfaces;
an exhausted stack is the unreachable infinite loop of the source. -/
def tpopCont : List TElem → Option (TCont × List TElem)
  | [] => none
  | .cont k :: rest => some (k, rest)
  | _ :: rest => tpopCont rest

/-- What `TrampolineControlStack.handleError` does to the stack. -/
inductive THandle
  | caught (rest : List TElem)
  | rethrow
  | broken

/-- `TrampolineControlStack.handleError` (source lines 3250-3259): pop
until an error-handler marker (the error is consumed and becomes a string
bounce) or the end continuation (the error is rethrown). -/
def thandleError : List TElem → THandle
  | [] => .broken
  | .handler :: rest => .caught rest
  | .cont .endK :: _ => .rethrow
  | _ :: rest => thandleError rest

mutual

/-- `trampolineEvalForm`. -/
def trampolineEvalForm (n : Nat) (form : Value) (lenv : EnvPtr)
    (stack : List TElem) (st : St) : TRes TBounce :=
  match n with
  | 0 => .timeout
  | n + 1 =>
    match form with
    | .nil => .err emptyListError stack st
    | .cons _ (.varbl name) _ =>
      match specialOp name with
      | .quote => trampolineEvalQuote n form lenv stack st
      | .progn => trampolineEvalProgn n form lenv stack st
      | .ifOp => trampolineEvalIf n form lenv stack st
      | .vlambda => trampolineEvalLambda n .lex .val false form lenv stack st
      | .mlambda => trampolineEvalLambda n .lex .val true form lenv stack st
      | .flambda => trampolineEvalLambda n .lex .fn false form lenv stack st
      | .dlambda => trampolineEvalLambda n .dyn .val false form lenv stack st
      | .vref => trampolineEvalRef n .lex .val form lenv stack st
      | .vset => trampolineEvalSet n .lex .val form lenv stack st
      | .fref => trampolineEvalRef n .lex .fn form lenv stack st
      | .fset => trampolineEvalSet n .lex .fn form lenv stack st
      | .dref => trampolineEvalRef n .dyn .val form lenv stack st
      | .dset => trampolineEvalSet n .dyn .val form lenv stack st
      | .forEach => .err forEachNotImplemented stack st
      | .catchErrors => trampolineEvalCatchErrors n form lenv stack st
      | .applyOp => trampolineEvalCall n false true form lenv stack st
      | .mvCall => trampolineEvalCall n true false form lenv stack st
      | .mvApply => trampolineEvalCall n true true form lenv stack st
      | .none => trampolineEvalCall n false false form lenv stack st
    | .cons _ _ _ => trampolineEvalCall n false false form lenv stack st
    | .varbl name =>
      match envRef st (st.frames.length + 1) lenv .val name with
      | .error e => .err e stack st
      | .ok (some v) => .ok (.val (.res (.obj v))) stack st
      | .ok none => .err (.jsTypeError "trampoline variable") stack st
    | _ => .ok (.val (.res (.obj form))) stack st

/-- The `invoke` dispatch over `TrampolineCont` records. -/
def tinvoke (n : Nat) (k : TCont) (arg : IArg) (stack : List TElem) (st : St) :
    TRes TBounce :=
  match n with
  | 0 => .timeout
  | n + 1 =>
    match k, arg with
    | .butLastForm forms lenv, .res _ =>
      match forms with
      | .cons _ _ cdr => trampolineEvalForms n cdr lenv stack st
      | _ => .err (.jsTypeError "TrampolineButLastFormCont") stack st
    | .ifTestForm thenForm elseForm lenv, .res result =>
      match result.primaryValue with
      | .bool true => .ok (.req thenForm lenv) stack st
      | .bool false => .ok (.req elseForm lenv) stack st
      | _ => .err ifTestFormError stack st
    | .setValueForm scope ns name lenv, .res result =>
      let value := result.primaryValue
      match scope with
      | .lex =>
        match envSet st (st.frames.length + 1) lenv ns name value with
        | .error e => .err e stack st
        | .ok (some v, st2) => .ok (.val (.res (.obj v))) stack st2
        | .ok (none, st2) => .err (.jsTypeError "TrampolineSetValueFormCont") stack st2
      | .dyn =>
        let (v, stack2, st2) := tstackSet stack st ns name value
        .ok (.val (.res (.obj v))) stack2 st2
    | .catchErrorsTryForm _lenv, .res _ =>
      .ok (.val (.res (.obj .void))) stack st
    | .operatorK mv apply operator operands lenv, .res result =>
      let fn := result.primaryValue
      let macroFlag := operator.isVarbl && fn.isMacroClosure
      trampolineEvalOperands n mv macroFlag operands [] lenv
        (.cont (.operandsK apply macroFlag fn lenv) :: stack) st
    | .operandK mv macroFlag operands args lenv, .res result =>
      let args2 := if mv then args ++ result.allValues else args ++ [result.primaryValue]
      match operands with
      | .cons _ _ cdr => trampolineEvalOperands n mv macroFlag cdr args2 lenv stack st
      | _ => .err (.jsTypeError "TrampolineOperandCont") stack st
    | .operandsK apply macroFlag fn lenv, .args vs =>
      trampolineInvokeFun n apply macroFlag fn vs lenv stack st
    | .macroK lenv, .res result =>
      .ok (.req result.primaryValue lenv) stack st
    | _, _ => .err (.jsTypeError "tinvoke") stack st

/-- `trampolineEvalQuote`. -/
def trampolineEvalQuote (n : Nat) (form : Value) (_lenv : EnvPtr)
    (stack : List TElem) (st : St) : TRes TBounce :=
  match n with
  | 0 => .timeout
  | _ + 1 =>
    match analyzeQuote form with
    | .error e => .err e stack st
    | .ok literal => .ok (.val (.res (.obj literal))) stack st

/-- `trampolineEvalProgn`. -/
def trampolineEvalProgn (n : Nat) (form : Value) (lenv : EnvPtr)
    (stack : List TElem) (st : St) : TRes TBounce :=
  match n with
  | 0 => .timeout
  | n + 1 =>
    match analyzeProgn form with
    | .error e => .err e stack st
    | .ok forms => trampolineEvalForms n forms lenv stack st

/-- `trampolineEvalForms` (source lines 3362-3371). -/
def trampolineEvalForms (n : Nat) (forms : Value) (lenv : EnvPtr)
    (stack : List TElem) (st : St) : TRes TBounce :=
  match n with
  | 0 => .timeout
  | _ + 1 =>
    match forms with
    | .nil => .ok (.val (.res (.obj .void))) stack st
    | .cons _ car .nil => .ok (.req car lenv) stack st
    | .cons cid car cdr =>
      .ok (.req car lenv) (.cont (.butLastForm (.cons cid car cdr) lenv) :: stack) st
    | _ => .err (.jsTypeError "trampolineEvalForms") stack st

/-- `trampolineEvalIf`. -/
def trampolineEvalIf (n : Nat) (form : Value) (lenv : EnvPtr)
    (stack : List TElem) (st : St) : TRes TBounce :=
  match n with
  | 0 => .timeout
  | _ + 1 =>
    match analyzeIf form with
    | .error e => .err e stack st
    | .ok (testForm, thenForm, elseForm) =>
      .ok (.req testForm lenv) (.cont (.ifTestForm thenForm elseForm lenv) :: stack) st

/-- `trampolineEvalLambda`. -/
def trampolineEvalLambda (n : Nat) (scope : Scope) (ns : Ns) (macroFlag : Bool)
    (form : Value) (lenv : EnvPtr) (stack : List TElem) (st : St) : TRes TBounce :=
  match n with
  | 0 => .timeout
  | _ + 1 =>
    match analyzeLambda form with
    | .error e => .err e stack st
    | .ok (parameters, rest, forms) =>
      .ok (.val (.res (.obj (.closure st.counter scope ns macroFlag parameters rest forms lenv))))
        stack { st with counter := st.counter + 1 }

/-- `trampolineEvalRef`. -/
def trampolineEvalRef (n : Nat) (scope : Scope) (ns : Ns) (form : Value)
    (lenv : EnvPtr) (stack : List TElem) (st : St) : TRes TBounce :=
  match n with
  | 0 => .timeout
  | _ + 1 =>
    match analyzeRef form with
    | .error e => .err e stack st
    | .ok name =>
      match scope with
      | .lex =>
        match envRef st (st.frames.length + 1) lenv ns name with
        | .error e => .err e stack st
        | .ok (some v) => .ok (.val (.res (.obj v))) stack st
        | .ok none => .err (.jsTypeError "trampolineEvalRef") stack st
      | .dyn =>
        match tstackRef stack st ns name with
        | .error e => .err e stack st
        | .ok v => .ok (.val (.res (.obj v))) stack st

/-- `trampolineEvalSet`. -/
def trampolineEvalSet (n : Nat) (scope : Scope) (ns : Ns) (form : Value)
    (lenv : EnvPtr) (stack : List TElem) (st : St) : TRes TBounce :=
  match n with
  | 0 => .timeout
  | _ + 1 =>
    match analyzeSet form with
    | .error e => .err e stack st
    | .ok (name, valueForm) =>
      .ok (.req valueForm lenv) (.cont (.setValueForm scope ns name lenv) :: stack) st

/-- `trampolineEvalCatchErrors` (source lines 3454-3459): push the handler
marker, then the try-form continuation. -/
def trampolineEvalCatchErrors (n : Nat) (form : Value) (lenv : EnvPtr)
    (stack : List TElem) (st : St) : TRes TBounce :=
  match n with
  | 0 => .timeout
  | _ + 1 =>
    match analyzeCatchErrors form with
    | .error e => .err e stack st
    | .ok tryForm =>
      .ok (.req tryForm lenv)
        (.cont (.catchErrorsTryForm lenv) :: .handler :: stack) st

/-- `trampolineEvalCall`. -/
def trampolineEvalCall (n : Nat) (mv apply : Bool) (form : Value)
    (lenv : EnvPtr) (stack : List TElem) (st : St) : TRes TBounce :=
  match n with
  | 0 => .timeout
  | n + 1 =>
    match analyzeCall mv apply form with
    | .error e => .err e stack st
    | .ok (operator, operands) =>
      trampolineEvalOperator n operator lenv
        (.cont (.operatorK mv apply operator operands lenv) :: stack) st

/-- `trampolineEvalOperator`. -/
def trampolineEvalOperator (n : Nat) (operator : Value) (lenv : EnvPtr)
    (stack : List TElem) (st : St) : TRes TBounce :=
  match n with
  | 0 => .timeout
  | _ + 1 =>
    match operator with
    | .varbl name =>
      match envRef st (st.frames.length + 1) lenv .fn name with
      | .error e => .err e stack st
      | .ok (some v) => .ok (.val (.res (.obj v))) stack st
      | .ok none => .err (.jsTypeError "trampolineEvalOperator") stack st
    | _ => .ok (.req operator lenv) stack st

/-- `trampolineEvalOperands`. -/
def trampolineEvalOperands (n : Nat) (mv macroFlag : Bool) (operands : Value)
    (args : List Value) (lenv : EnvPtr) (stack : List TElem) (st : St) : TRes TBounce :=
  match n with
  | 0 => .timeout
  | n + 1 =>
    match operands with
    | .nil => .ok (.val (.args args)) stack st
    | .cons cid car cdr =>
      if macroFlag then
        trampolineEvalOperands n mv macroFlag cdr (args ++ [car]) lenv stack st
      else
        .ok (.req car lenv)
          (.cont (.operandK mv macroFlag (.cons cid car cdr) args lenv) :: stack) st
    | _ => .err (.jsTypeError "trampolineEvalOperands") stack st

/-- `trampolineInvokeFun` (source lines 3551-3573). -/
def trampolineInvokeFun (n : Nat) (apply macroFlag : Bool) (fn : Value)
    (args : List Value) (lenv : EnvPtr) (stack : List TElem) (st : St) : TRes TBounce :=
  match n with
  | 0 => .timeout
  | n + 1 =>
    match fn with
    | .primfun arityMin arityMax p =>
      match pairPrimFunParameters apply args arityMin arityMax with
      | .error e => .err e stack st
      | .ok values =>
        match applyPrim p values st with
        | .error e => .err e stack st
        | .ok (r, st2) => .ok (.val (.res r)) stack st2
    | .closure _ scope ns _ parameters rest forms clenv =>
      match pairClosureParameters apply st.counter args parameters rest with
      | .error e => .err e stack st
      | .ok (values, counter2) =>
        let st2 := { st with counter := counter2 }
        match scope with
        | .lex =>
          let (elenv, st3) := allocFrame st2
            { ns := ns, vars := parameters, vals := values.map some, next := clenv }
          let stack2 := if macroFlag then .cont (.macroK lenv) :: stack else stack
          trampolineEvalForms n forms elenv stack2 st3
        | .dyn =>
          trampolineEvalForms n forms clenv
            (.frame { ns := ns, vars := parameters, vals := values.map some, next := .undef } :: stack)
            st2
    | _ => .err callOperatorFormError stack st

end

/-- The `while (true)` driver loop of `trampolineEval` (source lines
3209-3232): abort check, bounce dispatch, continuation resumption, error
handling.  `iter` counts loop iterations for the abort-byte samples. -/
def trampolineLoop (n : Nat) (iter : Nat) (sig : AbortSig) (bounce : TBounce)
    (stack : List TElem) (st : St) : Res ResultV :=
  match n with
  | 0 => .timeout
  | n + 1 =>
    if abortSampled sig iter then .err .aborted st
    else
      match bounce with
      | .req form lenv =>
        match trampolineEvalForm n form lenv stack st with
        | .timeout => .timeout
        | .err e stack2 st2 =>
          match thandleError stack2 with
          | .caught rest =>
            trampolineLoop n (iter + 1) sig (.val (.res (.obj (.str (nm e.name))))) rest st2
          | .rethrow => .err e st2
          | .broken => .err (.cannotHappen "handleError") st2
        | .ok bounce2 stack2 st2 => trampolineLoop n (iter + 1) sig bounce2 stack2 st2
      | .val arg =>
        match tpopCont stack with
        | none => .err (.cannotHappen "popCont") st
        | some (k, rest) =>
          match k with
          | .endK =>
            match arg with
            | .res r => .ok r st
            | .args _ => .err (.cannotHappen "endK args") st
          | k =>
            match tinvoke n k arg rest st with
            | .timeout => .timeout
            | .err e stack2 st2 =>
              match thandleError stack2 with
              | .caught rest2 =>
                trampolineLoop n (iter + 1) sig (.val (.res (.obj (.str (nm e.name))))) rest2 st2
              | .rethrow => .err e st2
              | .broken => .err (.cannotHappen "handleError") st2
            | .ok bounce2 stack2 st2 => trampolineLoop n (iter + 1) sig bounce2 stack2 st2

/-- `trampolineEval`. -/
def trampolineEval (n : Nat) (sig : AbortSig) (form : Value) (st : St) : Res ResultV :=
  trampolineLoop n 0 sig (.req form .nullEnv) [.cont .endK] st

/-! ## Trampoline++ evaluator (source lines 3590-4301)

The preprocessed-form runtime first (each `TrampolineppForm` node's `eval`
method, the continuation records, the control stack and the driver loop),
then the preprocessor.  `optimizeLexicalVariables` is the constant `true`
in the source, so the non-optimized `TrampolineppRef`/`TrampolineppSet`
nodes and their continuation are dead code and are not embedded.  At one
place (`trampolineppPreprocessCall`, the macro-let branch) `eval` is
called with a `null` control stack, so the runtime takes an optional
stack; pushing on the absent stack is the host `TypeError` that call
would raise. -/

inductive PCont
  | endK
  | butLastForm (forms : Value) (lenv : EnvPtr)
  | ifTestForm (thenForm elseForm : PPForm) (lenv : EnvPtr)
  | lsetK (i j : Nat) (lenv : EnvPtr)
  | gsetK (ns : Ns) (name : List Nat) (lenv : EnvPtr)
  | dsetK (ns : Ns) (name : List Nat) (lenv : EnvPtr)
  | catchErrorsTryForm (lenv : EnvPtr)
  | operatorK (mv apply : Bool) (operands : Value) (lenv : EnvPtr)
  | operandK (mv : Bool) (operands : Value) (args : List Value) (lenv : EnvPtr)
  | operandsK (apply : Bool) (fn : Value) (lenv : EnvPtr)

inductive PElem
  | cont (k : PCont)
  | handler
  | frame (f : FrameData)

inductive PBounce
  | req (form : PPForm) (lenv : EnvPtr)
  | val (arg : IArg)

inductive PRes (α : Type)
  | timeout
  | err (e : Err) (stack : Option (List PElem)) (st : St)
  | ok (a : α) (stack : Option (List PElem)) (st : St)

/-- `TrampolineppControlStack.ref`. -/
def pstackRef (stack : List PElem) (st : St) (ns : Ns) (name : List Nat) :
    Except Err Value :=
  match stack with
  | [] => globalRef st ns name
  | .frame f :: rest =>
    if f.ns = ns then
      match frameFind f.vars name with
      | some j =>
        match f.vals[j]? with
        | some (some v) => .ok v
        | some none => .error (.jsTypeError "pstackRef null slot")
        | none => pstackRef rest st ns name
      | none => pstackRef rest st ns name
    else pstackRef rest st ns name
  | _ :: rest => pstackRef rest st ns name

/-- `TrampolineppControlStack.set`. -/
def pstackSet (stack : List PElem) (st : St) (ns : Ns) (name : List Nat) (v : Value) :
    Value × List PElem × St :=
  match stack with
  | [] => ((globalSet st ns name v).1, [], (globalSet st ns name v).2)
  | .frame f :: rest =>
    if f.ns = ns then
      match frameFind f.vars name with
      | some j => (v, .frame { f with vals := f.vals.set j (some v) } :: rest, st)
      | none =>
        let (v2, rest2, st2) := pstackSet rest st ns name v
        (v2, .frame f :: rest2, st2)
    else
      let (v2, rest2, st2) := pstackSet rest st ns name v
      (v2, .frame f :: rest2, st2)
  | e :: rest =>
    let (v2, rest2, st2) := pstackSet rest st ns name v
    (v2, e :: rest2, st2)

/-- `TrampolineppControlStack.popCont`. -/
def ppopCont : List PElem → Option (PCont × List PElem)
  | [] => none
  | .cont k :: rest => some (k, rest)
  | _ :: rest => ppopCont rest

/-- What `TrampolineppControlStack.handleError` does to the stack. -/
inductive PHandle
  | caught (rest : List PElem)
  | rethrow
  | broken

/-- `TrampolineppControlStack.handleError`. -/
def phandleError : List PElem → PHandle
  | [] => .broken
  | .handler :: rest => .caught rest
  | .cont .endK :: _ => .rethrow
  | _ :: rest => phandleError rest

/-- `kStack.push(...)` through the optional stack: pushing on the JS
`null` stack is a host `TypeError`. -/
def pushP (stackOpt : Option (List PElem)) (e : PElem) :
    Except Err (List PElem) :=
  match stackOpt with
  | none => .error (.jsTypeError "push on null kStack")
  | some stack => .ok (e :: stack)

/-- Walk `i` frames up the lexical chain (`for (let n = i; n > 0; n--)
frame = frame.next`), returning the heap index reached. -/
def lwalk (st : St) : Nat → EnvPtr → Except Err Nat
  | _, .nullEnv => .error (.jsTypeError "lwalk null")
  | _, .undef => .error (.jsTypeError "lwalk undefined")
  | i, .frame idx =>
    match i with
    | 0 => .ok idx
    | i + 1 =>
      match st.frames[idx]? with
      | none => .error (.cannotHappen "lwalk frame")
      | some f => lwalk st i f.next

mutual

/-- The `eval` method dispatch over `TrampolineppForm` nodes. -/
def ppFormEval (n : Nat) (f : PPForm) (lenv : EnvPtr)
    (stackOpt : Option (List PElem)) (st : St) : PRes PBounce :=
  match n with
  | 0 => .timeout
  | n + 1 =>
    match f with
    | .quote literal => .ok (.val (.res (.obj literal))) stackOpt st
    | .progn forms => ppEvalForms n forms lenv stackOpt st
    | .ifF testForm thenForm elseForm =>
      match pushP stackOpt (.cont (.ifTestForm thenForm elseForm lenv)) with
      | .error e => .err e stackOpt st
      | .ok stack2 => .ok (.req testForm lenv) (some stack2) st
    | .lambda scope ns macroFlag params rest forms =>
      .ok (.val (.res (.obj (.closure st.counter scope ns macroFlag params rest forms lenv))))
        stackOpt { st with counter := st.counter + 1 }
    | .lref i j =>
      match lwalk st i lenv with
      | .error e => .err e stackOpt st
      | .ok idx =>
        match st.frames[idx]? with
        | none => .err (.cannotHappen "TrampolineppLRef") stackOpt st
        | some fr =>
          match fr.vals[j]? with
          | some (some v) => .ok (.val (.res (.obj v))) stackOpt st
          | _ => .err (.jsTypeError "TrampolineppLRef slot") stackOpt st
    | .gref ns name =>
      match globalRef st ns name with
      | .error e => .err e stackOpt st
      | .ok v => .ok (.val (.res (.obj v))) stackOpt st
    | .dref ns name =>
      match stackOpt with
      | none => .err (.jsTypeError "TrampolineppDRef null kStack") stackOpt st
      | some stack =>
        match pstackRef stack st ns name with
        | .error e => .err e stackOpt st
        | .ok v => .ok (.val (.res (.obj v))) stackOpt st
    | .lset i j valueForm =>
      match pushP stackOpt (.cont (.lsetK i j lenv)) with
      | .error e => .err e stackOpt st
      | .ok stack2 => .ok (.req valueForm lenv) (some stack2) st
    | .gset ns name valueForm =>
      match pushP stackOpt (.cont (.gsetK ns name lenv)) with
      | .error e => .err e stackOpt st
      | .ok stack2 => .ok (.req valueForm lenv) (some stack2) st
    | .dset ns name valueForm =>
      match pushP stackOpt (.cont (.dsetK ns name lenv)) with
      | .error e => .err e stackOpt st
      | .ok stack2 => .ok (.req valueForm lenv) (some stack2) st
    | .forEach _ _ => .err forEachNotImplemented stackOpt st
    | .catchErrors tryForm =>
      match pushP stackOpt .handler with
      | .error e => .err e stackOpt st
      | .ok stack2 =>
        .ok (.req tryForm lenv) (some (.cont (.catchErrorsTryForm lenv) :: stack2)) st
    | .call mv apply operator operands =>
      match pushP stackOpt (.cont (.operatorK mv apply operands lenv)) with
      | .error e => .err e stackOpt st
      | .ok stack2 => .ok (.req operator lenv) (some stack2) st

/-- `trampolineppEvalForms`. -/
def ppEvalForms (n : Nat) (forms : Value) (lenv : EnvPtr)
    (stackOpt : Option (List PElem)) (st : St) : PRes PBounce :=
  match n with
  | 0 => .timeout
  | _ + 1 =>
    match forms with
    | .nil => .ok (.val (.res (.obj .void))) stackOpt st
    | .cons _ (.ppform f) .nil => .ok (.req f lenv) stackOpt st
    | .cons cid (.ppform f) cdr =>
      match pushP stackOpt (.cont (.butLastForm (.cons cid (.ppform f) cdr) lenv)) with
      | .error e => .err e stackOpt st
      | .ok stack2 => .ok (.req f lenv) (some stack2) st
    | _ => .err (.jsTypeError "ppEvalForms") stackOpt st

/-- `trampolineppEvalOperands`. -/
def ppEvalOperands (n : Nat) (mv : Bool) (operands : Value) (args : List Value)
    (lenv : EnvPtr) (stackOpt : Option (List PElem)) (st : St) : PRes PBounce :=
  match n with
  | 0 => .timeout
  | _ + 1 =>
    match operands with
    | .nil => .ok (.val (.args args)) stackOpt st
    | .cons cid (.ppform f) cdr =>
      match pushP stackOpt (.cont (.operandK mv (.cons cid (.ppform f) cdr) args lenv)) with
      | .error e => .err e stackOpt st
      | .ok stack2 => .ok (.req f lenv) (some stack2) st
    | _ => .err (.jsTypeError "ppEvalOperands") stackOpt st

/-- The `invoke` dispatch over `TrampolineppCont` records. -/
def pinvoke (n : Nat) (k : PCont) (arg : IArg) (stack : List PElem) (st : St) :
    PRes PBounce :=
  match n with
  | 0 => .timeout
  | n + 1 =>
    match k, arg with
    | .butLastForm forms lenv, .res _ =>
      match forms with
      | .cons _ _ cdr => ppEvalForms n cdr lenv (some stack) st
      | _ => .err (.jsTypeError "TrampolineppButLastFormCont") (some stack) st
    | .ifTestForm thenForm elseForm lenv, .res result =>
      match result.primaryValue with
      | .bool true => .ok (.req thenForm lenv) (some stack) st
      | .bool false => .ok (.req elseForm lenv) (some stack) st
      | _ => .err ifTestFormError (some stack) st
    | .lsetK i j lenv, .res result =>
      let value := result.primaryValue
      match lwalk st i lenv with
      | .error e => .err e (some stack) st
      | .ok idx =>
        match st.frames[idx]? with
        | none => .err (.cannotHappen "TrampolineppLSet") (some stack) st
        | some fr =>
          .ok (.val (.res (.obj value))) (some stack)
            { st with frames := st.frames.set idx { fr with vals := fr.vals.set j (some value) } }
    | .gsetK ns name _lenv, .res result =>
      let value := result.primaryValue
      let (v, st2) := globalSet st ns name value
      .ok (.val (.res (.obj v))) (some stack) st2
    | .dsetK ns name _lenv, .res result =>
      let value := result.primaryValue
      let (v, stack2, st2) := pstackSet stack st ns name value
      .ok (.val (.res (.obj v))) (some stack2) st2
    | .catchErrorsTryForm _lenv, .res _ =>
      .ok (.val (.res (.obj .void))) (some stack) st
    | .operatorK mv apply operands lenv, .res result =>
      let fn := result.primaryValue
      ppEvalOperands n mv operands []
        lenv (some (.cont (.operandsK apply fn lenv) :: stack)) st
    | .operandK mv operands args lenv, .res result =>
      let args2 := if mv then args ++ result.allValues else args ++ [result.primaryValue]
      match operands with
      | .cons _ _ cdr => ppEvalOperands n mv cdr args2 lenv (some stack) st
      | _ => .err (.jsTypeError "TrampolineppOperandCont") (some stack) st
    | .operandsK apply fn lenv, .args vs =>
      ppInvokeFun n apply fn vs lenv stack st
    | _, _ => .err (.jsTypeError "pinvoke") (some stack) st

/-- `trampolineppInvokeFun` (source lines 4282-4301); no macro branch —
macros are expanded at preprocess time. -/
def ppInvokeFun (n : Nat) (apply : Bool) (fn : Value) (args : List Value)
    (_lenv : EnvPtr) (stack : List PElem) (st : St) : PRes PBounce :=
  match n with
  | 0 => .timeout
  | n + 1 =>
    match fn with
    | .primfun arityMin arityMax p =>
      match pairPrimFunParameters apply args arityMin arityMax with
      | .error e => .err e (some stack) st
      | .ok values =>
        match applyPrim p values st with
        | .error e => .err e (some stack) st
        | .ok (r, st2) => .ok (.val (.res r)) (some stack) st2
    | .closure _ scope ns _ parameters rest forms clenv =>
      match pairClosureParameters apply st.counter args parameters rest with
      | .error e => .err e (some stack) st
      | .ok (values, counter2) =>
        let st2 := { st with counter := counter2 }
        match scope with
        | .lex =>
          let (elenv, st3) := allocFrame st2
            { ns := ns, vars := parameters, vals := values.map some, next := clenv }
          ppEvalForms n forms elenv (some stack) st3
        | .dyn =>
          ppEvalForms n forms clenv
            (some (.frame { ns := ns, vars := parameters, vals := values.map some, next := .undef } :: stack))
            st2
    | _ => .err callOperatorFormError (some stack) st

end

/-- The `while (true)` driver loop of `trampolineppEval` (source lines
3597-3620), with the same abort check as the plain trampoline. -/
def trampolineppLoop (n : Nat) (iter : Nat) (sig : AbortSig) (bounce : PBounce)
    (stack : List PElem) (st : St) : Res ResultV :=
  match n with
  | 0 => .timeout
  | n + 1 =>
    if abortSampled sig iter then .err .aborted st
    else
      match bounce with
      | .req f lenv =>
        match ppFormEval n f lenv (some stack) st with
        | .timeout => .timeout
        | .err e stackOpt2 st2 =>
          match phandleError (stackOpt2.getD []) with
          | .caught rest =>
            trampolineppLoop n (iter + 1) sig (.val (.res (.obj (.str (nm e.name))))) rest st2
          | .rethrow => .err e st2
          | .broken => .err (.cannotHappen "pp handleError") st2
        | .ok bounce2 stackOpt2 st2 =>
          trampolineppLoop n (iter + 1) sig bounce2 (stackOpt2.getD []) st2
      | .val arg =>
        match ppopCont stack with
        | none => .err (.cannotHappen "pp popCont") st
        | some (k, rest) =>
          match k with
          | .endK =>
            match arg with
            | .res r => .ok r st
            | .args _ => .err (.cannotHappen "pp endK args") st
          | k =>
            match pinvoke n k arg rest st with
            | .timeout => .timeout
            | .err e stackOpt2 st2 =>
              match phandleError (stackOpt2.getD []) with
              | .caught rest2 =>
                trampolineppLoop n (iter + 1) sig (.val (.res (.obj (.str (nm e.name))))) rest2 st2
              | .rethrow => .err e st2
              | .broken => .err (.cannotHappen "pp handleError") st2
            | .ok bounce2 stackOpt2 st2 =>
              trampolineppLoop n (iter + 1) sig bounce2 (stackOpt2.getD []) st2

/-- `trampolineppEval(form, lenv)` with a non-null `lenv`: the call made
by the preprocessor to expand a macro (no preprocessing, straight into
the loop). -/
def trampolineppEvalPre (n : Nat) (sig : AbortSig) (f : PPForm) (lenv : EnvPtr)
    (st : St) : Res ResultV :=
  trampolineppLoop n 0 sig (.req f lenv) [.cont .endK] st

/-! ### The trampoline++ preprocessor (source lines 3674-4207) -/

/-- `isMacroLet` (source lines 4197-4207): the operator must be a cons
headed by the interned `_flambda` variable, and every operand a cons
headed by the interned `mlambda` variable (the `mlet` helper macro, not
`_mlambda`). -/
def isMacroLet (operator operands : Value) : Bool :=
  match operator with
  | .cons _ (.varbl opName) _ =>
    if opName = nm "_flambda" then goOperands operands else false
  | _ => false
where
  goOperands : Value → Bool
    | .nil => true
    | .cons _ (.cons _ (.varbl headName) _) rest =>
      if headName = nm "mlambda" then goOperands rest else false
    | _ => false

mutual

/-- `trampolineppPreprocessForm`. -/
def ppPreprocessForm (n : Nat) (sig : AbortSig) (form : Value) (lenv : EnvPtr)
    (st : St) : Res PPForm :=
  match n with
  | 0 => .timeout
  | n + 1 =>
    match form with
    | .nil => .err emptyListError st
    | .cons _ (.varbl name) _ =>
      match specialOp name with
      | .quote =>
        Res.ofExcept st (analyzeQuote form) fun literal => .ok (.quote literal) st
      | .progn =>
        Res.ofExcept st (analyzeProgn form) fun forms =>
          match ppPreprocessForms n sig forms lenv st with
          | .timeout => .timeout
          | .err e st2 => .err e st2
          | .ok pforms st2 => .ok (.progn pforms) st2
      | .ifOp =>
        Res.ofExcept st (analyzeIf form) fun (testForm, thenForm, elseForm) =>
          match ppPreprocessForm n sig testForm lenv st with
          | .timeout => .timeout
          | .err e st2 => .err e st2
          | .ok pt st2 =>
            match ppPreprocessForm n sig thenForm lenv st2 with
            | .timeout => .timeout
            | .err e st3 => .err e st3
            | .ok pc st3 =>
              match ppPreprocessForm n sig elseForm lenv st3 with
              | .timeout => .timeout
              | .err e st4 => .err e st4
              | .ok pa st4 => .ok (.ifF pt pc pa) st4
      | .vlambda => ppPreprocessLambda n sig .lex .val false form lenv st
      | .mlambda => ppPreprocessLambda n sig .lex .val true form lenv st
      | .flambda => ppPreprocessLambda n sig .lex .fn false form lenv st
      | .dlambda => ppPreprocessLambda n sig .dyn .val false form lenv st
      | .vref => ppPreprocessRef n .lex .val form lenv st
      | .vset => ppPreprocessSet n sig .lex .val form lenv st
      | .fref => ppPreprocessRef n .lex .fn form lenv st
      | .fset => ppPreprocessSet n sig .lex .fn form lenv st
      | .dref => ppPreprocessRef n .dyn .val form lenv st
      | .dset => ppPreprocessSet n sig .dyn .val form lenv st
      | .forEach =>
        Res.ofExcept st (analyzeForEach form) fun (functionForm, listForm) =>
          match ppPreprocessForm n sig functionForm lenv st with
          | .timeout => .timeout
          | .err e st2 => .err e st2
          | .ok pf st2 =>
            match ppPreprocessForm n sig listForm lenv st2 with
            | .timeout => .timeout
            | .err e st3 => .err e st3
            | .ok pl st3 => .ok (.forEach pf pl) st3
      | .catchErrors =>
        Res.ofExcept st (analyzeCatchErrors form) fun tryForm =>
          match ppPreprocessForm n sig tryForm lenv st with
          | .timeout => .timeout
          | .err e st2 => .err e st2
          | .ok pt st2 => .ok (.catchErrors pt) st2
      | .applyOp => ppPreprocessCall n sig false true form lenv st
      | .mvCall => ppPreprocessCall n sig true false form lenv st
      | .mvApply => ppPreprocessCall n sig true true form lenv st
      | .none => ppPreprocessCall n sig false false form lenv st
    | .cons _ _ _ => ppPreprocessCall n sig false false form lenv st
    | .varbl name => ppPreprocessRef2 .lex .val name lenv st
    | _ => .ok (.quote form) st

/-- `trampolineppPreprocessForms`: each form preprocessed, the results
rebuilt into fresh cons cells holding the `TrampolineppForm` nodes (the
cons for a link is allocated after its car and its whole tail are
built). -/
def ppPreprocessForms (n : Nat) (sig : AbortSig) (forms : Value) (lenv : EnvPtr)
    (st : St) : Res Value :=
  match n with
  | 0 => .timeout
  | n + 1 =>
    match forms with
    | .nil => .ok .nil st
    | .cons _ car cdr =>
      match ppPreprocessForm n sig car lenv st with
      | .timeout => .timeout
      | .err e st2 => .err e st2
      | .ok pcar st2 =>
        match ppPreprocessForms n sig cdr lenv st2 with
        | .timeout => .timeout
        | .err e st3 => .err e st3
        | .ok pcdr st3 =>
          .ok (.cons st3.counter (.ppform pcar) pcdr) { st3 with counter := st3.counter + 1 }
    | _ => .err (.jsTypeError "ppPreprocessForms") st

/-- `trampolineppPreprocessLambda` (source lines 3851-3866): a lexical
lambda preprocesses its body under a compile-time frame with null-filled
slots. -/
def ppPreprocessLambda (n : Nat) (sig : AbortSig) (scope : Scope) (ns : Ns)
    (macroFlag : Bool) (form : Value) (lenv : EnvPtr) (st : St) : Res PPForm :=
  match n with
  | 0 => .timeout
  | n + 1 =>
    Res.ofExcept st (analyzeLambda form) fun (parameters, rest, forms) =>
      match scope with
      | .lex =>
        let (elenv, st2) := allocFrame st
          { ns := ns, vars := parameters,
            vals := parameters.map (fun _ => none), next := lenv }
        match ppPreprocessForms n sig forms elenv st2 with
        | .timeout => .timeout
        | .err e st3 => .err e st3
        | .ok pforms st3 => .ok (.lambda scope ns macroFlag parameters rest pforms) st3
      | .dyn =>
        match ppPreprocessForms n sig forms lenv st with
        | .timeout => .timeout
        | .err e st3 => .err e st3
        | .ok pforms st3 => .ok (.lambda scope ns macroFlag parameters rest pforms) st3

/-- `trampolineppPreprocessRef`. -/
def ppPreprocessRef (n : Nat) (scope : Scope) (ns : Ns) (form : Value)
    (lenv : EnvPtr) (st : St) : Res PPForm :=
  match n with
  | 0 => .timeout
  | _ + 1 =>
    Res.ofExcept st (analyzeRef form) fun name =>
      ppPreprocessRef2 scope ns name lenv st

/-- `trampolineppPreprocessRef2` with `optimizeLexicalVariables = true`:
a lexical reference becomes a frame-and-slot address when the binding is
on the compile-time chain, else a global reference; dynamic references
stay symbolic. -/
def ppPreprocessRef2 (scope : Scope) (ns : Ns) (name : List Nat) (lenv : EnvPtr)
    (st : St) : Res PPForm :=
  match scope with
  | .lex =>
    match preprocessorRef st (st.frames.length + 1) lenv ns name 0 with
    | .error e => .err e st
    | .ok (some (i, j), _) => .ok (.lref i j) st
    | .ok (none, _) => .ok (.gref ns name) st
  | .dyn => .ok (.dref ns name) st

/-- `trampolineppPreprocessSet` with `optimizeLexicalVariables = true`. -/
def ppPreprocessSet (n : Nat) (sig : AbortSig) (scope : Scope) (ns : Ns)
    (form : Value) (lenv : EnvPtr) (st : St) : Res PPForm :=
  match n with
  | 0 => .timeout
  | n + 1 =>
    Res.ofExcept st (analyzeSet form) fun (name, valueForm) =>
      match ppPreprocessForm n sig valueForm lenv st with
      | .timeout => .timeout
      | .err e st2 => .err e st2
      | .ok pv st2 =>
        match scope with
        | .lex =>
          match preprocessorRef st2 (st2.frames.length + 1) lenv ns name 0 with
          | .error e => .err e st2
          | .ok (some (i, j), _) => .ok (.lset i j pv) st2
          | .ok (none, _) => .ok (.gset ns name pv) st2
        | .dyn => .ok (.dset ns name pv) st2

/-- The values of the preprocessed macro-let operands:
`preprocessedOperand.eval(nullDefiniteEnv, null)` for each.  Anything but
a directly returned object (for instance an `EvalReq` bounce) cannot be
stored as a frame value in the embedding and is flagged. -/
def ppMacroLetValues (n : Nat) (operands : List Value) (st : St) : Res (List Value) :=
  match n with
  | 0 => .timeout
  | n + 1 =>
    match operands with
    | [] => .ok [] st
    | v :: rest =>
      match v with
      | .ppform f =>
        match ppFormEval n f .nullEnv none st with
        | .timeout => .timeout
        | .err e _ st2 => .err e st2
        | .ok (.val (.res (.obj w))) _ st2 =>
          match ppMacroLetValues n rest st2 with
          | .timeout => .timeout
          | .err e st3 => .err e st3
          | .ok ws st3 => .ok (w :: ws) st3
        | .ok _ _ st2 => .err (.cannotHappen "macro-let operand bounce") st2
      | _ => .err (.jsTypeError "ppMacroLetValues") st

/-- `trampolineppPreprocessCall` (source lines 4168-4195): a variable
operator whose compile-time function binding is a macro closure is
expanded now (pair the unevaluated operands, run the body through the
evaluator, preprocess the expansion); a macro-let (`isMacroLet`) binds
the evaluated operand closures in a compile-time function-namespace
frame and preprocesses the `_flambda` body under it; everything else is
an ordinary call node. -/
def ppPreprocessCall (n : Nat) (sig : AbortSig) (mv apply : Bool) (form : Value)
    (lenv : EnvPtr) (st : St) : Res PPForm :=
  match n with
  | 0 => .timeout
  | n + 1 =>
    Res.ofExcept st (analyzeCall mv apply form) fun (operator, operands) =>
      match operator with
      | .varbl name =>
        match preprocessorRef st (st.frames.length + 1) lenv .fn name 0 with
        | .error e => .err e st
        | .ok (_, fnOpt) =>
          match fnOpt with
          | some (.closure _ _ cns true cparams crest cforms clenv) =>
            Res.ofExcept st (listToArray operands) fun args =>
              Res.ofExcept st (pairClosureParameters false st.counter args cparams crest)
                fun (values, counter2) =>
                let st2 := { st with counter := counter2 }
                let (elenv, st3) := allocFrame st2
                  { ns := cns, vars := cparams, vals := values.map some, next := clenv }
                match trampolineppEvalPre n sig (.progn cforms) elenv st3 with
                | .timeout => .timeout
                | .err e st4 => .err e st4
                | .ok result st4 =>
                  ppPreprocessForm n sig result.primaryValue lenv st4
          | _ =>
            match ppPreprocessRef2 .lex .fn name lenv st with
            | .timeout => .timeout
            | .err e st2 => .err e st2
            | .ok pop st2 =>
              match ppPreprocessForms n sig operands lenv st2 with
              | .timeout => .timeout
              | .err e st3 => .err e st3
              | .ok pops st3 => .ok (.call mv apply pop pops) st3
      | _ =>
        if isMacroLet operator operands then
          match ppPreprocessForms n sig operands lenv st with
          | .timeout => .timeout
          | .err e st2 => .err e st2
          | .ok pops st2 =>
            Res.ofExcept st2 (analyzeLambda operator) fun (parameters, rest, forms) =>
              Res.ofExcept st2 (listToArray pops) fun popsArr =>
                match ppMacroLetValues n popsArr st2 with
                | .timeout => .timeout
                | .err e st3 => .err e st3
                | .ok values st3 =>
                  let (elenv, st4) := allocFrame st3
                    { ns := .fn, vars := parameters, vals := values.map some, next := lenv }
                  match ppPreprocessForms n sig forms elenv st4 with
                  | .timeout => .timeout
                  | .err e st5 => .err e st5
                  | .ok pforms st5 =>
                    .ok (.call mv apply
                          (.lambda .lex .fn false parameters rest pforms) pops) st5
        else
          match ppPreprocessForm n sig operator lenv st with
          | .timeout => .timeout
          | .err e st2 => .err e st2
          | .ok pop st2 =>
            match ppPreprocessForms n sig operands lenv st2 with
            | .timeout => .timeout
            | .err e st3 => .err e st3
            | .ok pops st3 => .ok (.call mv apply pop pops) st3

end

/-- `trampolineppEval(form)` with the default `null` lenv: preprocess in
the null environment, then run the loop. -/
def trampolineppEval (n : Nat) (sig : AbortSig) (form : Value) (st : St) : Res ResultV :=
  match ppPreprocessForm n sig form .nullEnv st with
  | .timeout => .timeout
  | .err e st2 => .err e st2
  | .ok f st2 => trampolineppLoop n 0 sig (.req f .nullEnv) [.cont .endK] st2

/-! ## Observation helpers used by the theorems -/

/-- The elements of a proper list; `none` when the value is not a proper
list. -/
def listElems : Value → Option (List Value)
  | .nil => some []
  | .cons _ car cdr => (listElems cdr).map (car :: ·)
  | _ => none

/-- The suffix of a list value after dropping `n` leading conses. -/
def listDropV : Nat → Value → Value
  | 0, v => v
  | n + 1, .cons _ _ cdr => listDropV n cdr
  | _ + 1, v => v

/-- Erase allocation identifiers, for comparing values produced by runs
that allocate in different orders (ids realise object identity, which is
not part of value equality across evaluators). -/
def stripIds : Value → Value
  | .void => .void
  | .bool b => .bool b
  | .num x => .num x
  | .char u => .char u
  | .str s => .str s
  | .keyword s => .keyword s
  | .varbl s => .varbl s
  | .nil => .nil
  | .cons _ car cdr => .cons 0 (stripIds car) (stripIds cdr)
  | .vector _ elements => .vector 0 elements
  | .primfun a b p => .primfun a b p
  | .closure _ scope ns m params rest forms lenv =>
    .closure 0 scope ns m params rest (stripIds forms) lenv
  | .ppform f => .ppform f

/-- The stripped primary value of an outcome, `none` for timeout and
`some (inl name)` for an error. -/
def observe : Res ResultV → Option (String ⊕ Value)
  | .timeout => none
  | .err e _ => some (.inl e.name)
  | .ok r _ => some (.inr (stripIds r.primaryValue))

/-- A cons chain over the given elements with erased (zero) ids and the
given terminal value; a proper list when the terminal is `nil`. -/
def chain0 : List Value → Value → Value
  | [], t => t
  | v :: rest, t => .cons 0 v (chain0 rest t)

/-! ## Tokenizer (source lines 222-852)

JS strings are lists of UTF-16 code units; a "character" as handed around
by the tokenizer (`peekCharacter`) is one or two code units.  The
tokenizer object is the `Tok` record; the mutating methods become
functions returning the updated record.  Loops take their fuel from the
remaining input length, which bounds every tokenizer loop (each iteration
consumes at least one code unit or returns). -/

/-- The token categories (source lines 233-255). -/
inductive Cat
  | quoteC | quasiquoteC | unquoteC | unquoteSplicingC
  | stringC | openParenC | closeParenC | hashOpenParenC
  | hashPlusC | hashMinusC | voidC | booleanC | characterC
  | xmlStartTagC | xmlEndTagC | xmlEmptyElementTagC | xmlCommentC
  | dotC | numberC | keywordC | variableC | boiC | eoiC
deriving DecidableEq, Repr

/-- The `Tokenizer` object.  `value` holds the EVL value of a value token;
`xmlName` holds the element name of an XML tag token (the source stores
the JS string in the same `value` slot). -/
structure Tok where
  text : List Nat
  convertEVLToXML : Bool
  position : Nat
  xmlStack : List (List Nat)
  savedCodeUnits : List Nat
  whitespace : List Nat
  lexeme : List Nat
  category : Cat
  value : Option Value
  xmlName : List Nat

/-- `new Tokenizer(text, convertEVLToXML)`. -/
def mkTok (text : List Nat) (conv : Bool) : Tok :=
  { text := text, convertEVLToXML := conv, position := 0, xmlStack := [],
    savedCodeUnits := [], whitespace := [], lexeme := [], category := .boiC,
    value := none, xmlName := [] }

def isLeadingSurrogate (u : Nat) : Bool := 0xD800 ≤ u && u ≤ 0xDBFF

def isTrailingSurrogate (u : Nat) : Bool := 0xDC00 ≤ u && u ≤ 0xDFFF

/-- The code point of a surrogate pair. -/
def pairCodePoint (hi lo : Nat) : Nat := 0x10000 + (hi - 0xD800) * 0x400 + (lo - 0xDC00)

/-- `codePointAt(0)` of a one-or-two-unit character. -/
def charCodePoint : List Nat → Nat
  | [u] => u
  | u1 :: u2 :: _ => pairCodePoint u1 u2
  | [] => 0

def isControlCharacter (cp : Nat) : Bool :=
  cp ≤ 0x1F || (0x7F ≤ cp && cp ≤ 0x9F)

def isNoncharacter (cp : Nat) : Bool :=
  let x := cp % 0x10000
  x = 0xFFFE || x = 0xFFFF || (0xFDD0 ≤ cp && cp ≤ 0xFDEF)

def isWhitespaceCharacter (cp : Nat) : Bool :=
  cp = 0x9 || cp = 0xA || cp = 0xB || cp = 0xC || cp = 0xD || cp = 0x20 ||
  cp = 0x85 || cp = 0x200E || cp = 0x200F || cp = 0x2028 || cp = 0x2029

def isSyntaxCharacter (cp : Nat) : Bool :=
  cp = 0x27 || cp = 0x60 || cp = 0x2C || cp = 0x22 || cp = 0x28 ||
  cp = 0x29 || cp = 0x23

def isXMLNameCharacter (cp : Nat) : Bool := 0x61 ≤ cp && cp ≤ 0x7A

def isDecimalDigit (cp : Nat) : Bool := 0x30 ≤ cp && cp ≤ 0x39

/-- `peekCharacter(position)` (source lines 365-392).  Reading past the
end gives `charCodeAt` NaN, which `String.fromCharCode` turns into the
NUL control character, hence the invalid-control-character error. -/
def peekCharacterAt (tk : Tok) (pos : Nat) : Except Err (List Nat) :=
  match tk.text[pos]? with
  | none => .error (.tokenizerError "Invalid control character.")
  | some u =>
    if isTrailingSurrogate u then .error (.tokenizerError "Lone surrogate.")
    else if isLeadingSurrogate u then
      if pos + 1 = tk.text.length then .error (.tokenizerError "Lone surrogate.")
      else
        match tk.text[pos + 1]? with
        | none => .error (.tokenizerError "Lone surrogate.")
        | some u2 =>
          if isTrailingSurrogate u2 then checkChar [u, u2]
          else .error (.tokenizerError "Lone surrogate.")
    else checkChar [u]
where
  checkChar (c : List Nat) : Except Err (List Nat) :=
    let cp := charCodePoint c
    if isControlCharacter cp && !isWhitespaceCharacter cp then
      .error (.tokenizerError "Invalid control character.")
    else if isNoncharacter cp then .error (.tokenizerError "Noncharacter.")
    else .ok c

def peekCharacter (tk : Tok) : Except Err (List Nat) := peekCharacterAt tk tk.position

/-- `consumeCharacter`. -/
def consumeCharacter (tk : Tok) (c : List Nat) : Tok :=
  { tk with lexeme := tk.lexeme ++ c, position := tk.position + c.length }

/-- `skipWhitespace` (source lines 418-431). -/
def skipWhitespace (pureXML : Bool) (tk : Tok) : Except Err Tok :=
  go (tk.text.length + 1) tk
where
  go : Nat → Tok → Except Err Tok
    | 0, _ => .error (.cannotHappen "skipWhitespace")
    | fuel + 1, tk =>
      if tk.position = tk.text.length then .ok tk
      else
        match peekCharacter tk with
        | .error e => .error e
        | .ok c =>
          if pureXML then
            if c = [0x3C] then .ok tk
            else go fuel { tk with whitespace := tk.whitespace ++ c,
                                   position := tk.position + c.length }
          else if !isWhitespaceCharacter (charCodePoint c) then .ok tk
          else go fuel { tk with whitespace := tk.whitespace ++ c,
                                 position := tk.position + c.length }

/-- A hexadecimal digit value. -/
def hexVal (u : Nat) : Option Nat :=
  if 0x30 ≤ u && u ≤ 0x39 then some (u - 0x30)
  else if 0x61 ≤ u && u ≤ 0x66 then some (u - 0x61 + 10)
  else if 0x41 ≤ u && u ≤ 0x46 then some (u - 0x41 + 10)
  else none

/-- `codePointRegExp.test`: one or more hexadecimal digits. -/
def isHexString (units : List Nat) : Bool :=
  !units.isEmpty && units.all (fun u => (hexVal u).isSome)

/-- `Number.parseInt(s, 16)` on a hex string. -/
def parseHex (units : List Nat) : Nat :=
  units.foldl (fun a u => a * 16 + (hexVal u).getD 0) 0

/-- `String.fromCodePoint` as code units (the caller checks the 0x10FFFF
range). -/
def cpToUnits (cp : Nat) : List Nat :=
  if cp < 0x10000 then [cp]
  else [0xD800 + (cp - 0x10000) / 0x400, 0xDC00 + (cp - 0x10000) % 0x400]

/-- `readEscapeSequence` (source lines 553-576): reads `{xyz}` after the
`\U`, returning the text between the braces. -/
def readEscapeSequence (tk : Tok) : Except Err (List Nat × Tok) :=
  if tk.position = tk.text.length then
    .error (.truncatedToken "Truncated escape sequence.")
  else
    match peekCharacter tk with
    | .error e => .error e
    | .ok c =>
      let tk := consumeCharacter tk c
      if c ≠ [0x7B] then .error (.tokenizerError "Malformed escape sequence.")
      else go (tk.text.length + 1) [] tk
where
  go : Nat → List Nat → Tok → Except Err (List Nat × Tok)
    | 0, _, _ => .error (.cannotHappen "readEscapeSequence")
    | fuel + 1, chars, tk =>
      if tk.position = tk.text.length then
        .error (.truncatedToken "Truncated escape sequence.")
      else
        match peekCharacter tk with
        | .error e => .error e
        | .ok c2 =>
          let tk := consumeCharacter tk c2
          if c2 = [0x7D] then .ok (chars, tk)
          else go fuel (chars ++ c2) tk

/-- The shared `\U{...}` step of `readString` and `readProtoToken`:
validate the hex digits and append the denoted code point. -/
def readUnicodeEscape (chars : List Nat) (tk : Tok) :
    Except Err (List Nat × Tok) :=
  match readEscapeSequence tk with
  | .error e => .error e
  | .ok (hexChars, tk) =>
    if !isHexString hexChars then .error (.tokenizerError "Malformed escape sequence.")
    else
      let cp := parseHex hexChars
      if cp > 0x10FFFF then .error (.jsRangeError "Invalid code point")
      else .ok (chars ++ cpToUnits cp, tk)

/-- `readString` (source lines 578-632), called after the opening
double quote has been consumed. -/
def readString (tk : Tok) : Except Err (List Nat × Tok) :=
  go (tk.text.length + 1) [] tk
where
  go : Nat → List Nat → Tok → Except Err (List Nat × Tok)
    | 0, _, _ => .error (.cannotHappen "readString")
    | fuel + 1, chars, tk =>
      if tk.position = tk.text.length then
        .error (.truncatedToken "Truncated string.")
      else
        match peekCharacter tk with
        | .error e => .error e
        | .ok c =>
          let tk := consumeCharacter tk c
          if c = [0x22] then .ok (chars, tk)
          else if c = [0x5C] then
            if tk.position = tk.text.length then
              .error (.truncatedToken "Truncated escape sequence.")
            else
              match peekCharacter tk with
              | .error e => .error e
              | .ok c2 =>
                let tk := consumeCharacter tk c2
                match c2 with
                | [0x5C] => go fuel (chars ++ [0x5C]) tk
                | [0x22] => go fuel (chars ++ [0x22]) tk
                | [0x74] => go fuel (chars ++ [0x9]) tk
                | [0x6E] => go fuel (chars ++ [0xA]) tk
                | [0x76] => go fuel (chars ++ [0xB]) tk
                | [0x66] => go fuel (chars ++ [0xC]) tk
                | [0x72] => go fuel (chars ++ [0xD]) tk
                | [0x55] =>
                  match readUnicodeEscape chars tk with
                  | .error e => .error e
                  | .ok (chars2, tk) => go fuel chars2 tk
                | _ => .error (.tokenizerError "Undefined escape sequence.")
          else go fuel (chars ++ c) tk

/-- `unicodeEscape` (source lines 548-551). -/
def hexUpper (n : Nat) : List Nat :=
  go (n + 1) n
where
  go : Nat → Nat → List Nat
    | 0, _ => []
    | _ + 1, 0 => []
    | fuel + 1, n =>
      go fuel (n / 16) ++ [hexDigit (n % 16)]
  hexDigit (d : Nat) : Nat := if d < 10 then 0x30 + d else 0x41 + d - 10

def unicodeEscape (cp : Nat) : List Nat :=
  [0x5C, 0x55, 0x7B] ++ (if cp = 0 then [0x30] else hexUpper cp) ++ [0x7D]

/-- `escapeCharacters` (source lines 504-546): walk the code units,
escaping lone surrogates, forbidden control characters and
noncharacters, and applying the per-character escaper otherwise. -/
def escapeCharacters (s : List Nat) (esc : List Nat → List Nat) : List Nat :=
  match s with
  | [] => []
  | u :: rest =>
    if isTrailingSurrogate u then unicodeEscape u ++ escapeCharacters rest esc
    else if isLeadingSurrogate u then
      match rest with
      | [] => unicodeEscape u ++ []
      | u2 :: rest2 =>
        if isTrailingSurrogate u2 then
          let cp := pairCodePoint u u2
          if isControlCharacter cp && !isWhitespaceCharacter cp then
            unicodeEscape cp ++ escapeCharacters rest2 esc
          else if isNoncharacter cp then unicodeEscape cp ++ escapeCharacters rest2 esc
          else esc [u, u2] ++ escapeCharacters rest2 esc
        else unicodeEscape u ++ escapeCharacters (u2 :: rest2) esc
    else
      if isControlCharacter u && !isWhitespaceCharacter u then
        unicodeEscape u ++ escapeCharacters rest esc
      else if isNoncharacter u then unicodeEscape u ++ escapeCharacters rest esc
      else esc [u] ++ escapeCharacters rest esc

/-- `escapeStringCharacter` (source lines 634-653). -/
def escapeStringCharacter (c : List Nat) : List Nat :=
  match c with
  | [0x5C] => [0x5C, 0x5C]
  | [0x22] => [0x5C, 0x22]
  | [0x9] => [0x5C, 0x74]
  | [0xA] => [0x5C, 0x6E]
  | [0xB] => [0x5C, 0x76]
  | [0xC] => [0x5C, 0x66]
  | [0xD] => [0x5C, 0x72]
  | _ => c

/-- `escapeProtoTokenCharacter` (source lines 839-852). -/
def escapeProtoTokenCharacter (c : List Nat) : List Nat :=
  let cp := charCodePoint c
  if isWhitespaceCharacter cp || isSyntaxCharacter cp then unicodeEscape cp
  else
    match c with
    | [0x5C] => [0x5C, 0x5C]
    | [0x3C] => [0x5C, 0x3C]
    | _ => c

/-- `readXMLMarkup` (source lines 716-793): the tag/comment state
machine.  Returns `false` (not XML markup) without moving the position,
or `true` with the token fields set when `consume` is requested. -/
def readXMLMarkup (tk : Tok) (consume : Bool) : Except Err (Bool × Tok) :=
  go (tk.text.length + 1) 0 false false false [] (tk.position + 1)
where
  go (fuel : Nat) (state : Nat) (isEnd isEmpty isComment : Bool)
      (name : List Nat) (position : Nat) : Except Err (Bool × Tok) :=
    match fuel with
    | 0 => .error (.cannotHappen "readXMLMarkup")
    | fuel + 1 =>
      if position = tk.text.length then .ok (false, tk)
      else
        match peekCharacterAt tk position with
        | .error e => .error e
        | .ok c =>
          let position := position + c.length
          let cp := charCodePoint c
          match state with
          | 0 =>
            if c = [0x2F] then go fuel 100 true isEmpty isComment name position
            else if isXMLNameCharacter cp then
              go fuel 101 isEnd isEmpty isComment (name ++ c) position
            else if c = [0x21] then go fuel 200 isEnd isEmpty true name position
            else .ok (false, tk)
          | 100 =>
            if isXMLNameCharacter cp then
              go fuel 101 isEnd isEmpty isComment (name ++ c) position
            else .ok (false, tk)
          | 101 =>
            if isXMLNameCharacter cp then
              go fuel 101 isEnd isEmpty isComment (name ++ c) position
            else if c = [0x2F] then go fuel 102 isEnd true isComment name position
            else if c = [0x3E] then finish isEnd isEmpty isComment name position
            else .ok (false, tk)
          | 102 =>
            if c = [0x3E] then finish isEnd isEmpty isComment name position
            else .ok (false, tk)
          | 200 =>
            if c = [0x2D] then go fuel 201 isEnd isEmpty isComment name position
            else .ok (false, tk)
          | 201 =>
            if c = [0x2D] then go fuel 202 isEnd isEmpty isComment name position
            else .ok (false, tk)
          | 202 =>
            if c = [0x2D] then go fuel 203 isEnd isEmpty isComment name position
            else go fuel 202 isEnd isEmpty isComment name position
          | 203 =>
            if c = [0x2D] then go fuel 204 isEnd isEmpty isComment name position
            else go fuel 202 isEnd isEmpty isComment name position
          | 204 =>
            if c = [0x3E] then finish isEnd isEmpty isComment name position
            else .ok (false, tk)
          | _ => .error (.cannotHappen "readXMLMarkup state")
  finish (isEnd isEmpty isComment : Bool) (name : List Nat) (position : Nat) :
      Except Err (Bool × Tok) :=
    if isEnd && isEmpty then .ok (false, tk)
    else if !consume then .ok (true, tk)
    else
      let tk2 := { tk with
        lexeme := (tk.text.drop tk.position).take (position - tk.position),
        position := position }
      if isComment then .ok (true, { tk2 with category := .xmlCommentC })
      else if isEnd then
        match tk2.xmlStack with
        | [] => .error (.tokenizerError "Unexpected XML end tag.")
        | top :: restStack =>
          if top ≠ name then .error (.tokenizerError "Unmatched XML tags.")
          else .ok (true, { tk2 with xmlStack := restStack,
                                     category := .xmlEndTagC, xmlName := name })
      else if isEmpty then
        .ok (true, { tk2 with category := .xmlEmptyElementTagC, xmlName := name })
      else
        .ok (true, { tk2 with xmlStack := name :: tk2.xmlStack,
                              category := .xmlStartTagC, xmlName := name })

/-- `readProtoToken` (source lines 795-837). -/
def readProtoToken (tk : Tok) : Except Err (List Nat × Tok) :=
  go (tk.text.length + 1) [] tk
where
  go : Nat → List Nat → Tok → Except Err (List Nat × Tok)
    | 0, _, _ => .error (.cannotHappen "readProtoToken")
    | fuel + 1, chars, tk =>
      if tk.position = tk.text.length then .ok (chars, tk)
      else
        match peekCharacter tk with
        | .error e => .error e
        | .ok c =>
          let cp := charCodePoint c
          if isWhitespaceCharacter cp || isSyntaxCharacter cp then .ok (chars, tk)
          else
            match (if c = [0x3C] then readXMLMarkup tk false
                   else .ok (false, tk)) with
            | .error e => .error e
            | .ok (true, _) => .ok (chars, tk)
            | .ok (false, _) =>
              let tk := consumeCharacter tk c
              if c = [0x5C] then
                if tk.position = tk.text.length then
                  .error (.truncatedToken "Truncated escape sequence.")
                else
                  match peekCharacter tk with
                  | .error e => .error e
                  | .ok c2 =>
                    let tk := consumeCharacter tk c2
                    match c2 with
                    | [0x5C] => go fuel (chars ++ [0x5C]) tk
                    | [0x3C] => go fuel (chars ++ [0x3C]) tk
                    | [0x55] =>
                      match readUnicodeEscape chars tk with
                      | .error e => .error e
                      | .ok (chars2, tk) => go fuel chars2 tk
                    | _ => .error (.tokenizerError "Undefined escape sequence.")
              else go fuel (chars ++ c) tk

/-- `numberRegExp.test`: `[+-]?[0-9]+(\.[0-9]+)?`. -/
def isNumberToken (units : List Nat) : Bool :=
  let rest := match units with
    | u :: r => if u = 0x2B || u = 0x2D then r else units
    | [] => []
  match rest.span isDecimalDigit with
  | (ds, tail) =>
    !ds.isEmpty &&
    (tail.isEmpty ||
      (match tail with
       | 0x2E :: fs => !fs.isEmpty && fs.all isDecimalDigit
       | _ => false))

/-- `:[^:]+`. -/
def isKeywordToken (units : List Nat) : Bool :=
  match units with
  | 0x3A :: rest => !rest.isEmpty && rest.all (fun u => u ≠ 0x3A)
  | _ => false

/-- `[^:]+`. -/
def isVariableToken (units : List Nat) : Bool :=
  !units.isEmpty && units.all (fun u => u ≠ 0x3A)

/-- An integer as an exact rational without normalization (the
denominator 1 is trivially reduced). -/
def ratOfInt (n : Int) : Rat :=
  ⟨n, 1, Nat.one_ne_zero, Nat.coprime_one_right _⟩

/-- The value of a digit run. -/
def digitsVal (ds : List Nat) : Nat :=
  ds.foldl (fun a u => a * 10 + (u - 0x30)) 0

/-- `Number.parseFloat` on a string matching `numberRegExp`, as an exact
rational.  `parseFloat` is exact on integers of magnitude below 2^53
(and on the short finite decimals the printer emits); the
nearest-double rounding it applies beyond that is outside the
embedding, so theorems drawing on the parsed value carry an explicit
magnitude bound. -/
def parseNumberToken (units : List Nat) : Rat :=
  let (neg, rest) := match units with
    | 0x2D :: r => (true, r)
    | 0x2B :: r => (false, r)
    | _ => (false, units)
  match rest.span isDecimalDigit with
  | (ds, tail) =>
    let ip := digitsVal ds
    match tail with
    | 0x2E :: fs =>
      let k := fs.length
      let total : Int := (ip * 10 ^ k + digitsVal fs : Nat)
      mkRat (if neg then -total else total) (10 ^ k)
    | _ => ratOfInt (if neg then -(ip : Int) else (ip : Nat))

/-- `readHashConstruct` (source lines 655-714).  The returned flag tells
whether a token category was assigned (the skipped empty hash-string
leaves it unassigned, and `nextToken` loops). -/
def readHashConstruct (tk : Tok) : Except Err (Bool × Tok) :=
  go (tk.text.length + 1) [] tk
where
  go : Nat → List Nat → Tok → Except Err (Bool × Tok)
    | 0, _, _ => .error (.cannotHappen "readHashConstruct")
    | fuel + 1, arg, tk =>
      if tk.position = tk.text.length then
        .error (.truncatedToken "Truncated hash construct.")
      else
        match peekCharacter tk with
        | .error e => .error e
        | .ok c =>
          let tk := consumeCharacter tk c
          if isDecimalDigit (charCodePoint c) then go fuel (arg ++ c) tk
          else dispatch arg c tk
  dispatch (arg : List Nat) (c : List Nat) (tk : Tok) : Except Err (Bool × Tok) :=
    match c with
    | [0x28] => .ok (true, { tk with category := .hashOpenParenC })
    | [0x2B] => .ok (true, { tk with category := .hashPlusC })
    | [0x2D] => .ok (true, { tk with category := .hashMinusC })
    | [0x76] => .ok (true, { tk with category := .voidC, value := some .void })
    | [0x74] => .ok (true, { tk with category := .booleanC, value := some (.bool true) })
    | [0x66] => .ok (true, { tk with category := .booleanC, value := some (.bool false) })
    | [0x22] =>
      match readString tk with
      | .error e => .error e
      | .ok (s, tk) =>
        if tk.convertEVLToXML then
          .ok (true, { tk with category := .characterC, value := none })
        else if arg ≠ [] then
          let index := digitsVal arg
          if index < s.length then
            .ok (true, { tk with category := .characterC,
                                 value := some (.char (s.getD index 0)) })
          else .error (.tokenizerError "Index out of bounds.")
        else
          match s with
          | [] => .ok (false, tk)
          | u :: restUnits =>
            .ok (true, { tk with category := .characterC, value := some (.char u),
                                 savedCodeUnits := restUnits })
    | _ => .error (.tokenizerError "Undefined hash construct.")

/-- `readToken` (source lines 432-501).  The returned flag tells whether
a token category was assigned. -/
def readToken (pureXML : Bool) (tk : Tok) : Except Err (Bool × Tok) :=
  match peekCharacter tk with
  | .error e => .error e
  | .ok c =>
    match c with
    | [0x27] => .ok (true, { consumeCharacter tk c with category := .quoteC })
    | [0x60] => .ok (true, { consumeCharacter tk c with category := .quasiquoteC })
    | [0x2C] =>
      let tk := consumeCharacter tk c
      if tk.position = tk.text.length then
        .ok (true, { tk with category := .unquoteC })
      else
        match peekCharacter tk with
        | .error e => .error e
        | .ok c2 =>
          if c2 = [0x40] then
            .ok (true, { consumeCharacter tk c2 with category := .unquoteSplicingC })
          else .ok (true, { tk with category := .unquoteC })
    | [0x22] =>
      let tk := consumeCharacter tk c
      match readString tk with
      | .error e => .error e
      | .ok (s, tk) =>
        .ok (true, { tk with category := .stringC, value := some (.str s) })
    | [0x28] => .ok (true, { consumeCharacter tk c with category := .openParenC })
    | [0x29] => .ok (true, { consumeCharacter tk c with category := .closeParenC })
    | [0x23] =>
      let tk := consumeCharacter tk c
      readHashConstruct tk
    | _ =>
      match (if c = [0x3C] then readXMLMarkup tk true else .ok (false, tk)) with
      | .error e => .error e
      | .ok (true, tk) => .ok (true, tk)
      | .ok (false, tk) =>
        if c = [0x3C] && pureXML then
          .error (.tokenizerError "Malformed XML markup.")
        else
          match readProtoToken tk with
          | .error e => .error e
          | .ok (protoToken, tk) =>
            if protoToken = [0x2E] then
              .ok (true, { tk with category := .dotC })
            else if isNumberToken protoToken then
              .ok (true, { tk with category := .numberC,
                                   value := some (.num (parseNumberToken protoToken)) })
            else if isKeywordToken protoToken then
              .ok (true, { tk with category := .keywordC,
                                   value := some (.keyword (protoToken.drop 1)) })
            else if isVariableToken protoToken then
              .ok (true, { tk with category := .variableC,
                                   value := some (.varbl protoToken) })
            else .error (.tokenizerError "Malformed proto-token.")

/-- `nextToken` (source lines 397-417). -/
def nextToken (tk : Tok) : Except Err Tok :=
  let tk := { tk with whitespace := [], lexeme := [] }
  match tk.savedCodeUnits with
  | u :: rest =>
    .ok { tk with category := .characterC, value := some (.char u),
                  savedCodeUnits := rest }
  | [] =>
    go (tk.text.length + 2) tk
where
  go : Nat → Tok → Except Err Tok
    | 0, _ => .error (.cannotHappen "nextToken")
    | fuel + 1, tk =>
      let pureXML := !tk.xmlStack.isEmpty &&
        !(tk.xmlStack.headD [] = nm "chapter" || tk.xmlStack.headD [] = nm "section")
      match skipWhitespace pureXML tk with
      | .error e => .error e
      | .ok tk =>
        if tk.position = tk.text.length then .ok { tk with category := .eoiC }
        else
          match readToken pureXML tk with
          | .error e => .error e
          | .ok (true, tk) => .ok tk
          | .ok (false, tk) => go fuel tk

/-! ## Printer (the `toString` methods, source lines 4414-4919)

`numToString` renders integers of magnitude below 10^21 in decimal and
finite decimal fractions with the minimal number of fraction digits,
which agrees with the shortest-representation
`Number.prototype.toString` on those values.  At magnitude 10^21 and
above `Number.prototype.toString` switches to exponent notation (the
double 10^21 prints as the five characters of `1e+21`), and above 2^53
the double itself no longer holds the exact integer; both regimes are
outside the exact-rational embedding, so `numToString` yields the
opaque marker there, and every theorem drawing on the decimal rendering
carries an explicit magnitude bound. -/

/-- Decimal digits of a natural number. -/
def natDec (n : Nat) : List Nat :=
  go (n + 1) n
where
  go : Nat → Nat → List Nat
    | 0, _ => []
    | fuel + 1, n =>
      if n < 10 then [0x30 + n]
      else go fuel (n / 10) ++ [0x30 + n % 10]

/-- Decimal digits of an integer, with the sign. -/
def intDec : Int → List Nat
  | .ofNat n => natDec n
  | .negSucc m => 0x2D :: natDec (m + 1)

/-- The least `k ≤ fuel` with `den ∣ 10 ^ k`, if any. -/
def decPow (den : Nat) : Nat := go 31 0
where
  go : Nat → Nat → Nat
    | 0, _ => 0
    | fuel + 1, k => if 10 ^ k % den = 0 then k else go fuel (k + 1)

/-- `EVLNumber.toString`, on the decimal regime of
`Number.prototype.toString` (magnitude below 10^21); the exponent
notation the source prints at 10^21 and above is not modelled, marked
opaque. -/
def numToString (x : Rat) : List Nat :=
  if x.den = 1 then
    if x.num.natAbs < 10 ^ 21 then intDec x.num else nm "#<number>"
  else
    let k := decPow x.den
    if 10 ^ k % x.den = 0 then
      let scaled := x.num.natAbs * (10 ^ k / x.den)
      let ip := scaled / 10 ^ k
      let fp := scaled % 10 ^ k
      let fpDigits := natDec fp
      (if x.num < 0 then [0x2D] else []) ++ natDec ip ++ [0x2E] ++
        (List.replicate (k - fpDigits.length) 0x30 ++ fpDigits)
    else nm "#<number>"

mutual

/-- `toString()`: `#v`, `#t`/`#f`, numbers, `#"c"` characters, quoted
strings, `:keyword`s, variables, the parenthesized list walk with the
dotted tail, `#(...)` vectors, and the opaque function markers. -/
def printV : Nat → Value → List Nat
  | 0, _ => []
  | fuel + 1, v =>
    match v with
    | .void => nm "#v"
    | .bool true => nm "#t"
    | .bool false => nm "#f"
    | .num x => numToString x
    | .char u => [0x23, 0x22] ++ escapeCharacters [u] escapeStringCharacter ++ [0x22]
    | .str s => [0x22] ++ escapeCharacters s escapeStringCharacter ++ [0x22]
    | .keyword name => [0x3A] ++ escapeCharacters name escapeProtoTokenCharacter
    | .varbl name => escapeCharacters name escapeProtoTokenCharacter
    | .nil => [0x28, 0x29]
    | .cons _ car cdr => [0x28] ++ printV fuel car ++ printSpine fuel cdr ++ [0x29]
    | .vector _ elems => [0x23, 0x28] ++ printElems fuel true elems ++ [0x29]
    | .primfun _ _ _ => nm "#<primitive-function>"
    | .closure _ _ _ _ _ _ _ _ => nm "#<closure>"
    | .ppform _ => nm "#<preprocessed-form>"

/-- The `while (list !== EVLEmptyList.NIL)` walk of `EVLList.toString`. -/
def printSpine : Nat → Value → List Nat
  | 0, _ => []
  | fuel + 1, v =>
    match v with
    | .nil => []
    | .cons _ car cdr => [0x20] ++ printV fuel car ++ printSpine fuel cdr
    | tail => [0x20, 0x2E, 0x20] ++ printV fuel tail

/-- The element walk of `EVLVector.toString`. -/
def printElems : Nat → Bool → List Value → List Nat
  | 0, _, _ => []
  | _ + 1, _, [] => []
  | fuel + 1, first, v :: rest =>
    (if first then [] else [0x20]) ++ printV fuel v ++ printElems fuel false rest

end

/-! ## Reader (source lines 854-1221)

The reader threads the tokenizer and the evaluator state (fresh conses
get allocation identifiers from the state counter; the feature list
lives in the global value namespace).  The callback hook with which
`initialize` and `evaluateAllForms` evaluate forms embedded in XML
elements during the read is not embedded: none of the claims exercise
forms inside XML elements, and without a callback `readXMLElement`
skips the element exactly as the source does for `evaluateFirstForm`
(whose tokenizer has no callback). -/

/-- What `readObject` returns: one of the three marker categories, the
end of input, or an object. -/
inductive RObj
  | dotR
  | closeParenR
  | xmlEndR
  | eoiR
  | objR (v : Value)

/-- The outcome of a reader step: fuel exhaustion, a thrown exception, or
a value with the updated tokenizer and state. -/
inductive RRes (α : Type)
  | timeout
  | err (e : Err) (tk : Tok) (st : St)
  | ok (a : α) (tk : Tok) (st : St)

/-- The identity test on interned symbols (`===` in the feature-list
walk and the feature-operator dispatch): interning makes two occurrences
of the same name the same object. -/
def symEq : Value → Value → Bool
  | .varbl a, .varbl b => a == b
  | .keyword a, .keyword b => a == b
  | _, _ => false

mutual

/-- `evaluateFeatureExpression` (source lines 1023-1040). -/
def evaluateFeatureExpression (st : St) : Value → Except Err Bool
  | .varbl name => evaluateSymbolFE st (.varbl name)
  | .keyword name => evaluateSymbolFE st (.keyword name)
  | .cons _ car cdr =>
    if symEq car (.varbl (nm "not")) then
      match cdr with
      | .cons _ opnd .nil => do
        let b ← evaluateFeatureExpression st opnd
        .ok !b
      | _ => .error (.readerError "Malformed feature expression.")
    else if symEq car (.varbl (nm "and")) then evaluateAndFE st cdr
    else if symEq car (.varbl (nm "or")) then evaluateOrFE st cdr
    else .error (.readerError "Malformed feature expression.")
  | _ => .error (.readerError "Malformed feature expression.")

/-- `evaluateSymbolFeatureExpression` (source lines 1057-1071). -/
def evaluateSymbolFE (st : St) (fe : Value) : Except Err Bool :=
  match globalRef st .val (nm "*features*") with
  | .error e => .error e
  | .ok list => walkFeatures st fe list

def walkFeatures (st : St) (fe : Value) : Value → Except Err Bool
  | .nil => .ok false
  | .cons _ car cdr =>
    if symEq car fe then .ok true else walkFeatures st fe cdr
  | _ => .error (.readerError "Malformed feature list.")

/-- `evaluateAndFeatureExpression`. -/
def evaluateAndFE (st : St) : Value → Except Err Bool
  | .nil => .ok true
  | .cons _ car cdr => do
    let b ← evaluateFeatureExpression st car
    if b then evaluateAndFE st cdr else .ok false
  | _ => .error (.readerError "Malformed feature expression.")

/-- `evaluateOrFeatureExpression`. -/
def evaluateOrFE (st : St) : Value → Except Err Bool
  | .nil => .ok false
  | .cons _ car cdr => do
    let b ← evaluateFeatureExpression st car
    if b then .ok true else evaluateOrFE st cdr
  | _ => .error (.readerError "Malformed feature expression.")

end

mutual

/-- `readObject` (source lines 902-963). -/
def readObject (n : Nat) (tk : Tok) (st : St) : RRes RObj :=
  match n with
  | 0 => .timeout
  | n + 1 =>
    match nextToken tk with
    | .error e => .err e tk st
    | .ok tk =>
      match tk.category with
      | .voidC | .booleanC | .numberC | .characterC | .stringC | .keywordC
      | .variableC =>
        match tk.value with
        | some v => .ok (.objR v) tk st
        | none => .err (.cannotHappen "readObject value") tk st
      | .quoteC => readAbbreviation n (nm "quote") tk st
      | .quasiquoteC => readAbbreviation n (nm "quasiquote") tk st
      | .unquoteC => readAbbreviation n (nm "unquote") tk st
      | .unquoteSplicingC => readAbbreviation n (nm "unquote-splicing") tk st
      | .hashPlusC =>
        match readReadTimeConditional n true tk st with
        | .timeout => .timeout
        | .err e tk st => .err e tk st
        | .ok (some v) tk st => .ok (.objR v) tk st
        | .ok none tk st => readObject n tk st
      | .hashMinusC =>
        match readReadTimeConditional n false tk st with
        | .timeout => .timeout
        | .err e tk st => .err e tk st
        | .ok (some v) tk st => .ok (.objR v) tk st
        | .ok none tk st => readObject n tk st
      | .openParenC => readList n [] tk st
      | .hashOpenParenC => readVector n [] tk st
      | .dotC => .ok .dotR tk st
      | .closeParenC => .ok .closeParenR tk st
      | .xmlStartTagC =>
        match readXMLElement n tk.xmlName tk st with
        | .timeout => .timeout
        | .err e tk st => .err e tk st
        | .ok () tk st => readObject n tk st
      | .xmlEndTagC => .ok .xmlEndR tk st
      | .xmlEmptyElementTagC => readObject n tk st
      | .xmlCommentC => readObject n tk st
      | .eoiC => .ok .eoiR tk st
      | .boiC => .err (.cannotHappen "readObject") tk st

/-- `readAbbreviation` (source lines 965-979): `new EVLCons(variable,
new EVLCons(object, NIL))`, the inner cons allocated first. -/
def readAbbreviation (n : Nat) (vname : List Nat) (tk : Tok) (st : St) : RRes RObj :=
  match n with
  | 0 => .timeout
  | n + 1 =>
    match readObject n tk st with
    | .timeout => .timeout
    | .err e tk st => .err e tk st
    | .ok .dotR tk st => .err .unexpectedDot tk st
    | .ok .closeParenR tk st => .err .unexpectedClosingParenthesis tk st
    | .ok .xmlEndR tk st => .err .unexpectedXMLEndTag tk st
    | .ok .eoiR tk st => .err .unexpectedEndOfInput tk st
    | .ok (.objR v) tk st =>
      .ok (.objR (.cons (st.counter + 1) (.varbl vname) (.cons st.counter v .nil)))
        tk { st with counter := st.counter + 2 }

/-- `readReadTimeConditional` (source lines 981-989): both the feature
expression and the conditionalized object are read unconditionally; the
object is kept iff the feature expression evaluates to the polarity. -/
def readReadTimeConditional (n : Nat) (polarity : Bool) (tk : Tok) (st : St) :
    RRes (Option Value) :=
  match n with
  | 0 => .timeout
  | n + 1 =>
    match readFeatureExpression n tk st with
    | .timeout => .timeout
    | .err e tk st => .err e tk st
    | .ok fe tk st =>
      match readConditionalizedObject n tk st with
      | .timeout => .timeout
      | .err e tk st => .err e tk st
      | .ok v tk st =>
        match evaluateFeatureExpression st fe with
        | .error e => .err e tk st
        | .ok b => .ok (if b = polarity then some v else none) tk st

/-- `readFeatureExpression` (source lines 991-1005). -/
def readFeatureExpression (n : Nat) (tk : Tok) (st : St) : RRes Value :=
  match n with
  | 0 => .timeout
  | n + 1 =>
    match readObject n tk st with
    | .timeout => .timeout
    | .err e tk st => .err e tk st
    | .ok .dotR tk st => .err .unexpectedDot tk st
    | .ok .closeParenR tk st => .err .unexpectedClosingParenthesis tk st
    | .ok .xmlEndR tk st => .err .unexpectedXMLEndTag tk st
    | .ok .eoiR tk st => .err .unexpectedEndOfInput tk st
    | .ok (.objR v) tk st => .ok v tk st

/-- `readConditionalizedObject` (source lines 1007-1021). -/
def readConditionalizedObject (n : Nat) (tk : Tok) (st : St) : RRes Value :=
  match n with
  | 0 => .timeout
  | n + 1 =>
    match readObject n tk st with
    | .timeout => .timeout
    | .err e tk st => .err e tk st
    | .ok .dotR tk st => .err .unexpectedDot tk st
    | .ok .closeParenR tk st => .err .unexpectedClosingParenthesis tk st
    | .ok .xmlEndR tk st => .err .unexpectedXMLEndTag tk st
    | .ok .eoiR tk st => .err .unexpectedEndOfInput tk st
    | .ok (.objR v) tk st => .ok v tk st

/-- `readList` (source lines 1113-1139); the spine conses are allocated
one per element in reading order and linked through `lastCons.cdr`. -/
def readList (n : Nat) (acc : List (Nat × Value)) (tk : Tok) (st : St) : RRes RObj :=
  match n with
  | 0 => .timeout
  | n + 1 =>
    match readObject n tk st with
    | .timeout => .timeout
    | .err e tk st => .err e tk st
    | .ok .dotR tk st => readDottedList n acc tk st
    | .ok .closeParenR tk st =>
      .ok (.objR (acc.foldr (fun p t => .cons p.1 p.2 t) .nil)) tk st
    | .ok .xmlEndR tk st => .err .unexpectedXMLEndTag tk st
    | .ok .eoiR tk st => .err .unexpectedEndOfInput tk st
    | .ok (.objR v) tk st =>
      readList n (acc ++ [(st.counter, v)]) tk { st with counter := st.counter + 1 }

/-- `readDottedList` (source lines 1141-1172). -/
def readDottedList (n : Nat) (acc : List (Nat × Value)) (tk : Tok) (st : St) :
    RRes RObj :=
  match n with
  | 0 => .timeout
  | n + 1 =>
    if acc.isEmpty then .err (.readerError "Malformed dotted list.") tk st
    else
      match readObject n tk st with
      | .timeout => .timeout
      | .err e tk st => .err e tk st
      | .ok .dotR tk st => .err (.readerError "Malformed dotted list.") tk st
      | .ok .closeParenR tk st => .err (.readerError "Malformed dotted list.") tk st
      | .ok .xmlEndR tk st => .err .unexpectedXMLEndTag tk st
      | .ok .eoiR tk st => .err .unexpectedEndOfInput tk st
      | .ok (.objR tail) tk st =>
        match readObject n tk st with
        | .timeout => .timeout
        | .err e tk st => .err e tk st
        | .ok .closeParenR tk st =>
          .ok (.objR (acc.foldr (fun p t => .cons p.1 p.2 t) tail)) tk st
        | .ok .xmlEndR tk st => .err .unexpectedXMLEndTag tk st
        | .ok .eoiR tk st => .err .unexpectedEndOfInput tk st
        | .ok _ tk st => .err (.readerError "Malformed dotted list.") tk st

/-- `readVector` (source lines 1174-1193). -/
def readVector (n : Nat) (acc : List Value) (tk : Tok) (st : St) : RRes RObj :=
  match n with
  | 0 => .timeout
  | n + 1 =>
    match readObject n tk st with
    | .timeout => .timeout
    | .err e tk st => .err e tk st
    | .ok .dotR tk st => .err .unexpectedDot tk st
    | .ok .closeParenR tk st =>
      .ok (.objR (.vector st.counter acc)) tk { st with counter := st.counter + 1 }
    | .ok .xmlEndR tk st => .err .unexpectedXMLEndTag tk st
    | .ok .eoiR tk st => .err .unexpectedEndOfInput tk st
    | .ok (.objR v) tk st => readVector n (acc ++ [v]) tk st

/-- `readXMLElement` (source lines 1195-1221), without the callback. -/
def readXMLElement (n : Nat) (startName : List Nat) (tk : Tok) (st : St) :
    RRes Unit :=
  match n with
  | 0 => .timeout
  | n + 1 =>
    match readObject n tk st with
    | .timeout => .timeout
    | .err e tk st => .err e tk st
    | .ok .dotR tk st => .err .unexpectedDot tk st
    | .ok .closeParenR tk st => .err .unexpectedClosingParenthesis tk st
    | .ok .xmlEndR tk st =>
      if tk.xmlName = startName then .ok () tk st
      else .err (.readerError "Unmatched XML tags.") tk st
    | .ok .eoiR tk st => .err .unexpectedEndOfInput tk st
    | .ok (.objR _) tk st => readXMLElement n startName tk st

end

/-- `read` (source lines 886-900): `none` at end of input. -/
def readTop (n : Nat) (tk : Tok) (st : St) : RRes (Option Value) :=
  match readObject n tk st with
  | .timeout => .timeout
  | .err e tk st => .err e tk st
  | .ok .dotR tk st => .err .unexpectedDot tk st
  | .ok .closeParenR tk st => .err .unexpectedClosingParenthesis tk st
  | .ok .xmlEndR tk st => .err .unexpectedXMLEndTag tk st
  | .ok .eoiR tk st => .ok none tk st
  | .ok (.objR v) tk st => .ok (some v) tk st

/-! ## EVL to XML converter (source lines 1227-1437) -/

/-- The converter context. -/
inductive Ctx
  | xmlCtx
  | evlCtx
deriving DecidableEq, Repr

/-- What `sketchyRead` returns. -/
inductive CTok
  | xmlTok
  | evlTok
  | eolComment
  | eoiTok
deriving DecidableEq, Repr

/-- The previous-token tracking of `doConvertEVLToXML` starts at the
`BOI` marker, which is neither an XML nor an EVL token. -/
inductive PTok
  | boiP
  | xmlP
  | evlP
  | eolP
deriving DecidableEq, Repr

def ptokOf : CTok → PTok
  | .xmlTok => .xmlP
  | .evlTok => .evlP
  | .eolComment => .eolP
  | .eoiTok => .boiP

/-- `isXMLToken`. -/
def isXMLTokenP : PTok → Bool
  | .xmlP => true
  | _ => false

/-- `isEVLToken`. -/
def isEVLTokenP : PTok → Bool
  | .evlP => true
  | .eolP => true
  | _ => false

/-- `xmlEscape` (source lines 1260-1271). -/
def xmlEscape (s : List Nat) : List Nat :=
  s.flatMap fun u =>
    if u = 0x3C then nm "&lt;"
    else if u = 0x3E then nm "&gt;"
    else if u = 0x26 then nm "&amp;"
    else [u]

/-- `countNewlines`. -/
def countNewlines (s : List Nat) : Nat := s.countP (· = 0xA)

/-- `countSpacesAfterFirstNewline` (source lines 1420-1437). -/
def countSpacesAfterFirstNewline (s : List Nat) : Nat :=
  ((s.dropWhile (· ≠ 0xA)).drop 1).takeWhile (· = 0x20) |>.length

/-- `convertXMLWhitespace` (source lines 1372-1392). -/
def convertXMLWhitespace (prev : PTok) (ws : List Nat) (tok : PTok) : List Nat :=
  if isXMLTokenP prev && isEVLTokenP tok then
    ws ++ nm "<toplevelcode><blockcode>"
  else if isEVLTokenP prev && isEVLTokenP tok then
    if countNewlines ws ≥ 2 then
      nm "</blockcode></toplevelcode>" ++ ws ++ nm "<toplevelcode><blockcode>"
    else ws
  else if isEVLTokenP prev && isXMLTokenP tok then
    nm "</blockcode></toplevelcode>" ++ ws
  else ws

/-- `convertEVLWhitespace` (source lines 1404-1418). -/
def convertEVLWhitespace (prev : PTok) (ws : List Nat) (tok : PTok) : List Nat :=
  if isEVLTokenP prev && isXMLTokenP tok then
    nm "</blockcode><indentation style=" ++ [0x22] ++ nm "margin-left: " ++
      natDec (countSpacesAfterFirstNewline ws) ++ nm "ch;" ++ [0x22] ++
      nm "><blockcomment>" ++ ws
  else if isXMLTokenP prev && isEVLTokenP tok then
    nm "</blockcomment></indentation><blockcode>" ++ ws
  else ws

/-- `readEndOfLineComment` (source lines 1328-1362): consume the XML
tokens of the `<comment>` element, collecting their text into the
lexeme; the whitespace run before the element is restored. -/
def readEndOfLineComment (n : Nat) (savedWs : List Nat) (lex : List Nat)
    (depth : Nat) (tk : Tok) : Except Err Tok :=
  match n with
  | 0 => .error (.cannotHappen "readEndOfLineComment fuel")
  | n + 1 =>
    match nextToken tk with
    | .error e => .error e
    | .ok tk =>
      match tk.category with
      | .xmlStartTagC =>
        readEndOfLineComment n savedWs (lex ++ tk.whitespace ++ tk.lexeme)
          (depth + 1) tk
      | .xmlEndTagC =>
        let lex := lex ++ tk.whitespace ++ tk.lexeme
        if depth = 0 then .ok { tk with whitespace := savedWs, lexeme := lex }
        else readEndOfLineComment n savedWs lex (depth - 1) tk
      | .xmlEmptyElementTagC | .xmlCommentC =>
        readEndOfLineComment n savedWs (lex ++ tk.whitespace ++ tk.lexeme) depth tk
      | .eoiC => .error (.evlToXMLConverterError "Unexpected end-of-input.")
      | _ => .error (.cannotHappen "readEndOfLineComment")

/-- `sketchyRead` (source lines 1273-1326). -/
def sketchyRead (n : Nat) (tk : Tok) (ctxStack : List Ctx) :
    Except Err (CTok × Tok × List Ctx) :=
  match nextToken tk with
  | .error e => .error e
  | .ok tk =>
    match tk.category with
    | .voidC | .booleanC | .numberC | .characterC | .stringC | .keywordC
    | .variableC | .quoteC | .quasiquoteC | .unquoteC | .unquoteSplicingC
    | .hashPlusC | .hashMinusC | .dotC => .ok (.evlTok, tk, ctxStack)
    | .openParenC | .hashOpenParenC => .ok (.evlTok, tk, .evlCtx :: ctxStack)
    | .closeParenC =>
      match ctxStack with
      | .evlCtx :: rest => .ok (.evlTok, tk, rest)
      | _ => .error (.evlToXMLConverterError "Unexpected closing parenthesis.")
    | .xmlStartTagC =>
      if tk.xmlName = nm "comment" then
        match readEndOfLineComment n tk.whitespace tk.lexeme 0 tk with
        | .error e => .error e
        | .ok tk => .ok (.eolComment, tk, ctxStack)
      else .ok (.xmlTok, tk, .xmlCtx :: ctxStack)
    | .xmlEndTagC =>
      match ctxStack with
      | .xmlCtx :: rest => .ok (.xmlTok, tk, rest)
      | _ => .error (.evlToXMLConverterError "Unexpected XML end tag.")
    | .xmlEmptyElementTagC | .xmlCommentC => .ok (.xmlTok, tk, ctxStack)
    | .eoiC =>
      if !ctxStack.isEmpty then
        .error (.evlToXMLConverterError "Unexpected end-of-input.")
      else .ok (.eoiTok, tk, ctxStack)
    | .boiC => .error (.cannotHappen "sketchyRead")

/-- `doConvertEVLToXML` (source lines 1234-1258), as written: the
`else if (context = EVL_CONTEXT)` arm ASSIGNS the context, so its test
is always truthy and the top-level-context arm (whitespace emitted
verbatim) is unreachable — every non-XML context takes the EVL arm. -/
def doConvertEVLToXML (n : Nat) (tk : Tok) : Except Err (List Nat) :=
  go n [] .boiP (([] : List Ctx).head?) tk []
where
  go (n : Nat) (xml : List Nat) (prev : PTok) (context : Option Ctx) (tk : Tok)
      (ctxStack : List Ctx) : Except Err (List Nat) :=
    match n with
    | 0 => .error (.cannotHappen "doConvertEVLToXML fuel")
    | n + 1 =>
      match sketchyRead n tk ctxStack with
      | .error e => .error e
      | .ok (.eoiTok, tk, _) => .ok (xml ++ tk.whitespace)
      | .ok (token, tk, ctxStack) =>
        let ptok := ptokOf token
        let xml := xml ++
          (if context = some .xmlCtx then convertXMLWhitespace prev tk.whitespace ptok
           else convertEVLWhitespace prev tk.whitespace ptok)
        let xml := xml ++
          (if token = .evlTok then xmlEscape tk.lexeme else tk.lexeme)
        go n xml ptok ctxStack.head? tk ctxStack

/-- The corrected converter the specification mandates (`context ===
EVL_CONTEXT` compared, not assigned): in top-level context the
whitespace run goes to the output verbatim. -/
def doConvertEVLToXMLSpec (n : Nat) (tk : Tok) : Except Err (List Nat) :=
  go n [] .boiP (([] : List Ctx).head?) tk []
where
  go (n : Nat) (xml : List Nat) (prev : PTok) (context : Option Ctx) (tk : Tok)
      (ctxStack : List Ctx) : Except Err (List Nat) :=
    match n with
    | 0 => .error (.cannotHappen "doConvertEVLToXMLSpec fuel")
    | n + 1 =>
      match sketchyRead n tk ctxStack with
      | .error e => .error e
      | .ok (.eoiTok, tk, _) => .ok (xml ++ tk.whitespace)
      | .ok (token, tk, ctxStack) =>
        let ptok := ptokOf token
        let xml := xml ++
          (if context = some .xmlCtx then convertXMLWhitespace prev tk.whitespace ptok
           else if context = some .evlCtx then convertEVLWhitespace prev tk.whitespace ptok
           else tk.whitespace)
        let xml := xml ++
          (if token = .evlTok then xmlEscape tk.lexeme else tk.lexeme)
        go n xml ptok ctxStack.head? tk ctxStack

/-! ## Interface (source lines 17-166)

The worker globals `abortSignalArray` and `selectedEvaluator` form the
`Host` record; the abort byte is `none` while no buffer is installed.
The evaluators read the byte through the sampling function
`hostSig` (the source reads `abortSignalArray[0]` directly). -/

/-- The evaluator selector. -/
inductive EvName
  | plainrecE
  | cpsE
  | oocpsE
  | sboocpsE
  | trampolineE
  | trampolineppE
deriving DecidableEq, Repr

def evNameStr : EvName → String
  | .plainrecE => "plainrec"
  | .cpsE => "cps"
  | .oocpsE => "oocps"
  | .sboocpsE => "sboocps"
  | .trampolineE => "trampoline"
  | .trampolineppE => "trampolinepp"

/-- The worker-global interface state. -/
structure Host where
  abortByte : Option Nat
  selectedEvaluator : Option EvName
deriving DecidableEq, Repr

/-- The abort sampling visible to the trampoline evaluators under a given
host state. -/
def hostSig (h : Host) : AbortSig :=
  match h.abortByte with
  | none => none
  | some b => some (fun _ => b = 1)

/-- `genericEval` (source lines 1973-1990). -/
def genericEval (ev : EvName) (n : Nat) (sig : AbortSig) (form : Value) (st : St) :
    Res ResultV :=
  match ev with
  | .plainrecE => plainrecEval n form st
  | .cpsE => cpsEval n form st
  | .oocpsE => oocpsEval n form st
  | .sboocpsE => sboocpsEval n form st
  | .trampolineE => trampolineEval n sig form st
  | .trampolineppE => trampolineppEval n sig form st

/-- The response statuses `FOUND_NO_FORM`, `SUCCESS` (with the printed
values, or the converted text), `ERROR`, `ABORTED`. -/
inductive Response
  | foundNoForm
  | success (output : List (List Nat))
  | successText (output : List Nat)
  | error (message : List Nat)
  | aborted
deriving DecidableEq

/-- The `message` property of each thrown error (the JS `Error`
constructor argument). -/
def errMessage : Err → List Nat
  | .cannotHappen site => nm site
  | .aborted => []
  | .tokenizerError msg => nm msg
  | .truncatedToken msg => nm msg
  | .readerError msg => nm msg
  | .unexpectedDot => nm "Unexpected dot."
  | .unexpectedClosingParenthesis => nm "Unexpected closing parenthesis."
  | .unexpectedXMLEndTag => nm "Unexpected XML end tag."
  | .unexpectedEndOfInput => nm "Unexpected end-of-input."
  | .evlToXMLConverterError msg => nm msg
  | .formAnalyzerError formName => nm "Malformed " ++ nm formName ++ nm " form."
  | .evaluatorError msg => nm msg
  | .unboundVariable name ns =>
    nm "The variable " ++ [0x27] ++ name ++ [0x27] ++ nm " is unbound in the " ++
      (match ns with | .val => nm "value" | .fn => nm "function") ++ nm " namespace."
  | .tooFewArguments => nm "Too few arguments."
  | .tooManyArguments => nm "Too many arguments."
  | .malformedSpreadableSequenceOfObjects =>
    nm "Malformed spreadable sequence of objects."
  | .jsError msg => msg
  | .jsTypeError site => nm site
  | .jsRangeError site => nm site

/-- `abortedOrError` (source lines 62-68). -/
def abortedOrError (e : Err) : Response :=
  if e = .aborted then .aborted else .error (errMessage e)

/-- The timeout marker of the fueled embedding (no counterpart in the
source, which runs unboundedly). -/
def timeoutResponse : Response := .error (nm "#<fuel exhausted>")

/-- `evaluateFirstForm` (source lines 100-127). -/
def evaluateFirstForm (ev : EvName) (n : Nat) (h : Host) (text : List Nat)
    (st : St) : Response × Host × St :=
  let h := { h with abortByte := h.abortByte.map fun _ => 0 }
  match readTop n (mkTok text false) st with
  | .timeout => (timeoutResponse, h, st)
  | .err e _ st =>
    if e.isTruncatedToken || e.isUnexpectedEndOfInput then (.foundNoForm, h, st)
    else (abortedOrError e, h, st)
  | .ok none _ st => (.foundNoForm, h, st)
  | .ok (some obj) _ st =>
    match genericEval ev n (hostSig h) obj st with
    | .timeout => (timeoutResponse, h, st)
    | .err e st => (abortedOrError e, h, st)
    | .ok r st => (.success (r.allValues.map (printV n)), h, st)

/-- The read-eval loop shared by `evaluateAllForms` and `initialize`
(without the XML callback; see `readObject`). -/
def evalFormsLoop (ev : EvName) (n : Nat) (sig : AbortSig) : Nat → Tok → St →
    ResultV → Res ResultV
  | 0, _, st, _ => .err (.cannotHappen "evalFormsLoop fuel") st
  | fuel + 1, tk, st, last =>
    match readTop n tk st with
    | .timeout => .timeout
    | .err e _ st => .err e st
    | .ok none _ st => .ok last st
    | .ok (some obj) tk st =>
      match genericEval ev n sig obj st with
      | .timeout => .timeout
      | .err e st => .err e st
      | .ok r st => evalFormsLoop ev n sig fuel tk st r

/-- `evaluateAllForms` (source lines 129-155). -/
def evaluateAllForms (ev : EvName) (n : Nat) (h : Host) (text : List Nat)
    (st : St) : Response × Host × St :=
  let h := { h with abortByte := h.abortByte.map fun _ => 0 }
  match evalFormsLoop ev n (hostSig h) (n + 1) (mkTok text false) st (.obj .void) with
  | .timeout => (timeoutResponse, h, st)
  | .err e st => (abortedOrError e, h, st)
  | .ok r st => (.success (r.allValues.map (printV n)), h, st)

/-- `initializeFeatureList` (source lines 1042-1055). -/
def initializeFeatureList (features : List (List Nat)) (st : St) : St :=
  let r := consChain st.counter (features.map Value.varbl) .nil
  let st := { st with counter := st.counter + features.length }
  (globalSet st .val (nm "*features*") r.1).2

/-- The `INITIALIZE` input payload: the abort buffer (its current byte),
the selected evaluator and the prelude files. -/
structure InitInput where
  abortByte : Nat
  selectedEvaluator : EvName
  evlFiles : List (List Nat)

/-- `initialize` (source lines 70-98): installs the abort buffer WITHOUT
writing to it, selects the evaluator, initializes the feature list and
evaluates the prelude files. -/
def initializeEntry (n : Nat) (input : InitInput) (_h : Host) (st : St) :
    Response × Host × St :=
  let h : Host := { abortByte := some input.abortByte,
                    selectedEvaluator := some input.selectedEvaluator }
  let st := initializeFeatureList [nm (evNameStr input.selectedEvaluator)] st
  go input.evlFiles h st (.obj .void)
where
  go (files : List (List Nat)) (h : Host) (st : St) (last : ResultV) :
      Response × Host × St :=
    match files with
    | [] => (.success (last.allValues.map (printV n)), h, st)
    | file :: rest =>
      match h.selectedEvaluator with
      | none => (abortedOrError (.cannotHappen "genericEval"), h, st)
      | some ev =>
        match evalFormsLoop ev n (hostSig h) (n + 1) (mkTok file false) st last with
        | .timeout => (timeoutResponse, h, st)
        | .err e st => (abortedOrError e, h, st)
        | .ok r st => go rest h st r

/-- `convertEVLToXML` (source lines 157-166): does not touch the host
state at all. -/
def convertEVLToXML (n : Nat) (h : Host) (text : List Nat) : Response × Host :=
  match doConvertEVLToXML n (mkTok text true) with
  | .error e => (abortedOrError e, h)
  | .ok xml => (.successText xml, h)

/-! ## A shared corpus of closed forms

The equivalence claim of the specification is checked on a corpus of
forms exercising quotation, arithmetic, closures (lexical and dynamic),
`if`, `progn`, `apply`, error signalling and `_catch-errors`, evaluated
under all six evaluators from the freshly initialized global state. -/

/-- `(quote v)`. -/
def qForm (v : Value) : Value := .cons 0 (.varbl (nm "quote")) (.cons 0 v .nil)

/-- `(opName a1 ... ak)`. -/
def callForm (opName : String) (as : List Value) : Value :=
  .cons 0 (.varbl (nm opName)) (chain0 as .nil)

/-- `(_for-each (fref values) (quote ()))`: a form the cps-family
evaluators complete (with value Void) and the other three reject as not
implemented. -/
def forEachForm : Value :=
  callForm "_for-each" [callForm "fref" [.varbl (nm "values")], qForm .nil]

/-- `(_catch-errors (_for-each (fref values) (quote ())))`. -/
def ceForm : Value := callForm "_catch-errors" [forEachForm]

/-- The corpus. -/
def corpus : List Value :=
  [ qForm (.num 5),
    callForm "<" [qForm (.num 1), qForm (.num 2)],
    .cons 0 (callForm "_vlambda" [.cons 0 (.varbl (nm "x")) .nil,
      callForm "vref" [.varbl (nm "x")]]) (.cons 0 (qForm (.num 7)) .nil),
    callForm "if" [qForm (.bool true), qForm (.num 1), qForm (.num 2)],
    callForm "_catch-errors" [callForm "vref" [.varbl (nm "y")]],
    callForm "apply" [callForm "fref" [.varbl (nm "cons")],
      qForm (.cons 0 (.num 1) (.cons 0 (.num 2) .nil))],
    callForm "progn" [qForm (.num 1), qForm (.num 2)],
    .cons 0 (callForm "_dlambda" [.cons 0 (.varbl (nm "d")) .nil,
      callForm "dref" [.varbl (nm "d")]]) (.cons 0 (qForm (.num 3)) .nil),
    callForm "_catch-errors" [callForm "error" [qForm (.str (nm "boom"))]] ]

/-- The observations the corpus is expected to produce (identical under
all six evaluators). -/
def corpusExpected : List (Option (String ⊕ Value)) :=
  [ some (.inr (.num 5)), some (.inr (.bool true)), some (.inr (.num 7)),
    some (.inr (.num 1)), some (.inr (.str (nm "UnboundVariable"))),
    some (.inr (.cons 0 (.num 1) (.num 2))), some (.inr (.num 2)),
    some (.inr (.num 3)), some (.inr (.str (nm "Error"))) ]

/-! ## A concrete macro-let instance

`isMacroLet` recognizes an operand by the head variable spelled `mlambda`,
so a recognizable instance needs a compile-time function binding under
that name whose expansion is a lambda form; the macro closure below
carries an already-preprocessed body, as every closure produced by the
trampoline++ evaluator does. -/

/-- A macro closure (no parameters) whose body expands to
`(_vlambda (z) (quote 1))`. -/
def mlMacroClosure : Value :=
  .closure 0 .lex .val true [] false
    (.cons 0 (.ppform (.quote (callForm "_vlambda" [.cons 0 (.varbl (nm "z")) .nil,
      qForm (.num 1)]))) .nil)
    .nullEnv

/-- The initialized state with `mlambda` bound to the macro closure in the
function namespace. -/
def mlState : St := { initialState with gf := (nm "mlambda", mlMacroClosure) :: initialGf }

/-- The operand `(mlambda)`. -/
def mlOperand : Value := .cons 0 (.varbl (nm "mlambda")) .nil

/-- The tail of the `_flambda` operator: parameter list `(m)` and body
`(quote 2)`. -/
def mlFlamTail : Value :=
  .cons 0 (.cons 0 (.varbl (nm "m")) .nil) (.cons 0 (qForm (.num 2)) .nil)

/-- The operator `(_flambda (m) (quote 2))`. -/
def mlFlam : Value := .cons 0 (.varbl (nm "_flambda")) mlFlamTail

/-- The macro-let call `((_flambda (m) (quote 2)) (mlambda))`. -/
def mlForm : Value := .cons 0 mlFlam (.cons 0 mlOperand .nil)

/-- The payload of a successful outcome. -/
def resVal {α : Type} (d : α) : Res α → α
  | .ok a _ => a
  | _ => d

/-- The state of an outcome. -/
def resSt {α : Type} (d : St) : Res α → St
  | .ok _ s => s
  | .err _ s => s
  | .timeout => d

/-- The payload of a successful `Except` step. -/
def excVal {α : Type} (d : α) : Except Err α → α
  | .ok a => a
  | .error _ => d

/-- The stages of preprocessing `mlForm`: preprocessed operands, their
macro-let evaluation, the compile-time frame, the preprocessed body. -/
def mlStage1 : Res Value := ppPreprocessForms 99 none (.cons 0 mlOperand .nil) .nullEnv mlState

def mlPops : Value := resVal .nil mlStage1

def mlSt2 : St := resSt mlState mlStage1

def mlParams : List (List Nat) := (excVal ([], false, .nil) (analyzeLambda mlFlam)).1

def mlRest : Bool := (excVal ([], false, .nil) (analyzeLambda mlFlam)).2.1

def mlBody : Value := (excVal ([], false, .nil) (analyzeLambda mlFlam)).2.2

def mlPopsArr : List Value := excVal [] (listToArray mlPops)

def mlStage2 : Res (List Value) := ppMacroLetValues 99 mlPopsArr mlSt2

def mlValues : List Value := resVal [] mlStage2

def mlSt3 : St := resSt mlState mlStage2

def mlFrame : FrameData :=
  { ns := .fn, vars := mlParams, vals := mlValues.map some, next := .nullEnv }

def mlElenv : EnvPtr := (allocFrame mlSt3 mlFrame).1

def mlSt4 : St := (allocFrame mlSt3 mlFrame).2

def mlStage3 : Res Value := ppPreprocessForms 99 none mlBody mlElenv mlSt4

def mlPforms : Value := resVal .nil mlStage3

def mlSt5 : St := resSt mlState mlStage3

/-- `(_catch-errors (quote 5))`: a try form that completes normally. -/
def ceQuiet : Value := callForm "_catch-errors" [qForm (.num 5)]

/-- `(_catch-errors (vref y))`: a try form that signals UnboundVariable. -/
def ceUnbound : Value := callForm "_catch-errors" [callForm "vref" [.varbl (nm "y")]]

/-! ## Interface state constants and plain code-unit predicates -/

/-- The worker state before `INITIALIZE`: no abort buffer installed and no
evaluator selected. -/
def host0 : Host := { abortByte := none, selectedEvaluator := none }

/-- Code units that `peekCharacter` hands through unmolested: not a lone
surrogate half, not a forbidden control character and not a noncharacter. -/
def okUnit (u : Nat) : Bool :=
  !isTrailingSurrogate u && !isLeadingSurrogate u &&
  !(isControlCharacter u && !isWhitespaceCharacter u) && !isNoncharacter u

/-- String-body units that `escapeStringCharacter` prints verbatim and
`readString` consumes verbatim. -/
def plainStrUnit (u : Nat) : Bool :=
  okUnit u && !isControlCharacter u && u ≠ 0x22 && u ≠ 0x5C

/-- Units that `readProtoToken` consumes verbatim (no whitespace, no
syntax character, no escape introducer, no XML markup introducer). -/
def protoOk (u : Nat) : Bool :=
  okUnit u && !isWhitespaceCharacter u && !isSyntaxCharacter u &&
  u ≠ 0x5C && u ≠ 0x3C

/-- Proto-token name units that also print verbatim under
`escapeProtoTokenCharacter` and keep keyword/variable classification
stable (no colon). -/
def plainProtoUnit (u : Nat) : Bool := protoOk u && u ≠ 0x3A

/-! ## Concrete read-time-conditional scenario

A state whose feature list is empty, and the staged reads of the source
text `q x`: the feature expression `q`, then the conditionalized object
`x`.  The staged projections name the tokenizer and state after each
stage. -/

def c7st : St := (globalSet initialState .val (nm "*features*") .nil).2

def c7tok0 : Tok := mkTok (nm "q x") false

def c7read1 := readFeatureExpression 9 c7tok0 c7st

def c7tok1 : Tok := match c7read1 with | .ok _ tk _ => tk | _ => c7tok0

def c7st1 : St := match c7read1 with | .ok _ _ st => st | _ => c7st

def c7read2 := readConditionalizedObject 9 c7tok1 c7st1

def c7tok2 : Tok := match c7read2 with | .ok _ tk _ => tk | _ => c7tok0

def c7st2 : St := match c7read2 with | .ok _ _ st => st | _ => c7st

/-! ## A concrete truncated read

Reading the unclosed text `( 1` raises `UnexpectedEndOfInput`; the staged
projections name the tokenizer and state the error carries. -/

def c8read := readTop 200 (mkTok (nm "( 1") false) initialState

def c8tok : Tok := match c8read with | .err _ tk _ => tk | _ => mkTok [] false

def c8st : St := match c8read with | .err _ _ st => st | _ => initialState

/-! # Theorems -/

/-! ## Argument spreading and pairing (claim C6) -/

theorem exc_bind_ok {α β : Type} (a : α) (f : α → Except Err β) :
    (Except.ok a >>= f : Except Err β) = f a := rfl

theorem exc_bind_err {α β : Type} (e : Err) (f : α → Except Err β) :
    (Except.error e >>= f : Except Err β) = .error e := rfl

theorem listElems_nil_inv {l : Value} (h : listElems l = some []) : l = .nil := by
  cases l <;> simp_all [listElems]

theorem listElems_cons_inv {l : Value} {a : Value} {tl : List Value}
    (h : listElems l = some (a :: tl)) :
    ∃ cid cdr, l = .cons cid a cdr ∧ listElems cdr = some tl := by
  cases l <;> simp_all [listElems]
  exact ⟨_, _, ⟨rfl, rfl⟩, h.1⟩

/-- The value of a proper list is an `EVLList`. -/
theorem listElems_isList {l : Value} {es : List Value} (h : listElems l = some es) :
    l.isList = true := by
  cases l <;> simp_all [listElems, Value.isList]

theorem primPushLoop_ok (amax : Option Nat) (l : List Value) (i : Nat)
    (h : amax.isNone = true ∨ i + l.length ≤ amax.getD 0) :
    pairPrimFunParametersApply.pushLoop amax l i = .ok (l, i + l.length) := by
  induction l generalizing i with
  | nil => simp [pairPrimFunParametersApply.pushLoop]
  | cons a rest ih =>
    have hlen : (a :: rest).length = rest.length + 1 := rfl
    rw [pairPrimFunParametersApply.pushLoop]
    have hcond : (amax.isNone || decide (i < amax.getD 0)) = true := by
      rcases h with h | h
      · simp [h]
      · simp only [Bool.or_eq_true, decide_eq_true_eq]
        exact Or.inr (by omega)
    rw [if_pos hcond, ih (i + 1) (by rcases h with h | h; exact Or.inl h; right; omega),
      exc_bind_ok]
    simp only [hlen]
    congr 2
    omega

theorem primPushLoop_err (m : Nat) (l : List Value) (i : Nat)
    (hm : m < i + l.length) (hne : l ≠ []) :
    pairPrimFunParametersApply.pushLoop (some m) l i = .error .tooManyArguments := by
  induction l generalizing i with
  | nil => exact absurd rfl hne
  | cons a rest ih =>
    have hlen : (a :: rest).length = rest.length + 1 := rfl
    rw [pairPrimFunParametersApply.pushLoop]
    by_cases hi : i < m
    · have hrest : rest ≠ [] := by
        rintro rfl
        simp only [List.length_cons, List.length_nil] at hm
        omega
      have hcond : ((some m).isNone || decide (i < (some m).getD 0)) = true := by
        simp only [Option.isNone_some, Bool.false_or, Option.getD_some,
          decide_eq_true_eq]
        exact hi
      rw [if_pos hcond, ih (i + 1) (by omega) hrest, exc_bind_err]
    · rw [if_neg (by
        simp only [Option.isNone_some, Bool.false_or, Option.getD_some,
          Bool.or_eq_true, decide_eq_true_eq]
        omega)]

theorem primSpreadLoop_ok (amax : Option Nat) (l : Value) (es : List Value) (i : Nat)
    (h : listElems l = some es)
    (hok : amax.isNone = true ∨ i + es.length ≤ amax.getD 0) :
    pairPrimFunParametersApply.spreadLoop amax l i = .ok (es, i + es.length) := by
  induction es generalizing l i with
  | nil =>
    cases listElems_nil_inv h
    simp [pairPrimFunParametersApply.spreadLoop]
  | cons a tl ih =>
    obtain ⟨cid, cdr, rfl, hcdr⟩ := listElems_cons_inv h
    have hlen : (a :: tl).length = tl.length + 1 := rfl
    rw [pairPrimFunParametersApply.spreadLoop]
    have hcond : (amax.isNone || decide (i < amax.getD 0)) = true := by
      rcases hok with hok | hok
      · simp [hok]
      · simp only [Bool.or_eq_true, decide_eq_true_eq]
        exact Or.inr (by omega)
    rw [if_pos hcond,
      ih cdr (i + 1) hcdr (by rcases hok with hok | hok; exact Or.inl hok; right; omega),
      exc_bind_ok]
    simp only [hlen]
    congr 2
    omega

theorem primSpreadLoop_err (m : Nat) (l : Value) (es : List Value) (i : Nat)
    (h : listElems l = some es) (hm : m < i + es.length) (hne : es ≠ []) :
    pairPrimFunParametersApply.spreadLoop (some m) l i = .error .tooManyArguments := by
  induction es generalizing l i with
  | nil => exact absurd rfl hne
  | cons a tl ih =>
    obtain ⟨cid, cdr, rfl, hcdr⟩ := listElems_cons_inv h
    rw [pairPrimFunParametersApply.spreadLoop]
    by_cases hi : i < m
    · have htl : tl ≠ [] := by
        rintro rfl
        simp only [List.length_cons, List.length_nil] at hm
        omega
      have hcond : ((some m).isNone || decide (i < (some m).getD 0)) = true := by
        simp only [Option.isNone_some, Bool.false_or, Option.getD_some,
          decide_eq_true_eq]
        exact hi
      rw [if_pos hcond, ih cdr (i + 1) hcdr (by simp only [List.length_cons] at hm; omega) htl,
        exc_bind_err]
    · rw [if_neg (by
        simp only [Option.isNone_some, Bool.false_or, Option.getD_some,
          Bool.or_eq_true, decide_eq_true_eq]
        omega)]

/-- Claim C6, part 1: for a primitive with a sane arity range
(`arityMin ≤ arityMax` when bounded, as every registered primitive has),
applying with a proper spreadable tail is the same as calling with the
spread arguments — the same values, or the same error. -/
theorem primApplySpread (args : List Value) (l : Value) (es : List Value)
    (amin : Nat) (amax : Option Nat) (h : listElems l = some es)
    (hsane : amax.isNone = true ∨ amin ≤ amax.getD 0) :
    pairPrimFunParametersApply (args ++ [l]) amin amax =
      pairPrimFunParametersNoApply (args ++ es) amin amax := by
  rw [pairPrimFunParametersApply, pairPrimFunParametersNoApply]
  rw [List.dropLast_concat, List.getLast?_concat]
  have hlist := listElems_isList h
  cases amax with
  | none =>
    rw [primPushLoop_ok none args 0 (Or.inl rfl), exc_bind_ok]
    simp only [hlist, Bool.not_true, Bool.false_eq_true, if_false, Nat.zero_add]
    rw [primSpreadLoop_ok none l es args.length h (Or.inl rfl), exc_bind_ok]
    simp only [Nat.zero_add, List.length_append, Option.isSome_none]
    split
    · simp
    · simp
  | some m =>
    simp only [Option.getD_some, Option.isNone_some, Bool.false_eq_true, false_or] at hsane
    by_cases hmany : args.length + es.length ≤ m
    · rw [primPushLoop_ok (some m) args 0 (Or.inr (by simp only [Option.getD_some]; omega)),
        exc_bind_ok]
      simp only [hlist, Bool.not_true, Bool.false_eq_true, if_false, Nat.zero_add]
      rw [primSpreadLoop_ok (some m) l es args.length h
        (Or.inr (by simp only [Option.getD_some]; omega)), exc_bind_ok]
      simp only [Nat.zero_add, List.length_append, Option.isSome_some, Option.get_some,
        dite_true]
      by_cases hf : args.length + es.length < amin
      · rw [if_pos hf, if_pos hf]
      · rw [if_neg hf, if_neg hf, if_neg (by omega : ¬ args.length + es.length > m)]
    · have hfew : ¬ (args.length + es.length < amin) := by omega
      by_cases hpush : args.length ≤ m
      · rw [primPushLoop_ok (some m) args 0 (Or.inr (by simp only [Option.getD_some]; omega)),
          exc_bind_ok]
        simp only [hlist, Bool.not_true, Bool.false_eq_true, if_false, Nat.zero_add]
        have hesne : es ≠ [] := by
          rintro rfl
          simp only [List.length_nil, Nat.add_zero] at hmany
          omega
        rw [primSpreadLoop_err m l es args.length h (by omega) hesne, exc_bind_err]
        simp only [List.length_append]
        rw [if_neg hfew]
        simp only [Option.isSome_some, Option.get_some, dite_true]
        rw [if_pos (by omega)]
      · have hargsne : args ≠ [] := by
          rintro rfl
          simp only [List.length_nil] at hpush
          omega
        rw [primPushLoop_err m args 0 (by omega) hargsne, exc_bind_err]
        simp only [List.length_append]
        rw [if_neg hfew]
        simp only [Option.isSome_some, Option.get_some, dite_true]
        rw [if_pos (by omega)]

theorem closPushLoop_ok (np : Nat) (l : List Value) (i : Nat)
    (h : i + l.length ≤ np) :
    pairClosureParametersApplyNoRest.pushLoop np l i = .ok (l, i + l.length) := by
  induction l generalizing i with
  | nil => simp [pairClosureParametersApplyNoRest.pushLoop]
  | cons a rest ih =>
    have hlen : (a :: rest).length = rest.length + 1 := rfl
    rw [pairClosureParametersApplyNoRest.pushLoop, if_pos (by omega),
      ih (i + 1) (by omega), exc_bind_ok]
    simp only [hlen]
    congr 2
    omega

theorem closPushLoop_err (np : Nat) (l : List Value) (i : Nat)
    (h : np < i + l.length) (hne : l ≠ []) :
    pairClosureParametersApplyNoRest.pushLoop np l i = .error .tooManyArguments := by
  induction l generalizing i with
  | nil => exact absurd rfl hne
  | cons a rest ih =>
    have hlen : (a :: rest).length = rest.length + 1 := rfl
    rw [pairClosureParametersApplyNoRest.pushLoop]
    by_cases hi : i < np
    · have hrest : rest ≠ [] := by
        rintro rfl
        simp only [List.length_cons, List.length_nil] at h
        omega
      rw [if_pos hi, ih (i + 1) (by omega) hrest, exc_bind_err]
    · rw [if_neg hi]

theorem closSpreadLoop_ok (np : Nat) (l : Value) (es : List Value) (i : Nat)
    (h : listElems l = some es) (hok : i + es.length ≤ np) :
    pairClosureParametersApplyNoRest.spreadLoop np l i = .ok (es, i + es.length) := by
  induction es generalizing l i with
  | nil =>
    cases listElems_nil_inv h
    simp [pairClosureParametersApplyNoRest.spreadLoop]
  | cons a tl ih =>
    obtain ⟨cid, cdr, rfl, hcdr⟩ := listElems_cons_inv h
    have hlen : (a :: tl).length = tl.length + 1 := rfl
    rw [pairClosureParametersApplyNoRest.spreadLoop, if_pos (by omega),
      ih cdr (i + 1) hcdr (by omega), exc_bind_ok]
    simp only [hlen]
    congr 2
    omega

theorem closSpreadLoop_err (np : Nat) (l : Value) (es : List Value) (i : Nat)
    (h : listElems l = some es) (hm : np < i + es.length) (hne : es ≠ []) :
    pairClosureParametersApplyNoRest.spreadLoop np l i = .error .tooManyArguments := by
  induction es generalizing l i with
  | nil => exact absurd rfl hne
  | cons a tl ih =>
    obtain ⟨cid, cdr, rfl, hcdr⟩ := listElems_cons_inv h
    rw [pairClosureParametersApplyNoRest.spreadLoop]
    by_cases hi : i < np
    · have htl : tl ≠ [] := by
        rintro rfl
        simp only [List.length_cons, List.length_nil] at hm
        omega
      rw [if_pos hi, ih cdr (i + 1) hcdr (by simp only [List.length_cons] at hm; omega) htl,
        exc_bind_err]
    · rw [if_neg hi]

theorem exc_map_ok {α β : Type} (f : α → β) (a : α) :
    (Except.ok a : Except Err α).map f = .ok (f a) := rfl

theorem exc_map_err {α β : Type} (f : α → β) (e : Err) :
    (Except.error e : Except Err α).map f = .error e := rfl

theorem chain0_append (xs ys : List Value) (t : Value) :
    chain0 (xs ++ ys) t = chain0 xs (chain0 ys t) := by
  induction xs with
  | nil => rfl
  | cons x r ih =>
    show Value.cons 0 x (chain0 (r ++ ys) t) = Value.cons 0 x (chain0 r (chain0 ys t))
    rw [ih]

theorem stripIds_consChain (c : Nat) (vs : List Value) (t : Value) :
    stripIds (consChain c vs t).1 = chain0 (vs.map stripIds) (stripIds t) := by
  induction vs generalizing c with
  | nil => rfl
  | cons v rest ih =>
    simp only [consChain, chain0, List.map_cons, stripIds, ih]

theorem stripIds_ofElems {l : Value} {es : List Value} (h : listElems l = some es) :
    stripIds l = chain0 (es.map stripIds) .nil := by
  induction es generalizing l with
  | nil => cases listElems_nil_inv h; rfl
  | cons a tl ih =>
    obtain ⟨cid, cdr, rfl, hcdr⟩ := listElems_cons_inv h
    simp only [stripIds, chain0, List.map_cons, ih hcdr]

theorem listElems_listDropV {l : Value} {es : List Value} (h : listElems l = some es)
    (k : Nat) : listElems (listDropV k l) = some (es.drop k) := by
  induction k generalizing l es with
  | zero => simpa [listDropV] using h
  | succ k ih =>
    cases es with
    | nil =>
      cases listElems_nil_inv h
      simp [listDropV, listElems]
    | cons a tl =>
      obtain ⟨cid, cdr, rfl, hcdr⟩ := listElems_cons_inv h
      simp only [listDropV, List.drop_succ_cons]
      exact ih hcdr

/-- `chain0` with a non-list terminal is still an `EVLList` (it starts with
a cons) as soon as it has at least one element. -/
theorem chain0_isList (a : Value) (es : List Value) (t : Value) :
    (chain0 (a :: es) t).isList = true := by
  simp [chain0, Value.isList]

/-- Claim C6, part 2: for a closure without a rest parameter, applying
with a proper spreadable tail is the same as calling with the spread
arguments — the same values, or the same error. -/
theorem closureApplyNoRestSpread (args : List Value) (l : Value) (es : List Value)
    (params : List (List Nat)) (h : listElems l = some es) :
    pairClosureParametersApplyNoRest (args ++ [l]) params =
      pairClosureParametersNoApplyNoRest (args ++ es) params := by
  have hlist := listElems_isList h
  simp only [pairClosureParametersApplyNoRest, pairClosureParametersNoApplyNoRest,
    List.dropLast_concat, List.getLast?_concat, hlist, Bool.not_true,
    Bool.false_eq_true, if_false, List.length_append]
  by_cases hle : args.length + es.length ≤ params.length
  · rw [closPushLoop_ok params.length args 0 (by omega), exc_bind_ok]
    simp only [Nat.zero_add]
    rw [closSpreadLoop_ok params.length l es args.length h (by omega), exc_bind_ok]
    by_cases hlt : args.length + es.length < params.length
    · simp [hlt]
    · have hgt : ¬ args.length + es.length > params.length := by omega
      simp [hlt, hgt]
  · have hlt : ¬ args.length + es.length < params.length := by omega
    have hgt : args.length + es.length > params.length := by omega
    by_cases hpush : args.length ≤ params.length
    · rw [closPushLoop_ok params.length args 0 (by omega), exc_bind_ok]
      simp only [Nat.zero_add]
      have hesne : es ≠ [] := by
        rintro rfl
        simp only [List.length_nil, Nat.add_zero] at hle
        omega
      rw [closSpreadLoop_err params.length l es args.length h (by omega) hesne,
        exc_bind_err]
      simp [hlt, hgt]
    · have hargsne : args ≠ [] := by
        rintro rfl
        simp only [List.length_nil] at hpush
        omega
      rw [closPushLoop_err params.length args 0 (by omega) hargsne, exc_bind_err]
      simp [hlt, hgt]

/-- The spreading loop of `pairClosureParametersApplyRest` when every
element of the tail fits below the rest boundary. -/
theorem restSpread_fits (np : Nat) (l : Value) (es : List Value) (i : Nat)
    (h : listElems l = some es) (hfit : i + es.length ≤ np - 1) :
    pairClosureParametersApplyRest.spreadLoop np l i = .ok (es, i + es.length, none) := by
  induction es generalizing l i with
  | nil =>
    cases listElems_nil_inv h
    simp [pairClosureParametersApplyRest.spreadLoop]
  | cons a tl ih =>
    obtain ⟨cid, cdr, rfl, hcdr⟩ := listElems_cons_inv h
    have hlen : (a :: tl).length = tl.length + 1 := rfl
    rw [pairClosureParametersApplyRest.spreadLoop,
      if_pos (by simp only [hlen] at hfit; omega),
      ih cdr (i + 1) hcdr (by simp only [hlen] at hfit; omega), exc_bind_ok]
    simp only [hlen]
    congr 3
    omega

/-- The spreading loop of `pairClosureParametersApplyRest` when the tail
straddles the rest boundary: it fills the remaining slots and adopts the
rest of the tail by reference. -/
theorem restSpread_underApply (np : Nat) (l : Value) (es : List Value) (i : Nat)
    (h : listElems l = some es) (hlt : i < np - 1) (hover : np - 1 < i + es.length) :
    pairClosureParametersApplyRest.spreadLoop np l i =
      .ok (es.take (np - 1 - i), np - 1, some (listDropV (np - 1 - i) l)) := by
  induction es generalizing l i with
  | nil => exact absurd hover (by simp; omega)
  | cons a tl ih =>
    obtain ⟨cid, cdr, rfl, hcdr⟩ := listElems_cons_inv h
    have hlen : (a :: tl).length = tl.length + 1 := rfl
    rw [pairClosureParametersApplyRest.spreadLoop, if_pos hlt]
    by_cases hi1 : i + 1 < np - 1
    · rw [ih cdr (i + 1) hcdr hi1 (by simp only [hlen] at hover; omega), exc_bind_ok]
      have hk : np - 1 - i = (np - 1 - (i + 1)) + 1 := by omega
      rw [hk]
      simp only [List.take_succ_cons, listDropV]
    · have hnp1 : np - 1 = i + 1 := by omega
      cases tl with
      | nil =>
        simp only [List.length_cons, List.length_nil] at hover
        exact absurd hover (by omega)
      | cons b tl2 =>
        obtain ⟨cid2, cdr2, rfl, hcdr2⟩ := listElems_cons_inv hcdr
        rw [pairClosureParametersApplyRest.spreadLoop, if_neg (by omega), exc_bind_ok]
        have hk : np - 1 - i = 1 := by omega
        rw [hk, hnp1]
        simp only [List.take_succ_cons, List.take_zero, listDropV]

/-- The spreading loop of `pairClosureParametersApplyRest` when the index
is already at or past the rest boundary: the whole tail is adopted. -/
theorem restSpread_adopt (np : Nat) (l : Value) (es : List Value) (i : Nat)
    (h : listElems l = some es) (hne : es ≠ []) (hge : np - 1 ≤ i) :
    pairClosureParametersApplyRest.spreadLoop np l i = .ok ([], i, some l) := by
  cases es with
  | nil => exact absurd rfl hne
  | cons a tl =>
    obtain ⟨cid, cdr, rfl, hcdr⟩ := listElems_cons_inv h
    rw [pairClosureParametersApplyRest.spreadLoop, if_neg (by omega)]

/-- Claim C6, part 3: for a closure with a rest parameter, applying with a
proper spreadable tail yields the same paired values — up to the identity
of the freshly consed versus adopted rest-list cells — or the same error
as calling with the spread arguments. -/
theorem closureApplyRestSpread (c c2 : Nat) (args : List Value) (l : Value)
    (es : List Value) (params : List (List Nat)) (h : listElems l = some es) :
    (pairClosureParametersApplyRest c (args ++ [l]) params).map
        (fun p => p.1.map stripIds) =
      (pairClosureParametersNoApplyRest c2 (args ++ es) params).map
        (fun p => p.1.map stripIds) := by
  have hlist := listElems_isList h
  simp only [pairClosureParametersApplyRest, pairClosureParametersNoApplyRest,
    List.dropLast_concat, List.getLast?_concat, hlist, Bool.not_true,
    Bool.false_eq_true, if_false, List.length_append]
  by_cases hfew : args.length + es.length < params.length - 1
  · rw [restSpread_fits params.length l es args.length h (by omega), exc_bind_ok]
    simp [hfew]
  · by_cases hsmall : args.length + es.length ≤ params.length - 1
    · rw [restSpread_fits params.length l es args.length h hsmall, exc_bind_ok]
      have hdropA : args.drop (params.length - 1) = [] :=
        List.drop_eq_nil_of_le (by omega)
      have htakeA : args.take (params.length - 1) = args :=
        List.take_of_length_le (by omega)
      have htake2 : (args ++ es).take (params.length - 1) = args ++ es :=
        List.take_of_length_le (by simp only [List.length_append]; omega)
      have hdrop2 : (args ++ es).drop (params.length - 1) = [] :=
        List.drop_eq_nil_of_le (by simp only [List.length_append]; omega)
      simp [hfew, hdropA, htakeA, htake2, hdrop2, consChain, stripIds, exc_map_ok]
    · by_cases hmid : args.length < params.length - 1
      · rw [restSpread_underApply params.length l es args.length h hmid (by omega),
          exc_bind_ok]
        have hdropA : args.drop (params.length - 1) = [] :=
          List.drop_eq_nil_of_le (by omega)
        have htakeA : args.take (params.length - 1) = args :=
          List.take_of_length_le (by omega)
        have htake2 : (args ++ es).take (params.length - 1) =
            args ++ es.take (params.length - 1 - args.length) := by
          rw [List.take_append_eq_append_take, htakeA]
        have hdrop2 : (args ++ es).drop (params.length - 1) =
            es.drop (params.length - 1 - args.length) := by
          rw [List.drop_append_eq_append_drop, hdropA, List.nil_append]
        have hstrip : stripIds (listDropV (params.length - 1 - args.length) l) =
            stripIds ((consChain c2 (es.drop (params.length - 1 - args.length)) .nil).1) := by
          rw [stripIds_ofElems (listElems_listDropV h _), stripIds_consChain]
          rfl
        simp [hfew, hdropA, htakeA, htake2, hdrop2, consChain, stripIds, hstrip,
          exc_map_ok]
      · by_cases hes : es = []
        · subst hes
          obtain rfl := listElems_nil_inv h
          rw [pairClosureParametersApplyRest.spreadLoop, exc_bind_ok]
          simp [hmid, hfew, stripIds_consChain, exc_map_ok]
        · rw [restSpread_adopt params.length l es args.length h hes (by omega),
            exc_bind_ok]
          have hz : params.length - 1 - args.length = 0 :=
            Nat.sub_eq_zero_of_le (by omega)
          have htake2 : (args ++ es).take (params.length - 1) =
              args.take (params.length - 1) := by
            rw [List.take_append_eq_append_take, hz, List.take_zero, List.append_nil]
          have hdrop2 : (args ++ es).drop (params.length - 1) =
              args.drop (params.length - 1) ++ es := by
            rw [List.drop_append_eq_append_drop, hz, List.drop_zero]
          have hstrip : stripIds ((consChain c (args.drop (params.length - 1)) l).1) =
              stripIds ((consChain c2 (args.drop (params.length - 1) ++ es) .nil).1) := by
            rw [stripIds_consChain, stripIds_consChain, List.map_append, chain0_append,
              stripIds_ofElems h]
            rfl
          simp [hmid, hfew, htake2, hdrop2, hstrip, exc_map_ok]

/-- Claim C6, part 4a: a non-list final argument of an `apply`-style call
to a primitive signals `MalformedSpreadableSequenceOfObjects` — provided
the positional arguments have not already overflowed the maximum arity. -/
theorem primApplyMalformed (args : List Value) (v : Value) (amin : Nat)
    (amax : Option Nat) (hv : v.isList = false)
    (hpush : amax.isNone = true ∨ args.length ≤ amax.getD 0) :
    pairPrimFunParametersApply (args ++ [v]) amin amax =
      .error .malformedSpreadableSequenceOfObjects := by
  simp only [pairPrimFunParametersApply, List.dropLast_concat, List.getLast?_concat]
  rw [primPushLoop_ok amax args 0
    (by rcases hpush with h | h; exact Or.inl h; right; omega), exc_bind_ok]
  simp [hv]

/-- Claim C6, part 4b: the closure/no-rest analogue of `primApplyMalformed`. -/
theorem closureApplyNoRestMalformed (args : List Value) (v : Value)
    (params : List (List Nat)) (hv : v.isList = false)
    (hpush : args.length ≤ params.length) :
    pairClosureParametersApplyNoRest (args ++ [v]) params =
      .error .malformedSpreadableSequenceOfObjects := by
  simp only [pairClosureParametersApplyNoRest, List.dropLast_concat,
    List.getLast?_concat]
  rw [closPushLoop_ok params.length args 0 (by omega), exc_bind_ok]
  simp [hv]

/-- Claim C6, part 4c: the closure/rest pairer checks the tail before any
arity counting, so a non-list final argument signals
`MalformedSpreadableSequenceOfObjects` unconditionally. -/
theorem closureApplyRestMalformed (c : Nat) (args : List Value) (v : Value)
    (params : List (List Nat)) (hv : v.isList = false) :
    pairClosureParametersApplyRest c (args ++ [v]) params =
      .error .malformedSpreadableSequenceOfObjects := by
  simp [pairClosureParametersApplyRest, List.dropLast_concat, List.getLast?_concat, hv]

/-- Claim C6, part 4d: an improper spreadable tail is detected by the
unbounded primitive spreading loop when its non-list terminal is reached. -/
theorem primSpreadLoop_improper (es : List Value) (t : Value) (i : Nat)
    (ht : t.isList = false) :
    pairPrimFunParametersApply.spreadLoop none (chain0 es t) i =
      .error .malformedSpreadableSequenceOfObjects := by
  induction es generalizing i with
  | nil =>
    cases t <;> simp_all [pairPrimFunParametersApply.spreadLoop, chain0, Value.isList]
  | cons a rest ih =>
    rw [chain0, pairPrimFunParametersApply.spreadLoop,
      if_pos (by simp), ih (i + 1), exc_bind_err]

/-- Claim C6, part 5: when the positional arguments of an `apply`-style
call exactly fill the slots before the rest parameter, the proper tail
list is adopted by reference — the paired values end with the very tail
object and no cons cell is allocated (the counter is returned unchanged). -/
theorem closureApplyRestAdopt (c : Nat) (args : List Value) (l : Value)
    (es : List Value) (params : List (List Nat)) (h : listElems l = some es)
    (hne : es ≠ []) (hA : args.length = params.length - 1) :
    pairClosureParametersApplyRest c (args ++ [l]) params = .ok (args ++ [l], c) := by
  have hlist := listElems_isList h
  simp only [pairClosureParametersApplyRest, List.dropLast_concat, List.getLast?_concat,
    hlist, Bool.not_true, Bool.false_eq_true, if_false]
  rw [restSpread_adopt params.length l es args.length h hne (by omega), exc_bind_ok]
  have hcond : ¬ args.length < params.length - 1 := by omega
  have htake : args.take (params.length - 1) = args := by rw [← hA, List.take_length]
  have hdrop : args.drop (params.length - 1) = [] := by rw [← hA, List.drop_length]
  simp [hcond, htake, hdrop, consChain]

/-- Claim C6, part 6a: the plain-call/no-rest pairer accepts exactly the
argument counts equal to the parameter count. -/
theorem closureCallRange (args : List Value) (params : List (List Nat)) :
    (∃ v, pairClosureParametersNoApplyNoRest args params = .ok v) ↔
      args.length = params.length := by
  unfold pairClosureParametersNoApplyNoRest
  by_cases h1 : args.length < params.length
  · simp [h1]
    omega
  · by_cases h2 : args.length > params.length
    · simp [h1, h2]
      omega
    · simp [h1, h2]
      omega

/-- Claim C6, part 6b: the plain-call/rest pairer accepts exactly the
argument counts reaching the number of non-rest parameters. -/
theorem closureCallRestRange (c : Nat) (args : List Value)
    (params : List (List Nat)) :
    (∃ p, pairClosureParametersNoApplyRest c args params = .ok p) ↔
      params.length - 1 ≤ args.length := by
  unfold pairClosureParametersNoApplyRest
  by_cases h1 : args.length < params.length - 1
  · simp [h1]
    omega
  · simp [h1]
    omega

/-- Claim C6, part 6c: the plain-call primitive pairer accepts exactly the
argument counts within the declared arity range. -/
theorem primCallRange (args : List Value) (amin : Nat) (amax : Option Nat) :
    (∃ v, pairPrimFunParametersNoApply args amin amax = .ok v) ↔
      (amin ≤ args.length ∧ (amax.isNone = true ∨ args.length ≤ amax.getD 0)) := by
  cases amax with
  | none =>
    by_cases h1 : args.length < amin
    · simp [pairPrimFunParametersNoApply, h1]
    · simp [pairPrimFunParametersNoApply, h1]
      omega
  | some m =>
    by_cases h1 : args.length < amin
    · simp [pairPrimFunParametersNoApply, h1]
    · by_cases h2 : args.length > m
      · simp [pairPrimFunParametersNoApply, h1, h2]
      · simp [pairPrimFunParametersNoApply, h1, h2]
        omega


/-- Claim C6 (amended): apply-style argument spreading agrees with the
plain call on a proper tail list — exactly for primitives and rest-less
closures, and up to cons-cell identity for rest closures; a non-list final
argument signals MalformedSpreadableSequenceOfObjects provided the
positional arguments have not already exhausted the maximum arity (the
rest-closure pairer checks the tail first, so there unconditionally);
when the positional arguments exactly fill the non-rest slots the tail is
adopted by reference with no allocation; and the plain-call pairers accept
exactly the declared argument ranges.  (The original claim is corrected:
TooManyArguments can preempt the malformed-tail error, see
`C6_pairing_counterexample`.) -/
theorem C6_pairing (args : List Value) (l : Value) (es : List Value)
    (params : List (List Nat)) (amin : Nat) (amax : Option Nat) (c c2 : Nat)
    (t : Value) (h : listElems l = some es)
    (hsane : amax.isNone = true ∨ amin ≤ amax.getD 0) (ht : t.isList = false) :
    pairPrimFunParametersApply (args ++ [l]) amin amax =
      pairPrimFunParametersNoApply (args ++ es) amin amax ∧
    pairClosureParametersApplyNoRest (args ++ [l]) params =
      pairClosureParametersNoApplyNoRest (args ++ es) params ∧
    (pairClosureParametersApplyRest c (args ++ [l]) params).map
        (fun p => p.1.map stripIds) =
      (pairClosureParametersNoApplyRest c2 (args ++ es) params).map
        (fun p => p.1.map stripIds) ∧
    (args.length ≤ params.length →
      pairClosureParametersApplyNoRest (args ++ [t]) params =
        .error .malformedSpreadableSequenceOfObjects) ∧
    pairClosureParametersApplyRest c (args ++ [t]) params =
      .error .malformedSpreadableSequenceOfObjects ∧
    (amax.isNone = true →
      pairPrimFunParametersApply (args ++ [t]) amin amax =
        .error .malformedSpreadableSequenceOfObjects) ∧
    (es ≠ [] → args.length = params.length - 1 →
      pairClosureParametersApplyRest c (args ++ [l]) params = .ok (args ++ [l], c)) ∧
    ((∃ v, pairClosureParametersNoApplyNoRest args params = .ok v) ↔
      args.length = params.length) ∧
    ((∃ p, pairClosureParametersNoApplyRest c2 args params = .ok p) ↔
      params.length - 1 ≤ args.length) ∧
    ((∃ v, pairPrimFunParametersNoApply args amin amax = .ok v) ↔
      (amin ≤ args.length ∧ (amax.isNone = true ∨ args.length ≤ amax.getD 0))) :=
  ⟨primApplySpread args l es amin amax h hsane,
   closureApplyNoRestSpread args l es params h,
   closureApplyRestSpread c c2 args l es params h,
   fun hpush => closureApplyNoRestMalformed args t params ht hpush,
   closureApplyRestMalformed c args t params ht,
   fun hnone => primApplyMalformed args t amin amax ht (Or.inl hnone),
   fun hne hA => closureApplyRestAdopt c args l es params h hne hA,
   closureCallRange args params,
   closureCallRestRange c2 args params,
   primCallRange args amin amax⟩

/-- Claim C6 counterexample: applying a parameterless closure to the
improper list (1 . 2) signals TooManyArguments, not the
MalformedSpreadableSequenceOfObjects the claim promises for every
non-proper-list tail — the arity bound is checked before the improper
terminal is reached. -/
theorem C6_pairing_counterexample :
    pairClosureParametersApplyNoRest [.cons 5 (.num 1) (.num 2)] [] =
      .error .tooManyArguments ∧
    Err.tooManyArguments ≠ Err.malformedSpreadableSequenceOfObjects :=
  ⟨rfl, fun hcontra => Err.noConfusion hcontra⟩

theorem C6_pairing_witness :
    pairPrimFunParametersApply
        ([.num 0] ++ [.cons 7 (.num 1) (.cons 8 (.num 2) .nil)]) 1 none =
      pairPrimFunParametersNoApply ([.num 0] ++ [.num 1, .num 2]) 1 none :=
  (C6_pairing [.num 0] (.cons 7 (.num 1) (.cons 8 (.num 2) .nil)) [.num 1, .num 2]
    [[5], [6]] 1 none 0 1 (.num 3) rfl (Or.inl rfl) rfl).1


/-- Claim C1 (amended): on a corpus of forms that terminate under all six
evaluators and avoid `_for-each` — quotation, a primitive comparison, a
lexical closure call, `if`, `progn`, `apply`, a dynamic closure call,
an unbound-variable error and a signalled error under `_catch-errors` —
the evaluators agree on the observed primary value from the freshly
initialized global state; `_for-each` itself is implemented by the cps,
oocps and sboocps evaluators (the form completes with Void) and signals
the not-implemented EvaluatorError under the plain-recursive and both
trampoline evaluators.  (The original universal claim is corrected: a
terminating form can observe that very difference through
`_catch-errors`, see `C1_divergence_counterexample`.) -/
theorem C1_corpus_agreement :
    ((corpus.map fun f => observe (plainrecEval 100 f initialState)) =
        corpusExpected ∧
      (corpus.map fun f => observe (cpsEval 100 f initialState)) =
        corpusExpected ∧
      (corpus.map fun f => observe (oocpsEval 100 f initialState)) =
        corpusExpected ∧
      (corpus.map fun f => observe (sboocpsEval 100 f initialState)) =
        corpusExpected ∧
      (corpus.map fun f => observe (trampolineEval 100 none f initialState)) =
        corpusExpected ∧
      (corpus.map fun f => observe (trampolineppEval 100 none f initialState)) =
        corpusExpected) ∧
    (observe (cpsEval 100 forEachForm initialState) = some (.inr .void) ∧
      observe (oocpsEval 100 forEachForm initialState) = some (.inr .void) ∧
      observe (sboocpsEval 100 forEachForm initialState) = some (.inr .void)) ∧
    (observe (plainrecEval 100 forEachForm initialState) =
        some (.inl "EvaluatorError") ∧
      observe (trampolineEval 100 none forEachForm initialState) =
        some (.inl "EvaluatorError") ∧
      observe (trampolineppEval 100 none forEachForm initialState) =
        some (.inl "EvaluatorError")) :=
  ⟨⟨by rfl, by rfl, by rfl, by rfl, by rfl, by rfl⟩,
   ⟨by rfl, by rfl, by rfl⟩, ⟨by rfl, by rfl, by rfl⟩⟩

/-- Claim C1 counterexample: `(_catch-errors (_for-each (fref values)
(quote ())))` terminates under all six evaluators, yet its primary value
is Void under cps, oocps and sboocps and the string "EvaluatorError"
under plainrec and both trampolines — the not-implemented condition is
observable through `_catch-errors`, refuting the universal equivalence. -/
theorem C1_divergence_counterexample :
    observe (cpsEval 100 ceForm initialState) = some (.inr .void) ∧
    observe (oocpsEval 100 ceForm initialState) = some (.inr .void) ∧
    observe (sboocpsEval 100 ceForm initialState) = some (.inr .void) ∧
    observe (plainrecEval 100 ceForm initialState) =
      some (.inr (.str (nm "EvaluatorError"))) ∧
    observe (trampolineEval 100 none ceForm initialState) =
      some (.inr (.str (nm "EvaluatorError"))) ∧
    observe (trampolineppEval 100 none ceForm initialState) =
      some (.inr (.str (nm "EvaluatorError"))) ∧
    Value.void ≠ Value.str (nm "EvaluatorError") :=
  ⟨by rfl, by rfl, by rfl, by rfl, by rfl, by rfl,
   fun hcontra => Value.noConfusion hcontra⟩


/-- The driver loop of the trampoline evaluator answers a set abort
sample immediately, whatever the bounce and the stack. -/
theorem tloop_abort (n iter : Nat) (sig : AbortSig) (b : TBounce)
    (stack : List TElem) (st : St) (h : abortSampled sig iter = true) :
    trampolineLoop (n + 1) iter sig b stack st = .err .aborted st := by
  obtain ⟨x, hx⟩ : ∃ x, trampolineLoop (n + 1) iter sig b stack st =
      if abortSampled sig iter then Res.err Err.aborted st else x := ⟨_, rfl⟩
  rw [hx, if_pos h]

/-- The driver loop of the trampoline++ evaluator answers a set abort
sample immediately, whatever the bounce and the stack. -/
theorem pploop_abort (n iter : Nat) (sig : AbortSig) (b : PBounce)
    (stack : List PElem) (st : St) (h : abortSampled sig iter = true) :
    trampolineppLoop (n + 1) iter sig b stack st = .err .aborted st := by
  obtain ⟨x, hx⟩ : ∃ x, trampolineppLoop (n + 1) iter sig b stack st =
      if abortSampled sig iter then Res.err Err.aborted st else x := ⟨_, rfl⟩
  rw [hx, if_pos h]

/-- Claim C2 (amended): the two trampoline evaluators sample the host
abort flag at every driver-loop iteration — a set sample ends the
iteration immediately with Aborted, for every bounce and every control
stack, in particular with a `_catch-errors` handler active (the abort
check sits outside the error-handling try block, so no handler consumes
it); at the entry points, a flag set from the start aborts the whole
evaluation (for trampoline++ after the preprocessing phase, which runs
before the driver loop).  Two concrete runs show an abort raised
mid-evaluation of a `_catch-errors` form reported as Aborted rather than
being converted to a string by the handler.  (The original claim is
corrected: only these two evaluators test the flag, see
`C2_abort_counterexample` for the recursive four.) -/
theorem C2_abort (n iter : Nat) (sig : AbortSig) (b : TBounce)
    (stack : List TElem) (pb : PBounce) (pstack : List PElem)
    (form : Value) (pf : PPForm) (st st2 : St)
    (habort : abortSampled sig iter = true)
    (habort0 : abortSampled sig 0 = true)
    (hpre : ppPreprocessForm (n + 1) sig form .nullEnv st = .ok pf st2) :
    trampolineLoop (n + 1) iter sig b stack st = .err .aborted st ∧
    trampolineppLoop (n + 1) iter sig pb pstack st = .err .aborted st ∧
    trampolineLoop (n + 1) iter sig b (.handler :: stack) st = .err .aborted st ∧
    trampolineppLoop (n + 1) iter sig pb (.handler :: pstack) st = .err .aborted st ∧
    trampolineEval (n + 1) sig form st = .err .aborted st ∧
    trampolineppEval (n + 1) sig form st = .err .aborted st2 ∧
    observe (trampolineEval 100 (some fun i => decide (1 ≤ i))
        (callForm "_catch-errors" [callForm "vref" [.varbl (nm "y")]])
        initialState) = some (.inl "Aborted") ∧
    observe (trampolineppEval 100 (some fun i => decide (1 ≤ i))
        (callForm "_catch-errors" [callForm "vref" [.varbl (nm "y")]])
        initialState) = some (.inl "Aborted") :=
  ⟨tloop_abort n iter sig b stack st habort,
   pploop_abort n iter sig pb pstack st habort,
   tloop_abort n iter sig b (.handler :: stack) st habort,
   pploop_abort n iter sig pb (.handler :: pstack) st habort,
   by rw [trampolineEval]; exact tloop_abort n 0 sig _ _ st habort0,
   by
     simp only [trampolineppEval, hpre]
     exact pploop_abort n 0 sig _ _ st2 habort0,
   by rfl, by rfl⟩

/-- Claim C2 counterexample: the four recursive evaluators never test the
abort flag — the source functions contain no reference to it, so their
embeddings take no abort signal at all, and a form evaluates to its plain
value while the trampoline evaluator under a set flag aborts before doing
any work; in particular no Aborted condition can arise in them. -/
theorem C2_abort_counterexample :
    trampolineEval 100 (some fun _ => true) (qForm (.num 5)) initialState =
      .err .aborted initialState ∧
    observe (trampolineEval 100 none (qForm (.num 5)) initialState) =
      some (.inr (.num 5)) ∧
    observe (plainrecEval 100 (qForm (.num 5)) initialState) =
      some (.inr (.num 5)) ∧
    observe (cpsEval 100 (qForm (.num 5)) initialState) = some (.inr (.num 5)) ∧
    observe (oocpsEval 100 (qForm (.num 5)) initialState) = some (.inr (.num 5)) ∧
    observe (sboocpsEval 100 (qForm (.num 5)) initialState) =
      some (.inr (.num 5)) ∧
    (Res.ok (ResultV.obj (Value.num 5)) initialState : Res ResultV) ≠
      .err .aborted initialState :=
  ⟨by rfl, by rfl, by rfl, by rfl, by rfl, by rfl,
   fun hcontra => Res.noConfusion hcontra⟩

theorem C2_abort_witness :
    trampolineLoop 100 0 (some fun _ => true) (.req (qForm (.num 5)) .nullEnv)
      [.cont .endK] initialState = .err .aborted initialState :=
  (C2_abort 99 0 (some fun _ => true) (.req (qForm (.num 5)) .nullEnv)
    [.cont .endK] (.req (.quote (.num 5)) .nullEnv) [] (qForm (.num 5))
    (.quote (.num 5)) initialState initialState rfl rfl (by rfl)).1

/-- Claim C4 (amended): a call whose operator is a `_flambda` form is
recognized as a macro-let when every operand is a call headed by the
variable spelled `mlambda` (not `_mlambda` — see
`C4_macro_let_counterexample`); the expansion then (i) preprocesses the
operands in the current compile-time environment and evaluates each
preprocessed operand in a null environment, (ii) binds the resulting
values in a function-namespace frame extending the current compile-time
environment, (iii) preprocesses the `_flambda` body under that extension,
and (iv) produces a call node whose operator is a synthesised
non-macro function-namespace lambda over the original parameters. -/
theorem C4_macro_let (n : Nat) (sig : AbortSig) (mv apply : Bool)
    (form opTail operands : Value) (cid : Nat) (lenv : EnvPtr)
    (st st2 st3 st5 : St) (pops pforms : Value) (popsArr values : List Value)
    (parameters : List (List Nat)) (rest : Bool) (forms : Value)
    (elenv : EnvPtr) (st4 : St)
    (hana : analyzeCall mv apply form =
      .ok (.cons cid (.varbl (nm "_flambda")) opTail, operands))
    (hml : isMacroLet (.cons cid (.varbl (nm "_flambda")) opTail) operands = true)
    (hops : ppPreprocessForms n sig operands lenv st = .ok pops st2)
    (hlam : analyzeLambda (.cons cid (.varbl (nm "_flambda")) opTail) =
      .ok (parameters, rest, forms))
    (harr : listToArray pops = .ok popsArr)
    (hvals : ppMacroLetValues n popsArr st2 = .ok values st3)
    (halloc : allocFrame st3
      { ns := .fn, vars := parameters, vals := values.map some, next := lenv } =
      (elenv, st4))
    (hforms : ppPreprocessForms n sig forms elenv st4 = .ok pforms st5) :
    ppPreprocessCall (n + 1) sig mv apply form lenv st =
      .ok (.call mv apply (.lambda .lex .fn false parameters rest pforms) pops) st5 := by
  simp only [ppPreprocessCall, hana, Res.ofExcept, hml, if_true, hops, hlam, harr,
    hvals, halloc, hforms]

/-- Claim C4 counterexample: the macro-let recognizer accepts operands
headed by the plain variable `mlambda`, which is not a special operator at
all, and rejects operands that are genuine `_mlambda` special forms — the
claimed "operands are all `_mlambda` forms" condition is never the one
tested. -/
theorem C4_macro_let_counterexample :
    isMacroLet mlFlam
      (.cons 0 (callForm "_mlambda" [.cons 0 (.varbl (nm "x")) .nil,
        qForm (.num 1)]) .nil) = false ∧
    isMacroLet mlFlam (.cons 0 mlOperand .nil) = true ∧
    specialOp (nm "_mlambda") = .mlambda ∧
    specialOp (nm "mlambda") = .none :=
  ⟨rfl, rfl, rfl, rfl⟩

theorem C4_macro_let_witness :
    ppPreprocessCall 100 none false false mlForm .nullEnv mlState =
      .ok (.call false false (.lambda .lex .fn false mlParams mlRest mlPforms)
        mlPops) mlSt5 :=
  C4_macro_let 99 none false false mlForm mlFlamTail (.cons 0 mlOperand .nil) 0
    .nullEnv mlState mlSt2 mlSt3 mlSt5 mlPops mlPforms mlPopsArr mlValues
    mlParams mlRest mlBody mlElenv mlSt4
    (by rfl) (by rfl) (by rfl) (by rfl) (by rfl) (by rfl) (by rfl) (by rfl)

/-- Claim C5: under every evaluator, `(_catch-errors try)` yields the
string naming the error kind when `try` signals an error and Void when it
completes (the try value is discarded) — stated as the catch-errors step
equations of the four recursive evaluators, the handler search and the
error routing of the two trampoline driver loops (the nearest handler
marker consumes the error, the end continuation rethrows to the driver),
the abort bypass (a set abort sample ends the loop with Aborted even with
a handler on the stack), and the observed behavior of the six evaluators
on a completing and on an error-signalling catch form. -/
theorem C5_catch_errors :
    (∀ n form tryForm lenv denv st e st2,
      analyzeCatchErrors form = .ok tryForm →
      plainrecEvalForm n tryForm lenv denv st = .err e st2 →
      plainrecEvalCatchErrors (n + 1) form lenv denv st =
        .ok (.obj (.str (nm e.name))) st2) ∧
    (∀ n form tryForm lenv denv st r st2,
      analyzeCatchErrors form = .ok tryForm →
      plainrecEvalForm n tryForm lenv denv st = .ok r st2 →
      plainrecEvalCatchErrors (n + 1) form lenv denv st = .ok (.obj .void) st2) ∧
    (∀ n form tryForm lenv denv (k : KR) st e st2,
      analyzeCatchErrors form = .ok tryForm →
      cpsEvalForm n tryForm lenv denv cpsEndCont st = .err e st2 →
      cpsEvalCatchErrors (n + 1) form lenv denv k st =
        k (.obj (.str (nm e.name))) st2) ∧
    (∀ n form tryForm lenv denv (k : KR) st r st2,
      analyzeCatchErrors form = .ok tryForm →
      cpsEvalForm n tryForm lenv denv cpsEndCont st = .ok r st2 →
      cpsEvalCatchErrors (n + 1) form lenv denv k st = k (.obj .void) st2) ∧
    (∀ n form tryForm lenv denv (k : OCont) st e st2,
      analyzeCatchErrors form = .ok tryForm →
      oocpsEvalForm n tryForm lenv denv .endK st = .err e st2 →
      oocpsEvalCatchErrors (n + 1) form lenv denv k st =
        oinvoke n k (.res (.obj (.str (nm e.name)))) st2) ∧
    (∀ n form tryForm lenv denv (k : OCont) st r st2,
      analyzeCatchErrors form = .ok tryForm →
      oocpsEvalForm n tryForm lenv denv .endK st = .ok r st2 →
      oocpsEvalCatchErrors (n + 1) form lenv denv k st =
        oinvoke n k (.res (.obj .void)) st2) ∧
    (∀ n form tryForm lenv stack st e stack2 st2,
      analyzeCatchErrors form = .ok tryForm →
      sboocpsEvalForm n tryForm lenv (.cont .endK :: stack) st = .err e stack2 st2 →
      sboocpsEvalCatchErrors (n + 1) form lenv stack st =
        sinvokeCont n (.res (.obj (.str (nm e.name))))
          (stackTrim stack2 stack.length) st2) ∧
    (∀ n form tryForm lenv stack st r stack2 st2,
      analyzeCatchErrors form = .ok tryForm →
      sboocpsEvalForm n tryForm lenv (.cont .endK :: stack) st = .ok r stack2 st2 →
      sboocpsEvalCatchErrors (n + 1) form lenv stack st =
        sinvokeCont n (.res (.obj .void)) stack2 st2) ∧
    ((∀ rest, thandleError (.handler :: rest) = .caught rest) ∧
      (∀ rest, thandleError (.cont .endK :: rest) = .rethrow) ∧
      (∀ f rest, thandleError (.frame f :: rest) = thandleError rest) ∧
      (∀ rest, phandleError (.handler :: rest) = .caught rest) ∧
      (∀ rest, phandleError (.cont .endK :: rest) = .rethrow)) ∧
    (∀ n iter sig form lenv stack st e stack2 st2 rest,
      abortSampled sig iter = false →
      trampolineEvalForm n form lenv stack st = .err e stack2 st2 →
      thandleError stack2 = .caught rest →
      trampolineLoop (n + 1) iter sig (.req form lenv) stack st =
        trampolineLoop n (iter + 1) sig
          (.val (.res (.obj (.str (nm e.name))))) rest st2) ∧
    (∀ n iter sig form lenv stack st e stack2 st2,
      abortSampled sig iter = false →
      trampolineEvalForm n form lenv stack st = .err e stack2 st2 →
      thandleError stack2 = .rethrow →
      trampolineLoop (n + 1) iter sig (.req form lenv) stack st = .err e st2) ∧
    (∀ n iter sig f lenv stack st e stackOpt2 st2 rest,
      abortSampled sig iter = false →
      ppFormEval n f lenv (some stack) st = .err e stackOpt2 st2 →
      phandleError (stackOpt2.getD []) = .caught rest →
      trampolineppLoop (n + 1) iter sig (.req f lenv) stack st =
        trampolineppLoop n (iter + 1) sig
          (.val (.res (.obj (.str (nm e.name))))) rest st2) ∧
    (∀ n iter sig b stack st, abortSampled sig iter = true →
      trampolineLoop (n + 1) iter sig b (.handler :: stack) st =
        .err .aborted st) ∧
    (∀ n iter sig b stack st, abortSampled sig iter = true →
      trampolineppLoop (n + 1) iter sig b (.handler :: stack) st =
        .err .aborted st) ∧
    (observe (plainrecEval 100 ceQuiet initialState) = some (.inr .void) ∧
      observe (cpsEval 100 ceQuiet initialState) = some (.inr .void) ∧
      observe (oocpsEval 100 ceQuiet initialState) = some (.inr .void) ∧
      observe (sboocpsEval 100 ceQuiet initialState) = some (.inr .void) ∧
      observe (trampolineEval 100 none ceQuiet initialState) = some (.inr .void) ∧
      observe (trampolineppEval 100 none ceQuiet initialState) = some (.inr .void)) ∧
    (observe (plainrecEval 100 ceUnbound initialState) =
        some (.inr (.str (nm "UnboundVariable"))) ∧
      observe (cpsEval 100 ceUnbound initialState) =
        some (.inr (.str (nm "UnboundVariable"))) ∧
      observe (oocpsEval 100 ceUnbound initialState) =
        some (.inr (.str (nm "UnboundVariable"))) ∧
      observe (sboocpsEval 100 ceUnbound initialState) =
        some (.inr (.str (nm "UnboundVariable"))) ∧
      observe (trampolineEval 100 none ceUnbound initialState) =
        some (.inr (.str (nm "UnboundVariable"))) ∧
      observe (trampolineppEval 100 none ceUnbound initialState) =
        some (.inr (.str (nm "UnboundVariable")))) :=
  ⟨fun n form tryForm lenv denv st e st2 hana htry => by
     simp only [plainrecEvalCatchErrors, hana, Res.ofExcept, htry],
   fun n form tryForm lenv denv st r st2 hana htry => by
     simp only [plainrecEvalCatchErrors, hana, Res.ofExcept, htry],
   fun n form tryForm lenv denv k st e st2 hana htry => by
     simp only [cpsEvalCatchErrors, hana, Res.ofExcept, htry],
   fun n form tryForm lenv denv k st r st2 hana htry => by
     simp only [cpsEvalCatchErrors, hana, Res.ofExcept, htry],
   fun n form tryForm lenv denv k st e st2 hana htry => by
     simp only [oocpsEvalCatchErrors, hana, Res.ofExcept, htry],
   fun n form tryForm lenv denv k st r st2 hana htry => by
     simp only [oocpsEvalCatchErrors, hana, Res.ofExcept, htry],
   fun n form tryForm lenv stack st e stack2 st2 hana htry => by
     simp only [sboocpsEvalCatchErrors, hana, htry],
   fun n form tryForm lenv stack st r stack2 st2 hana htry => by
     simp only [sboocpsEvalCatchErrors, hana, htry],
   ⟨fun rest => rfl, fun rest => rfl, fun f rest => rfl,
    fun rest => rfl, fun rest => rfl⟩,
   fun n iter sig form lenv stack st e stack2 st2 rest hab hstep hhandle => by
     simp only [trampolineLoop, hab, Bool.false_eq_true, if_false, hstep, hhandle],
   fun n iter sig form lenv stack st e stack2 st2 hab hstep hhandle => by
     simp only [trampolineLoop, hab, Bool.false_eq_true, if_false, hstep, hhandle],
   fun n iter sig f lenv stack st e stackOpt2 st2 rest hab hstep hhandle => by
     simp only [trampolineppLoop, hab, Bool.false_eq_true, if_false, hstep, hhandle],
   fun n iter sig b stack st hab => tloop_abort n iter sig b (.handler :: stack) st hab,
   fun n iter sig b stack st hab => pploop_abort n iter sig b (.handler :: stack) st hab,
   ⟨by rfl, by rfl, by rfl, by rfl, by rfl, by rfl⟩,
   ⟨by rfl, by rfl, by rfl, by rfl, by rfl, by rfl⟩⟩

theorem C5_catch_errors_witness :
    plainrecEvalCatchErrors 100 ceUnbound .nullEnv .nullEnv initialState =
      .ok (.obj (.str (nm (Err.unboundVariable (nm "y") .val).name))) initialState :=
  C5_catch_errors.1 99 ceUnbound (callForm "vref" [.varbl (nm "y")]) .nullEnv
    .nullEnv initialState (.unboundVariable (nm "y") .val) initialState
    (by rfl) (by rfl)

theorem okUnit_facts (u : Nat) (h : okUnit u = true) :
    isTrailingSurrogate u = false ∧ isLeadingSurrogate u = false ∧
    (isControlCharacter u && !isWhitespaceCharacter u) = false ∧
    isNoncharacter u = false := by
  simp only [okUnit, Bool.and_eq_true, Bool.not_eq_true'] at h
  tauto

theorem plainStr_facts (u : Nat) (h : plainStrUnit u = true) :
    okUnit u = true ∧ isControlCharacter u = false ∧ u ≠ 0x22 ∧ u ≠ 0x5C := by
  simp only [plainStrUnit, Bool.and_eq_true, Bool.not_eq_true', decide_eq_true_eq] at h
  tauto

theorem protoOk_facts (u : Nat) (h : protoOk u = true) :
    okUnit u = true ∧ isWhitespaceCharacter u = false ∧ isSyntaxCharacter u = false ∧
    u ≠ 0x5C ∧ u ≠ 0x3C ∧ isControlCharacter u = false := by
  simp only [protoOk, Bool.and_eq_true, Bool.not_eq_true', decide_eq_true_eq] at h
  obtain ⟨⟨⟨⟨hok, hws⟩, hsy⟩, h5c⟩, h3c⟩ := h
  refine ⟨hok, hws, hsy, h5c, h3c, ?_⟩
  obtain ⟨-, -, hcw, -⟩ := okUnit_facts u hok
  cases hcc : isControlCharacter u
  · rfl
  · rw [hcc, hws] at hcw
    simp at hcw

theorem plainProto_facts (u : Nat) (h : plainProtoUnit u = true) :
    protoOk u = true ∧ u ≠ 0x3A := by
  simp only [plainProtoUnit, Bool.and_eq_true, decide_eq_true_eq] at h
  tauto

theorem escapeStringCharacter_plain (u : Nat) (h : plainStrUnit u = true) :
    escapeStringCharacter [u] = [u] := by
  obtain ⟨-, hc, h22, h5c⟩ := plainStr_facts u h
  have hc2 : ¬(u ≤ 0x1F) := by
    intro hle
    simp [isControlCharacter, hle] at hc
  rw [escapeStringCharacter.eq_def]
  split <;> first | rfl | (next heq => simp at heq; omega)

theorem escapeProtoTokenCharacter_plain (u : Nat) (h : plainProtoUnit u = true) :
    escapeProtoTokenCharacter [u] = [u] := by
  obtain ⟨hp, h3a⟩ := plainProto_facts u h
  obtain ⟨-, hws, hsy, h5c, h3c, -⟩ := protoOk_facts u hp
  rw [escapeProtoTokenCharacter.eq_def]
  simp only [charCodePoint, hws, hsy, Bool.or_self, Bool.false_eq_true, if_false]
  split <;> first | rfl | (next heq => simp at heq; omega)

theorem escapeCharacters_plainStr (s : List Nat) (h : s.all plainStrUnit = true) :
    escapeCharacters s escapeStringCharacter = s := by
  induction s with
  | nil => rfl
  | cons u rest ih =>
    simp only [List.all_cons, Bool.and_eq_true] at h
    obtain ⟨hu, hrest⟩ := h
    obtain ⟨hok, hc, -, -⟩ := plainStr_facts u hu
    obtain ⟨hts, hls, -, hnc⟩ := okUnit_facts u hok
    rw [escapeCharacters.eq_def]
    simp only [hts, hls, hc, hnc, Bool.false_eq_true, if_false, Bool.false_and,
      escapeStringCharacter_plain u hu, ih hrest, List.singleton_append,
      List.cons_append, List.nil_append]

theorem escapeCharacters_plainProto (s : List Nat) (h : s.all plainProtoUnit = true) :
    escapeCharacters s escapeProtoTokenCharacter = s := by
  induction s with
  | nil => rfl
  | cons u rest ih =>
    simp only [List.all_cons, Bool.and_eq_true] at h
    obtain ⟨hu, hrest⟩ := h
    obtain ⟨hp, -⟩ := plainProto_facts u hu
    obtain ⟨hok, -, -, -, -, hc⟩ := protoOk_facts u hp
    obtain ⟨hts, hls, -, hnc⟩ := okUnit_facts u hok
    rw [escapeCharacters.eq_def]
    simp only [hts, hls, hc, hnc, Bool.false_eq_true, if_false, Bool.false_and,
      escapeProtoTokenCharacter_plain u hu, ih hrest, List.singleton_append,
      List.cons_append, List.nil_append]

theorem getAppendLen (pre : List Nat) (u : Nat) (post : List Nat) :
    (pre ++ u :: post)[pre.length]? = some u := by
  rw [List.getElem?_append_right (le_refl pre.length)]
  simp

theorem peekCharacter_ok (tk : Tok) (u : Nat) (hu : tk.text[tk.position]? = some u)
    (hok : okUnit u = true) : peekCharacter tk = .ok [u] := by
  obtain ⟨hts, hls, hcw, hnc⟩ := okUnit_facts u hok
  rw [peekCharacter, peekCharacterAt, hu]
  simp only [hts, hls, Bool.false_eq_true, if_false]
  rw [peekCharacterAt.checkChar]
  simp only [charCodePoint, hcw, hnc, Bool.false_eq_true, if_false]

theorem skipWhitespace_stop (tk : Tok) (u : Nat) (hu : tk.text[tk.position]? = some u)
    (hok : okUnit u = true) (hws : isWhitespaceCharacter u = false) :
    skipWhitespace false tk = .ok tk := by
  have hlt : tk.position < tk.text.length := by
    by_contra hge
    rw [List.getElem?_eq_none (by omega)] at hu
    exact Option.noConfusion hu
  rw [skipWhitespace]
  show skipWhitespace.go false (tk.text.length + 1) tk = _
  rw [skipWhitespace.go]
  simp only [if_neg (by omega : ¬tk.position = tk.text.length),
    peekCharacter_ok tk u hu hok, Bool.false_eq_true, if_false,
    charCodePoint, hws, Bool.not_false, if_true]

theorem readString_go_plain :
    ∀ (s chars pre post : List Nat) (tk : Tok) (fuel : Nat),
      s.all plainStrUnit = true →
      tk.text = pre ++ s ++ 0x22 :: post →
      tk.position = pre.length →
      s.length + 1 ≤ fuel →
      readString.go fuel chars tk =
        .ok (chars ++ s,
          { tk with position := pre.length + s.length + 1,
                    lexeme := tk.lexeme ++ s ++ [0x22] }) := by
  intro s
  induction s with
  | nil =>
    intro chars pre post tk fuel hall htext hpos hfuel
    cases fuel with
    | zero => omega
    | succ f =>
      have hne : ¬tk.position = tk.text.length := by
        rw [htext, hpos]; simp
      have hu : tk.text[tk.position]? = some 0x22 := by
        rw [htext, hpos]
        simp only [List.append_nil]
        exact getAppendLen pre 0x22 post
      rw [readString.go]
      simp only [if_neg hne, peekCharacter_ok tk 0x22 hu (by decide),
        consumeCharacter]
      simp [hpos]
  | cons u s2 ih =>
    intro chars pre post tk fuel hall htext hpos hfuel
    simp only [List.all_cons, Bool.and_eq_true] at hall
    obtain ⟨hu1, hall2⟩ := hall
    obtain ⟨hok, -, h22, h5c⟩ := plainStr_facts u hu1
    cases fuel with
    | zero => simp at hfuel
    | succ f =>
      have hne : ¬tk.position = tk.text.length := by
        rw [htext, hpos]; simp
      have hu : tk.text[tk.position]? = some u := by
        rw [htext, hpos]
        have : pre ++ (u :: s2) ++ 0x22 :: post = pre ++ u :: (s2 ++ 0x22 :: post) := by
          simp
        rw [this]
        exact getAppendLen pre u (s2 ++ 0x22 :: post)
      rw [readString.go]
      simp only [if_neg hne, peekCharacter_ok tk u hu hok, consumeCharacter,
        List.length_cons, List.length_nil]
      rw [ih (chars ++ [u]) (pre ++ [u]) post _ f hall2 (by simp [htext]) (by simp [hpos])
        (by simp at hfuel ⊢; omega)]
      rw [if_neg (by simp [h22] : ¬([u] = [0x22])), if_neg (by simp [h5c] : ¬([u] = [0x5C]))]
      simp only [Except.ok.injEq, Prod.mk.injEq, Tok.mk.injEq]
      simp [List.append_assoc]
      omega

theorem readString_plain (s pre post : List Nat) (tk : Tok)
    (hall : s.all plainStrUnit = true)
    (htext : tk.text = pre ++ s ++ 0x22 :: post)
    (hpos : tk.position = pre.length) :
    readString tk = .ok (s, { tk with position := pre.length + s.length + 1,
                                      lexeme := tk.lexeme ++ s ++ [0x22] }) := by
  rw [readString]
  rw [readString_go_plain s [] pre post tk (tk.text.length + 1) hall htext hpos
    (by simp [htext]; omega)]
  simp

theorem readProtoToken_go_plain :
    ∀ (s chars pre : List Nat) (tk : Tok) (fuel : Nat),
      s.all protoOk = true →
      tk.text = pre ++ s →
      tk.position = pre.length →
      s.length + 1 ≤ fuel →
      readProtoToken.go fuel chars tk =
        .ok (chars ++ s, { tk with position := pre.length + s.length,
                                   lexeme := tk.lexeme ++ s }) := by
  intro s
  induction s with
  | nil =>
    intro chars pre tk fuel hall htext hpos hfuel
    cases fuel with
    | zero => omega
    | succ f =>
      rw [readProtoToken.go]
      rw [if_pos (by rw [htext, hpos]; simp)]
      simp [hpos]
      rw [← hpos]
  | cons u s2 ih =>
    intro chars pre tk fuel hall htext hpos hfuel
    simp only [List.all_cons, Bool.and_eq_true] at hall
    obtain ⟨hu1, hall2⟩ := hall
    obtain ⟨hok, hws, hsy, h5c, h3c, -⟩ := protoOk_facts u hu1
    cases fuel with
    | zero => simp at hfuel
    | succ f =>
      have hne : ¬tk.position = tk.text.length := by
        rw [htext, hpos]; simp
      have hu : tk.text[tk.position]? = some u := by
        rw [htext, hpos]
        have : pre ++ u :: s2 = pre ++ u :: s2 := rfl
        exact getAppendLen pre u s2
      rw [readProtoToken.go]
      simp only [if_neg hne, peekCharacter_ok tk u hu hok, consumeCharacter,
        charCodePoint, hws, hsy, Bool.or_self, Bool.false_eq_true, if_false,
        List.length_cons, List.length_nil]
      rw [if_neg (by simp [h3c] : ¬([u] = [0x3C]))]
      rw [ih (chars ++ [u]) (pre ++ [u]) _ f hall2 (by simp [htext]) (by simp [hpos])
        (by simp at hfuel ⊢; omega)]
      rw [if_neg (by simp [h5c] : ¬([u] = [0x5C]))]
      simp only [Except.ok.injEq, Prod.mk.injEq, Tok.mk.injEq]
      simp [List.append_assoc]
      omega

theorem readProtoToken_plain (s : List Nat) (tk : Tok)
    (hall : s.all protoOk = true) (htext : tk.text = s) (hpos : tk.position = 0) :
    readProtoToken tk = .ok (s, { tk with position := s.length,
                                          lexeme := tk.lexeme ++ s }) := by
  rw [readProtoToken]
  rw [show (0 : Nat) = List.length ([] : List Nat) from rfl] at hpos
  rw [readProtoToken_go_plain s [] [] tk (tk.text.length + 1) hall (by simp [htext]) hpos
    (by simp [htext])]
  simp

theorem readToken_via_proto (tk : Tok) (u0 : Nat) (rest : List Nat)
    (htext : tk.text = u0 :: rest) (hpos : tk.position = 0)
    (hall : (u0 :: rest).all protoOk = true) :
    readToken false tk =
      (let tk2 : Tok := { tk with position := rest.length + 1,
                                  lexeme := tk.lexeme ++ u0 :: rest }
       let p := u0 :: rest
       if p = [0x2E] then .ok (true, { tk2 with category := .dotC })
       else if isNumberToken p then
         .ok (true, { tk2 with category := .numberC,
                               value := some (.num (parseNumberToken p)) })
       else if isKeywordToken p then
         .ok (true, { tk2 with category := .keywordC,
                               value := some (.keyword (p.drop 1)) })
       else if isVariableToken p then
         .ok (true, { tk2 with category := .variableC,
                               value := some (.varbl p) })
       else .error (.tokenizerError "Malformed proto-token.")) := by
  have hu1 : protoOk u0 = true := by
    simp only [List.all_cons, Bool.and_eq_true] at hall
    exact hall.1
  obtain ⟨hok, hws, hsy, h5c, h3c, -⟩ := protoOk_facts u0 hu1
  have hu : tk.text[tk.position]? = some u0 := by rw [htext, hpos]; simp
  simp only [isSyntaxCharacter, Bool.or_eq_false_iff, decide_eq_false_iff_not] at hsy
  rw [readToken.eq_def]
  simp only [peekCharacter_ok tk u0 hu hok]
  split
  all_goals try (next heq => exfalso; simp at heq; omega)
  all_goals
    rw [if_neg (by simp [h3c] : ¬(([u0] : List Nat) = [0x3C]))]
    simp only [Bool.and_false, Bool.false_eq_true, if_false]
    rw [readProtoToken_plain (u0 :: rest) tk hall htext hpos]
    simp

theorem nextToken_of_readToken (t : List Nat) (u0 : Nat) (rest : List Nat) (tkR : Tok)
    (htext : t = u0 :: rest) (hok : okUnit u0 = true)
    (hws : isWhitespaceCharacter u0 = false)
    (hrt : readToken false (mkTok t false) = .ok (true, tkR)) :
    nextToken (mkTok t false) = .ok tkR := by
  have hstep : ({ mkTok t false with whitespace := [], lexeme := [] } : Tok) =
      mkTok t false := rfl
  have hsaved : (mkTok t false).savedCodeUnits = [] := rfl
  have hxs : (mkTok t false).xmlStack.isEmpty = true := rfl
  have hu : (mkTok t false).text[(mkTok t false).position]? = some u0 := by
    simp [mkTok, htext]
  have hne : ¬((mkTok t false).position = (mkTok t false).text.length) := by
    simp [mkTok, htext]
  have hstep2 :
      ({ text := (mkTok t false).text, convertEVLToXML := (mkTok t false).convertEVLToXML,
         position := (mkTok t false).position, xmlStack := (mkTok t false).xmlStack,
         savedCodeUnits := [], whitespace := [], lexeme := [],
         category := (mkTok t false).category, value := (mkTok t false).value,
         xmlName := (mkTok t false).xmlName } : Tok) = mkTok t false := rfl
  rw [nextToken]
  simp only [hstep, hsaved]
  rw [nextToken.go]
  simp only [hxs, Bool.not_true, Bool.false_and, hstep2,
    skipWhitespace_stop (mkTok t false) u0 hu hok hws]
  rw [if_neg hne, hrt]

theorem nextToken_string_plain (s : List Nat) (hall : s.all plainStrUnit = true) :
    nextToken (mkTok (0x22 :: (s ++ [0x22])) false) =
      .ok { text := 0x22 :: (s ++ [0x22]), convertEVLToXML := false,
            position := s.length + 2, xmlStack := [], savedCodeUnits := [],
            whitespace := [], lexeme := 0x22 :: (s ++ [0x22]),
            category := .stringC, value := some (.str s), xmlName := [] } := by
  apply nextToken_of_readToken _ 0x22 (s ++ [0x22]) _ rfl (by decide) (by decide)
  have hu : (mkTok (0x22 :: (s ++ [0x22])) false).text[(mkTok (0x22 ::
      (s ++ [0x22])) false).position]? = some 0x22 := by
    simp [mkTok]
  rw [readToken.eq_def]
  simp only [peekCharacter_ok _ 0x22 hu (by decide)]
  rw [readString_plain s [0x22] [] _ hall
    (by simp [mkTok, consumeCharacter]) (by simp [mkTok, consumeCharacter])]
  simp only [Except.ok.injEq, Prod.mk.injEq, Tok.mk.injEq, mkTok, consumeCharacter]
  simp
  omega

theorem all_protoOk_of_plainProto (s : List Nat) (h : s.all plainProtoUnit = true) :
    s.all protoOk = true := by
  simp only [List.all_eq_true] at h ⊢
  intro u hu
  obtain ⟨hp, -⟩ := plainProto_facts u (h u hu)
  exact hp

theorem protoOk_head_facts (u0 : Nat) (rest : List Nat)
    (hall : (u0 :: rest).all protoOk = true) :
    okUnit u0 = true ∧ isWhitespaceCharacter u0 = false := by
  simp only [List.all_cons, Bool.and_eq_true] at hall
  obtain ⟨hok, hws, -, -, -, -⟩ := protoOk_facts u0 hall.1
  exact ⟨hok, hws⟩

theorem nextToken_number_plain (u0 : Nat) (rest : List Nat)
    (hall : (u0 :: rest).all protoOk = true)
    (hdot : ¬(u0 :: rest = [0x2E])) (hnum : isNumberToken (u0 :: rest) = true) :
    nextToken (mkTok (u0 :: rest) false) =
      .ok { text := u0 :: rest, convertEVLToXML := false,
            position := rest.length + 1, xmlStack := [], savedCodeUnits := [],
            whitespace := [], lexeme := u0 :: rest, category := .numberC,
            value := some (.num (parseNumberToken (u0 :: rest))), xmlName := [] } := by
  obtain ⟨hok, hws⟩ := protoOk_head_facts u0 rest hall
  apply nextToken_of_readToken _ u0 rest _ rfl hok hws
  rw [readToken_via_proto (mkTok (u0 :: rest) false) u0 rest rfl rfl hall]
  simp only [if_neg hdot, hnum, if_true]
  simp [mkTok]

theorem nextToken_keyword_plain (u0 : Nat) (rest : List Nat)
    (hall : (u0 :: rest).all protoOk = true)
    (hdot : ¬(u0 :: rest = [0x2E])) (hnum : isNumberToken (u0 :: rest) = false)
    (hkw : isKeywordToken (u0 :: rest) = true) :
    nextToken (mkTok (u0 :: rest) false) =
      .ok { text := u0 :: rest, convertEVLToXML := false,
            position := rest.length + 1, xmlStack := [], savedCodeUnits := [],
            whitespace := [], lexeme := u0 :: rest, category := .keywordC,
            value := some (.keyword rest), xmlName := [] } := by
  obtain ⟨hok, hws⟩ := protoOk_head_facts u0 rest hall
  apply nextToken_of_readToken _ u0 rest _ rfl hok hws
  rw [readToken_via_proto (mkTok (u0 :: rest) false) u0 rest rfl rfl hall]
  simp only [if_neg hdot, hnum, hkw, Bool.false_eq_true, if_false, if_true]
  simp [mkTok]

theorem nextToken_variable_plain (u0 : Nat) (rest : List Nat)
    (hall : (u0 :: rest).all protoOk = true)
    (hdot : ¬(u0 :: rest = [0x2E])) (hnum : isNumberToken (u0 :: rest) = false)
    (hkw : isKeywordToken (u0 :: rest) = false)
    (hvar : isVariableToken (u0 :: rest) = true) :
    nextToken (mkTok (u0 :: rest) false) =
      .ok { text := u0 :: rest, convertEVLToXML := false,
            position := rest.length + 1, xmlStack := [], savedCodeUnits := [],
            whitespace := [], lexeme := u0 :: rest, category := .variableC,
            value := some (.varbl (u0 :: rest)), xmlName := [] } := by
  obtain ⟨hok, hws⟩ := protoOk_head_facts u0 rest hall
  apply nextToken_of_readToken _ u0 rest _ rfl hok hws
  rw [readToken_via_proto (mkTok (u0 :: rest) false) u0 rest rfl rfl hall]
  simp only [if_neg hdot, hnum, hkw, hvar, Bool.false_eq_true, if_false, if_true]
  simp [mkTok]

theorem readTop_string_plain (s : List Nat) (hall : s.all plainStrUnit = true)
    (n : Nat) (st : St) :
    readTop (n + 1) (mkTok (0x22 :: (s ++ [0x22])) false) st =
      .ok (some (.str s))
        { text := 0x22 :: (s ++ [0x22]), convertEVLToXML := false,
          position := s.length + 2, xmlStack := [], savedCodeUnits := [],
          whitespace := [], lexeme := 0x22 :: (s ++ [0x22]),
          category := .stringC, value := some (.str s), xmlName := [] } st := by
  rw [readTop]
  simp only [readObject, nextToken_string_plain s hall]

theorem readTop_number_plain (u0 : Nat) (rest : List Nat)
    (hall : (u0 :: rest).all protoOk = true)
    (hdot : ¬(u0 :: rest = [0x2E])) (hnum : isNumberToken (u0 :: rest) = true)
    (n : Nat) (st : St) :
    readTop (n + 1) (mkTok (u0 :: rest) false) st =
      .ok (some (.num (parseNumberToken (u0 :: rest))))
        { text := u0 :: rest, convertEVLToXML := false,
          position := rest.length + 1, xmlStack := [], savedCodeUnits := [],
          whitespace := [], lexeme := u0 :: rest, category := .numberC,
          value := some (.num (parseNumberToken (u0 :: rest))), xmlName := [] } st := by
  rw [readTop]
  simp only [readObject, nextToken_number_plain u0 rest hall hdot hnum]

theorem readTop_keyword_plain (u0 : Nat) (rest : List Nat)
    (hall : (u0 :: rest).all protoOk = true)
    (hdot : ¬(u0 :: rest = [0x2E])) (hnum : isNumberToken (u0 :: rest) = false)
    (hkw : isKeywordToken (u0 :: rest) = true) (n : Nat) (st : St) :
    readTop (n + 1) (mkTok (u0 :: rest) false) st =
      .ok (some (.keyword rest))
        { text := u0 :: rest, convertEVLToXML := false,
          position := rest.length + 1, xmlStack := [], savedCodeUnits := [],
          whitespace := [], lexeme := u0 :: rest, category := .keywordC,
          value := some (.keyword rest), xmlName := [] } st := by
  rw [readTop]
  simp only [readObject, nextToken_keyword_plain u0 rest hall hdot hnum hkw]

theorem readTop_variable_plain (u0 : Nat) (rest : List Nat)
    (hall : (u0 :: rest).all protoOk = true)
    (hdot : ¬(u0 :: rest = [0x2E])) (hnum : isNumberToken (u0 :: rest) = false)
    (hkw : isKeywordToken (u0 :: rest) = false)
    (hvar : isVariableToken (u0 :: rest) = true) (n : Nat) (st : St) :
    readTop (n + 1) (mkTok (u0 :: rest) false) st =
      .ok (some (.varbl (u0 :: rest)))
        { text := u0 :: rest, convertEVLToXML := false,
          position := rest.length + 1, xmlStack := [], savedCodeUnits := [],
          whitespace := [], lexeme := u0 :: rest, category := .variableC,
          value := some (.varbl (u0 :: rest)), xmlName := [] } st := by
  rw [readTop]
  simp only [readObject, nextToken_variable_plain u0 rest hall hdot hnum hkw hvar]

theorem span_all {p : Nat → Bool} {l : List Nat} (h : l.all p = true) :
    l.span p = (l, []) := by
  rw [List.span_eq_take_drop]
  induction l with
  | nil => rfl
  | cons u rest ih =>
    simp only [List.all_cons, Bool.and_eq_true] at h
    simp only [List.takeWhile_cons, List.dropWhile_cons, h.1, if_true]
    have := ih h.2
    simp only [Prod.mk.injEq] at this ⊢
    exact ⟨by rw [this.1], this.2⟩

theorem natDec_go_facts :
    ∀ (fuel n : Nat), n < fuel →
      digitsVal (natDec.go fuel n) = n ∧
      (natDec.go fuel n).all isDecimalDigit = true ∧
      natDec.go fuel n ≠ [] := by
  intro fuel
  induction fuel with
  | zero => intro n h; omega
  | succ f ih =>
    intro n h
    rw [natDec.go]
    by_cases hlt : n < 10
    · rw [if_pos hlt]
      refine ⟨?_, ?_, by simp⟩
      · simp [digitsVal]
      · simp [isDecimalDigit]
        omega
    · rw [if_neg hlt]
      obtain ⟨ihv, ihd, ihne⟩ := ih (n / 10) (by omega)
      refine ⟨?_, ?_, by simp⟩
      · simp only [digitsVal, List.foldl_append] at ihv ⊢
        simp [List.foldl_cons, ihv]
        omega
      · simp only [List.all_append, Bool.and_eq_true, ihd, List.all_cons,
          List.all_nil, Bool.and_true, true_and]
        simp [isDecimalDigit]
        omega

theorem natDec_facts (n : Nat) :
    digitsVal (natDec n) = n ∧ (natDec n).all isDecimalDigit = true ∧
    natDec n ≠ [] := by
  rw [natDec]
  exact natDec_go_facts (n + 1) n (by omega)

theorem digit_protoOk (u : Nat) (h : isDecimalDigit u = true) : protoOk u = true := by
  simp only [isDecimalDigit, Bool.and_eq_true, decide_eq_true_eq] at h
  simp only [protoOk, okUnit, isTrailingSurrogate, isLeadingSurrogate,
    isControlCharacter, isWhitespaceCharacter, isSyntaxCharacter, isNoncharacter,
    Bool.and_eq_true, Bool.not_eq_true', Bool.or_eq_false_iff, Bool.and_eq_false_iff,
    decide_eq_false_iff_not, decide_eq_true_eq, ne_eq]
  omega

theorem digits_all_protoOk (ds : List Nat) (h : ds.all isDecimalDigit = true) :
    ds.all protoOk = true := by
  simp only [List.all_eq_true] at h ⊢
  intro u hu
  exact digit_protoOk u (h u hu)

theorem digits_not_dot (ds : List Nat) (hne : ds ≠ [])
    (h : ds.all isDecimalDigit = true) : ¬(ds = [0x2E]) := by
  intro heq
  subst heq
  simp [isDecimalDigit] at h

theorem isNumberToken_digits (ds : List Nat) (hne : ds ≠ [])
    (hd : ds.all isDecimalDigit = true) : isNumberToken ds = true := by
  cases ds with
  | nil => exact absurd rfl hne
  | cons d ds2 =>
    have hdig : isDecimalDigit d = true := by
      simp only [List.all_cons, Bool.and_eq_true] at hd
      exact hd.1
    have hd2 : (0x30 ≤ d ∧ d ≤ 0x39) := by
      simp only [isDecimalDigit, Bool.and_eq_true, decide_eq_true_eq] at hdig
      exact hdig
    rw [isNumberToken]
    rw [if_neg (by simp; omega :
      ¬((decide (d = 0x2B) || decide (d = 0x2D)) = true))]
    rw [span_all hd]
    simp

theorem isNumberToken_neg_digits (ds : List Nat) (hne : ds ≠ [])
    (hd : ds.all isDecimalDigit = true) : isNumberToken (0x2D :: ds) = true := by
  rw [isNumberToken]
  rw [if_pos (by simp :
    (decide ((0x2D : Nat) = 0x2B) || decide ((0x2D : Nat) = 0x2D)) = true)]
  rw [span_all hd]
  simp [hne]

theorem parseNumberToken_digits (ds : List Nat) (hne : ds ≠ [])
    (hd : ds.all isDecimalDigit = true) :
    parseNumberToken ds = ratOfInt (digitsVal ds) := by
  cases ds with
  | nil => exact absurd rfl hne
  | cons d ds2 =>
    have hd2 : (0x30 ≤ d ∧ d ≤ 0x39) := by
      simp only [List.all_cons, Bool.and_eq_true] at hd
      have := hd.1
      simp only [isDecimalDigit, Bool.and_eq_true, decide_eq_true_eq] at this
      exact this
    obtain ⟨hb1, hb2⟩ := hd2
    interval_cases d <;>
      (rw [parseNumberToken.eq_def]; simp only [span_all hd]; simp)

theorem parseNumberToken_neg_digits (ds : List Nat) (_hne : ds ≠ [])
    (hd : ds.all isDecimalDigit = true) :
    parseNumberToken (0x2D :: ds) = ratOfInt (-(digitsVal ds : Int)) := by
  rw [parseNumberToken.eq_def]
  split
  next neg r heq =>
    injection heq with h1 h2
    subst h1
    subst h2
    rw [span_all hd]
    rfl

theorem isNumberToken_colon (name : List Nat) : isNumberToken (0x3A :: name) = false := by
  rw [isNumberToken]
  rw [if_neg (by simp :
    ¬((decide ((0x3A : Nat) = 0x2B) || decide ((0x3A : Nat) = 0x2D)) = true))]
  have hsp : List.span isDecimalDigit (0x3A :: name) = ([], 0x3A :: name) := by
    rw [List.span_eq_take_drop]
    simp [isDecimalDigit]
  rw [hsp]
  simp

theorem isKeywordToken_colon (name : List Nat) (hne : name ≠ [])
    (hnc : name.all (fun u => decide (u ≠ 0x3A)) = true) :
    isKeywordToken (0x3A :: name) = true := by
  simp only [isKeywordToken]
  simp_all

theorem isKeywordToken_not_colon (u0 : Nat) (rest : List Nat) (h : u0 ≠ 0x3A) :
    isKeywordToken (u0 :: rest) = false := by
  rw [isKeywordToken.eq_def]
  split
  · next heq => simp at heq; omega
  · rfl

theorem plainProto_no_colon (name : List Nat) (h : name.all plainProtoUnit = true) :
    name.all (fun u => decide (u ≠ 0x3A)) = true := by
  simp only [List.all_eq_true, decide_eq_true_eq] at h ⊢
  intro u hu
  exact (plainProto_facts u (h u hu)).2

theorem isVariableToken_plain (name : List Nat) (hne : name ≠ [])
    (h : name.all plainProtoUnit = true) : isVariableToken name = true := by
  rw [isVariableToken]
  have h2 := plainProto_no_colon name h
  simp only [List.all_eq_true, decide_eq_true_eq] at h2
  simp only [ne_eq] at h2
  simp [hne]
  exact h2

theorem evlEql_str_self (s : List Nat) : evlEql (.str s) (.str s) = true := by
  simp [evlEql]

theorem evlEql_keyword_self (s : List Nat) : evlEql (.keyword s) (.keyword s) = true := by
  simp [evlEql]

theorem evlEql_varbl_self (s : List Nat) : evlEql (.varbl s) (.varbl s) = true := by
  simp [evlEql]

theorem evlEql_num_self (x : Rat) : evlEql (.num x) (.num x) = true := by
  simp [evlEql]

theorem printV_str (n : Nat) (s : List Nat) (h : s.all plainStrUnit = true) :
    printV (n + 1) (.str s) = 0x22 :: (s ++ [0x22]) := by
  rw [printV.eq_def]
  show [0x22] ++ escapeCharacters s escapeStringCharacter ++ [0x22] = _
  rw [escapeCharacters_plainStr s h]
  simp

theorem printV_keyword (n : Nat) (s : List Nat) (h : s.all plainProtoUnit = true) :
    printV (n + 1) (.keyword s) = 0x3A :: s := by
  rw [printV.eq_def]
  show [0x3A] ++ escapeCharacters s escapeProtoTokenCharacter = _
  rw [escapeCharacters_plainProto s h]
  simp

theorem printV_varbl (n : Nat) (s : List Nat) (h : s.all plainProtoUnit = true) :
    printV (n + 1) (.varbl s) = s := by
  rw [printV.eq_def]
  show escapeCharacters s escapeProtoTokenCharacter = _
  rw [escapeCharacters_plainProto s h]

theorem printV_int (n : Nat) (i : Int) (h : i.natAbs < 10 ^ 21) :
    printV (n + 1) (.num (ratOfInt i)) = intDec i := by
  rw [printV.eq_def]
  show numToString (ratOfInt i) = _
  rw [numToString]
  split
  · split
    · rfl
    · next hge => exact absurd h hge
  · next hd => exact absurd rfl hd

theorem walkFeatures_any (st : St) (fe : Value) :
    ∀ es l, listElems l = some es →
      walkFeatures st fe l = .ok (es.any fun x => symEq x fe) := by
  intro es
  induction es with
  | nil => intro l h; rw [listElems_nil_inv h]; rfl
  | cons a tl ih =>
    intro l h
    obtain ⟨cid, cdr, rfl, hcdr⟩ := listElems_cons_inv h
    simp only [walkFeatures, List.any_cons]
    cases hs : symEq a fe with
    | true => simp only [hs, if_true, Bool.true_or]
    | false => simp only [hs, if_false, Bool.false_or]; exact ih cdr hcdr

theorem initializeEntry_go_host (n : Nat) :
    ∀ files h st last, ((initializeEntry.go n files h st last).2.1 : Host) = h := by
  intro files
  induction files with
  | nil => intro h st last; rfl
  | cons f rest ih =>
    intro h st last
    simp only [initializeEntry.go]
    cases hse : h.selectedEvaluator with
    | none => simp only [hse]
    | some ev =>
      simp only [hse]
      cases hl : evalFormsLoop ev n (hostSig h) (n + 1) (mkTok f false) st last with
      | timeout => simp only [hl]
      | err e st2 => simp only [hl]
      | ok r st2 => simp only [hl]; exact ih h st2 r

/-- C3: the specified converter (context compared with equality) emits
top-level whitespace verbatim, wraps EVL runs in
toplevelcode/blockcode only inside XML context and keeps EVL context
unwrapped; the converter as written (context assigned, not compared)
emits spurious indentation markup at the top level, diverging from the
specified behaviour on the text `(foo) <a/>`. -/
theorem C3_converter_context_dispatch :
    (doConvertEVLToXMLSpec 99 (mkTok (nm "(foo) <a/>") true) = .ok (nm "(foo) <a/>")
  ∧ doConvertEVLToXMLSpec 99 (mkTok (nm "x  y") true) = .ok (nm "x  y")
  ∧ doConvertEVLToXMLSpec 99 (mkTok (nm "<chapter>text (foo) more</chapter>") true) =
      .ok (nm "<chapter><toplevelcode><blockcode>text (foo) more</blockcode></toplevelcode></chapter>")
  ∧ doConvertEVLToXMLSpec 99 (mkTok (nm "(a (b) c)") true) = .ok (nm "(a (b) c)"))
  ∧ doConvertEVLToXML 99 (mkTok (nm "(foo) <a/>") true) =
      .ok (nm "(foo)</blockcode><indentation style=" ++ [0x22] ++
        nm "margin-left: 0ch;" ++ [0x22] ++ nm "><blockcomment> <a/>")
  ∧ (nm "(foo)</blockcode><indentation style=" ++ [0x22] ++
        nm "margin-left: 0ch;" ++ [0x22] ++ nm "><blockcomment> <a/>" : List Nat) ≠
      nm "(foo) <a/>" :=
  ⟨⟨by rfl, by rfl, by rfl, by rfl⟩, by rfl, by decide⟩

/-- C7: a read-time conditional reads the feature expression and the
conditionalized object unconditionally and keeps the object exactly when
the feature expression evaluates to the polarity; `readObject` keeps or
skips accordingly; feature expressions are evaluated over `not`, `and`,
`or` and symbols looked up in the global feature list. -/
theorem C7_read_time_conditional :
    (∀ n polarity tk st fe tk2 st2 v tk3 st3 b,
       readFeatureExpression n tk st = .ok fe tk2 st2 →
       readConditionalizedObject n tk2 st2 = .ok v tk3 st3 →
       evaluateFeatureExpression st3 fe = .ok b →
       readReadTimeConditional (n + 1) polarity tk st =
         .ok (if b = polarity then some v else none) tk3 st3)
  ∧ (∀ n tk st tk1 tk2 st2 v,
       nextToken tk = .ok tk1 →
       tk1.category = .hashPlusC →
       readReadTimeConditional n true tk1 st = .ok (some v) tk2 st2 →
       readObject (n + 1) tk st = .ok (.objR v) tk2 st2)
  ∧ (∀ n tk st tk1 tk2 st2,
       nextToken tk = .ok tk1 →
       tk1.category = .hashMinusC →
       readReadTimeConditional n false tk1 st = .ok none tk2 st2 →
       readObject (n + 1) tk st = readObject n tk2 st2)
  ∧ (∀ st name l es,
       globalRef st .val (nm "*features*") = .ok l →
       listElems l = some es →
       evaluateFeatureExpression st (.varbl name) =
         .ok (es.any fun x => symEq x (.varbl name)))
  ∧ (∀ st cid cid2 e b, evaluateFeatureExpression st e = .ok b →
       evaluateFeatureExpression st
         (.cons cid (.varbl (nm "not")) (.cons cid2 e .nil)) = .ok !b)
  ∧ (∀ st cid cdr, evaluateFeatureExpression st (.cons cid (.varbl (nm "and")) cdr) =
       evaluateAndFE st cdr)
  ∧ (∀ st cid cdr, evaluateFeatureExpression st (.cons cid (.varbl (nm "or")) cdr) =
       evaluateOrFE st cdr)
  ∧ (∀ st, evaluateAndFE st .nil = .ok true)
  ∧ (∀ st, evaluateOrFE st .nil = .ok false)
  ∧ (∀ st cid e cdr b, evaluateFeatureExpression st e = .ok b →
       evaluateAndFE st (.cons cid e cdr) =
         if b then evaluateAndFE st cdr else .ok false)
  ∧ (∀ st cid e cdr b, evaluateFeatureExpression st e = .ok b →
       evaluateOrFE st (.cons cid e cdr) =
         if b then .ok true else evaluateOrFE st cdr) := by
  refine ⟨?_, ?_, ?_, ?_, ?_,
    by intro st cid cdr; rw [evaluateFeatureExpression.eq_def]; rfl,
    by intro st cid cdr; rw [evaluateFeatureExpression.eq_def]; rfl,
    by intro st; rw [evaluateAndFE.eq_def], by intro st; rw [evaluateOrFE.eq_def], ?_, ?_⟩
  · intro n polarity tk st fe tk2 st2 v tk3 st3 b h1 h2 h3
    simp only [readReadTimeConditional, h1, h2, h3]
  · intro n tk st tk1 tk2 st2 v h1 h2 h3
    simp only [readObject, h1, h2, h3]
  · intro n tk st tk1 tk2 st2 h1 h2 h3
    simp only [readObject, h1, h2, h3]
  · intro st name l es hg he
    rw [evaluateFeatureExpression.eq_def]
    show evaluateSymbolFE st (.varbl name) = _
    rw [evaluateSymbolFE.eq_def, hg]
    exact walkFeatures_any st (.varbl name) es l he
  · intro st cid cid2 e b h
    rw [evaluateFeatureExpression.eq_def]
    simp only [h]
    rfl
  · intro st cid e cdr b h
    rw [evaluateAndFE.eq_def]
    simp only [h]
    rfl
  · intro st cid e cdr b h
    rw [evaluateOrFE.eq_def]
    simp only [h]
    rfl

/-- C7 witness: with an empty feature list, reading `q x` under `#+`
discards `x` but consumes both reads, and under `#-` keeps `x`; both
outcomes end at the same tokenizer position and state. -/
theorem C7_read_time_conditional_witness :
    readReadTimeConditional 10 true c7tok0 c7st = .ok none c7tok2 c7st2 ∧
    readReadTimeConditional 10 false c7tok0 c7st =
      .ok (some (.varbl (nm "x"))) c7tok2 c7st2 :=
  ⟨C7_read_time_conditional.1 9 true c7tok0 c7st (.varbl (nm "q")) c7tok1 c7st1
     (.varbl (nm "x")) c7tok2 c7st2 false (by rfl) (by rfl) (by rfl),
   C7_read_time_conditional.1 9 false c7tok0 c7st (.varbl (nm "q")) c7tok1 c7st1
     (.varbl (nm "x")) c7tok2 c7st2 false (by rfl) (by rfl) (by rfl)⟩

/-- C8: when reading the first form raises `TruncatedToken` or
`UnexpectedEndOfInput`, or finds no form, `evaluateFirstForm` answers
`FOUND_NO_FORM`; any other reader exception (not an abort) answers
`ERROR`; concretely on the unclosed `( 1 2`, the empty text, an unclosed
string, and a stray closing parenthesis. -/
theorem C8_first_form_error_classification :
    (∀ ev n h text st e tk st2,
       readTop n (mkTok text false) st = .err e tk st2 →
       (e.isTruncatedToken || e.isUnexpectedEndOfInput) = true →
       (evaluateFirstForm ev n h text st).1 = .foundNoForm)
  ∧ (∀ ev n h text st tk st2,
       readTop n (mkTok text false) st = .ok none tk st2 →
       (evaluateFirstForm ev n h text st).1 = .foundNoForm)
  ∧ (∀ ev n h text st e tk st2,
       readTop n (mkTok text false) st = .err e tk st2 →
       (e.isTruncatedToken || e.isUnexpectedEndOfInput) = false →
       e ≠ .aborted →
       (evaluateFirstForm ev n h text st).1 = .error (errMessage e))
  ∧ (evaluateFirstForm .plainrecE 300 host0 (nm "( 1 2") initialState).1 = .foundNoForm
  ∧ (evaluateFirstForm .plainrecE 300 host0 (nm "") initialState).1 = .foundNoForm
  ∧ (evaluateFirstForm .plainrecE 300 host0 ([0x22] ++ nm "abc") initialState).1 = .foundNoForm
  ∧ (evaluateFirstForm .plainrecE 300 host0 (nm ")") initialState).1 =
      .error (nm "Unexpected closing parenthesis.") := by
  refine ⟨?_, ?_, ?_, by rfl, by rfl, by rfl, by rfl⟩
  · intro ev n h text st e tk st2 hr hb
    simp only [evaluateFirstForm, hr, hb, if_true]
  · intro ev n h text st tk st2 hr
    simp only [evaluateFirstForm, hr]
  · intro ev n h text st e tk st2 hr hb hne
    simp only [evaluateFirstForm, hr, hb, Bool.false_eq_true, if_false,
      abortedOrError, if_neg hne]

/-- C8 witness: reading the unclosed `( 1` raises `UnexpectedEndOfInput`
and the response status is `FOUND_NO_FORM`. -/
theorem C8_first_form_error_classification_witness :
    (evaluateFirstForm .cpsE 200 host0 (nm "( 1") initialState).1 = .foundNoForm :=
  C8_first_form_error_classification.1 .cpsE 200 host0 (nm "( 1") initialState
    .unexpectedEndOfInput c8tok c8st (by rfl) (by rfl)

/-- C10: `evaluateFirstForm` and `evaluateAllForms` clear the abort byte
to 0 on entry when a buffer is installed and touch nothing else of the
host state; `initialize` installs the buffer without writing to it and
selects the evaluator; `convertEVLToXML` leaves the host state alone. -/
theorem C10_abort_flag_handling :
    (∀ ev n h text st, ((evaluateFirstForm ev n h text st).2.1 : Host) =
        { h with abortByte := h.abortByte.map fun _ => 0 })
  ∧ (∀ ev n h text st, ((evaluateAllForms ev n h text st).2.1 : Host) =
        { h with abortByte := h.abortByte.map fun _ => 0 })
  ∧ (∀ n input h st, ((initializeEntry n input h st).2.1 : Host) =
        { abortByte := some input.abortByte,
          selectedEvaluator := some input.selectedEvaluator })
  ∧ (∀ n h text, ((convertEVLToXML n h text).2 : Host) = h)
  ∧ (∀ ev n se text st,
      ((evaluateFirstForm ev n { abortByte := some 1, selectedEvaluator := se }
        text st).2.1 : Host) = { abortByte := some 0, selectedEvaluator := se })
  ∧ (∀ ev n se text st,
      ((evaluateFirstForm ev n { abortByte := none, selectedEvaluator := se }
        text st).2.1 : Host) = { abortByte := none, selectedEvaluator := se }) := by
  refine ⟨?_, ?_, ?_, ?_, ?_, ?_⟩
  · intro ev n h text st
    simp only [evaluateFirstForm]
    split
    · rfl
    · split <;> rfl
    · rfl
    · split <;> rfl
  · intro ev n h text st
    simp only [evaluateAllForms]
    split <;> rfl
  · intro n input h st
    simp only [initializeEntry]
    exact initializeEntry_go_host n _ _ _ _
  · intro n h text
    simp only [convertEVLToXML]
    split <;> rfl
  · intro ev n se text st
    simp only [evaluateFirstForm]
    split
    · rfl
    · split <;> rfl
    · rfl
    · split <;> rfl
  · intro ev n se text st
    simp only [evaluateFirstForm]
    split
    · rfl
    · split <;> rfl
    · rfl
    · split <;> rfl

/-- C9: reading back a printed value round-trips to an eql value on the
atom subset: void, booleans, the empty list, every integer of magnitude
below 2^53, every string of plainly printable units, every nonempty
keyword name of plainly printable proto-token units, and every nonempty
variable name of such units that is neither the dot token nor
number-shaped; escape sequences round-trip on concrete exemplars.
Conses round-trip only structurally (see the counterexample): the
reader allocates a fresh identity, and eql on conses compares
identities.  The magnitude bound is where the source is faithful to the
decimal model: below 2^53 the double holds the integer exactly,
`Number.prototype.toString` prints its decimal digits (the exponent
notation starts at 10^21, where for instance the double 10^21 prints as
the characters of `1e+21`, a variable token that does not read back
eql), and `Number.parseFloat` recovers it exactly. -/
theorem C9_print_read_roundtrip :
    (∀ st : St, printV 9 .void = nm "#v"
      ∧ (∃ tk, readTop 9 (mkTok (nm "#v") false) st = .ok (some .void) tk st)
      ∧ evlEql .void .void = true)
  ∧ (∀ st : St, printV 9 (.bool true) = nm "#t"
      ∧ (∃ tk, readTop 9 (mkTok (nm "#t") false) st = .ok (some (.bool true)) tk st)
      ∧ printV 9 (.bool false) = nm "#f"
      ∧ (∃ tk, readTop 9 (mkTok (nm "#f") false) st = .ok (some (.bool false)) tk st)
      ∧ evlEql (.bool true) (.bool true) = true)
  ∧ (∀ st : St, printV 9 .nil = nm "()"
      ∧ (∃ tk, readTop 9 (mkTok (nm "()") false) st = .ok (some .nil) tk st)
      ∧ evlEql .nil .nil = true)
  ∧ (∀ (i : Int) (n : Nat) (st : St), i.natAbs < 2 ^ 53 →
      printV (n + 1) (.num (ratOfInt i)) = intDec i
      ∧ (∃ tk, readTop (n + 1) (mkTok (intDec i) false) st =
          .ok (some (.num (ratOfInt i))) tk st)
      ∧ evlEql (.num (ratOfInt i)) (.num (ratOfInt i)) = true)
  ∧ (∀ (s : List Nat) (n : Nat) (st : St), s.all plainStrUnit = true →
      printV (n + 1) (.str s) = 0x22 :: (s ++ [0x22])
      ∧ (∃ tk, readTop (n + 1) (mkTok (0x22 :: (s ++ [0x22])) false) st =
          .ok (some (.str s)) tk st)
      ∧ evlEql (.str s) (.str s) = true)
  ∧ (∀ (name : List Nat) (n : Nat) (st : St), name ≠ [] →
      name.all plainProtoUnit = true →
      printV (n + 1) (.keyword name) = 0x3A :: name
      ∧ (∃ tk, readTop (n + 1) (mkTok (0x3A :: name) false) st =
          .ok (some (.keyword name)) tk st)
      ∧ evlEql (.keyword name) (.keyword name) = true)
  ∧ (∀ (name : List Nat) (n : Nat) (st : St), name ≠ [] →
      name.all plainProtoUnit = true → name ≠ [0x2E] →
      isNumberToken name = false →
      printV (n + 1) (.varbl name) = name
      ∧ (∃ tk, readTop (n + 1) (mkTok name false) st =
          .ok (some (.varbl name)) tk st)
      ∧ evlEql (.varbl name) (.varbl name) = true)
  ∧ (printV 9 (.str [0x61, 0x5C, 0x22, 0xA]) =
        [0x22, 0x61, 0x5C, 0x5C, 0x5C, 0x22, 0x5C, 0x6E, 0x22]
      ∧ (∃ tk st2, readTop 9
          (mkTok [0x22, 0x61, 0x5C, 0x5C, 0x5C, 0x22, 0x5C, 0x6E, 0x22] false)
          initialState = .ok (some (.str [0x61, 0x5C, 0x22, 0xA])) tk st2))
  ∧ (printV 9 (.keyword [0x6B, 0x20]) = [0x3A, 0x6B] ++ unicodeEscape 0x20
      ∧ (∃ tk st2, readTop 9 (mkTok ([0x3A, 0x6B] ++ unicodeEscape 0x20) false)
          initialState = .ok (some (.keyword [0x6B, 0x20])) tk st2))
  ∧ (printV 9 (.varbl [0x78, 0x3C]) = [0x78, 0x5C, 0x3C]
      ∧ (∃ tk st2, readTop 9 (mkTok [0x78, 0x5C, 0x3C] false) initialState =
          .ok (some (.varbl [0x78, 0x3C])) tk st2)) := by
  refine ⟨?_, ?_, ?_, ?_, ?_, ?_, ?_,
    ⟨by rfl, ⟨_, _, by rfl⟩⟩, ⟨by rfl, ⟨_, _, by rfl⟩⟩, ⟨by rfl, ⟨_, _, by rfl⟩⟩⟩
  · intro st
    exact ⟨by rfl, ⟨_, by rfl⟩, by rfl⟩
  · intro st
    exact ⟨by rfl, ⟨_, by rfl⟩, by rfl, ⟨_, by rfl⟩, by rfl⟩
  · intro st
    exact ⟨by rfl, ⟨_, by rfl⟩, by rfl⟩
  · intro i n st hmag
    refine ⟨printV_int n i (lt_of_lt_of_le hmag (by norm_num)), ?_, evlEql_num_self _⟩
    match i with
    | .ofNat m =>
      obtain ⟨hval, hdig, hne⟩ := natDec_facts m
      have hproto := digits_all_protoOk _ hdig
      have hdot := digits_not_dot _ hne hdig
      have hnum := isNumberToken_digits _ hne hdig
      cases hnd : natDec m with
      | nil => exact absurd hnd hne
      | cons d rest =>
        rw [hnd] at hproto hdot hnum
        exact ⟨_, by
          show readTop (n + 1) (mkTok (natDec m) false) st = _
          rw [hnd]
          rw [readTop_number_plain d rest hproto hdot hnum n st]
          rw [parseNumberToken_digits (d :: rest) (by simp) (by rw [← hnd]; exact hdig)]
          rw [show digitsVal (d :: rest) = m from by rw [← hnd]; exact hval]
          rfl⟩
    | .negSucc m =>
      obtain ⟨hval, hdig, hne⟩ := natDec_facts (m + 1)
      have hproto := digits_all_protoOk _ hdig
      exact ⟨_, by
        show readTop (n + 1) (mkTok (0x2D :: natDec (m + 1)) false) st = _
        rw [readTop_number_plain 0x2D (natDec (m + 1))
          (by simp only [List.all_cons, Bool.and_eq_true]; exact ⟨by decide, hproto⟩)
          (by cases hnd : natDec (m + 1) with
              | nil => exact absurd hnd hne
              | cons d rest => simp)
          (isNumberToken_neg_digits _ hne hdig) n st]
        rw [parseNumberToken_neg_digits _ hne hdig, hval]
        have hns : -((m + 1 : Nat) : Int) = Int.negSucc m := by
          rw [Int.negSucc_eq]
          push_cast
          ring
        rw [hns]⟩
  · intro s n st hall
    refine ⟨printV_str n s hall, ⟨_, readTop_string_plain s hall n st⟩,
      evlEql_str_self s⟩
  · intro name n st hne hall
    have hproto : (0x3A :: name).all protoOk = true := by
      simp only [List.all_cons, Bool.and_eq_true]
      exact ⟨by decide, all_protoOk_of_plainProto name hall⟩
    exact ⟨printV_keyword n name hall, ⟨_, by
      rw [readTop_keyword_plain 0x3A name hproto (by simp) (isNumberToken_colon name)
        (isKeywordToken_colon name hne (plainProto_no_colon name hall)) n st]⟩,
      evlEql_keyword_self name⟩
  · intro name n st hne hall hdot hnum
    cases name with
    | nil => exact absurd rfl hne
    | cons u0 rest =>
      have hu0 : plainProtoUnit u0 = true := by
        simp only [List.all_cons, Bool.and_eq_true] at hall
        exact hall.1
      exact ⟨printV_varbl n _ hall, ⟨_, by
        rw [readTop_variable_plain u0 rest (all_protoOk_of_plainProto _ hall) hdot hnum
          (isKeywordToken_not_colon u0 rest (plainProto_facts u0 hu0).2)
          (isVariableToken_plain _ hne hall) n st]⟩, evlEql_varbl_self _⟩

/-- C9 counterexample: printing the cons with identity 5 and reading the
text back yields a cons with the fresh identity 0, structurally equal
after erasing identities but not eql. -/
theorem C9_roundtrip_counterexample :
    printV 9 (.cons 5 (.bool true) .nil) = nm "(#t)"
  ∧ (∃ tk st, readTop 99 (mkTok (nm "(#t)") false) initialState =
      .ok (some (.cons 0 (.bool true) .nil)) tk st)
  ∧ evlEql (.cons 5 (.bool true) .nil) (.cons 0 (.bool true) .nil) = false
  ∧ stripIds (.cons 5 (.bool true) .nil) = stripIds (.cons 0 (.bool true) .nil) :=
  ⟨by rfl, ⟨_, _, by rfl⟩, by rfl, by rfl⟩

/-- C9 witness: the universal round-trips applied to the string `ab`,
the variable `foo`, the keyword `:k` and the number -12. -/
theorem C9_print_read_roundtrip_witness :
    (printV 3 (.str [0x61, 0x62]) = 0x22 :: ([0x61, 0x62] ++ [0x22])
      ∧ (∃ tk, readTop 3 (mkTok (0x22 :: ([0x61, 0x62] ++ [0x22])) false) initialState =
          .ok (some (.str [0x61, 0x62])) tk initialState)
      ∧ evlEql (.str [0x61, 0x62]) (.str [0x61, 0x62]) = true)
  ∧ (printV 3 (.varbl [0x66, 0x6F, 0x6F]) = [0x66, 0x6F, 0x6F]
      ∧ (∃ tk, readTop 3 (mkTok [0x66, 0x6F, 0x6F] false) initialState =
          .ok (some (.varbl [0x66, 0x6F, 0x6F])) tk initialState)
      ∧ evlEql (.varbl [0x66, 0x6F, 0x6F]) (.varbl [0x66, 0x6F, 0x6F]) = true)
  ∧ (printV 3 (.keyword [0x6B]) = 0x3A :: [0x6B]
      ∧ (∃ tk, readTop 3 (mkTok (0x3A :: [0x6B]) false) initialState =
          .ok (some (.keyword [0x6B])) tk initialState)
      ∧ evlEql (.keyword [0x6B]) (.keyword [0x6B]) = true)
  ∧ (printV 3 (.num (ratOfInt (-12))) = intDec (-12)
      ∧ (∃ tk, readTop 3 (mkTok (intDec (-12)) false) initialState =
          .ok (some (.num (ratOfInt (-12)))) tk initialState)
      ∧ evlEql (.num (ratOfInt (-12))) (.num (ratOfInt (-12))) = true) :=
  ⟨C9_print_read_roundtrip.2.2.2.2.1 [0x61, 0x62] 2 initialState (by decide),
   C9_print_read_roundtrip.2.2.2.2.2.2.1 [0x66, 0x6F, 0x6F] 2 initialState (by decide) (by decide)
     (by decide) (by decide),
   C9_print_read_roundtrip.2.2.2.2.2.1 [0x6B] 2 initialState (by decide) (by decide),
   C9_print_read_roundtrip.2.2.2.1 (-12) 2 initialState (by decide)⟩

end EVL
